import Mathlib

/-! # Consent, privacy-settings and retention policy of the campus journaling server

A shallow embedding of `src/server` (Express route handlers, the `auth` and
`requireConsent` middleware, the `User` and `JournalEntry` models) followed by the
properties proved about it.

Conventions of the embedding.

* A `Date` is its time value: an `Int` number of milliseconds since the epoch.
* The document store is a pair of lists (users, journal entries). `findOne` and
  `findById` read it; `save` either raises (schema validation or the write itself
  fails, which the environment decides per document) or stores the document it is
  given. `User.schemaValid` is the validation of the user schema and `schemaEnv` an
  environment that enforces it. The library-managed `createdAt`/`updatedAt` of user
  documents are not represented. The route parameter `:id` is given as the query
  casts it: an object id, or nothing when the cast raises.
* Values of the consent, privacy and preferences bodies are `JsVal` (null, booleans,
  integral numbers, strings), as a JSON or url-encoded body delivers them; the
  validators of `express-validator` and the schema casts are defined on them. Journal
  bodies are records whose values already have their declared types.
* `createdAt` of a journal entry is stamped by `save`; `updatedAt` is not represented.
* A handler answers `Except Reply α`: `.error r` is a non-2xx reply, `.ok a` the
  payload of the success reply.
* An aggregation pipeline is the composition of its stages on the list of entries, in
  the order of the collection; a read of the store does not raise. The numbers of a
  pipeline are binary64 doubles, held as the rationals they denote: `$avg` and
  `$round` round as the database does (`toDouble`, `toDecimal34`). A query parameter
  is a string or absent (a repeated parameter, which arrives as an array, is not
  represented).
* `index.js` mounts the journal, analytics and user routers behind the name `auth`,
  which it binds to the exports object of the middleware module (`Route.mountArgs`);
  the mount is read as the function `auth` of that module (`MountArg.read`).
-/

namespace Personal

/-! ## Time -/

/-- Milliseconds in a day of 24 hours. -/
def msPerDay : Int := 24 * 60 * 60 * 1000

/-- The time zone of the server process, as ECMAScript sees it: the offset in
milliseconds of local time from UTC at a UTC time value (`LocalTZA(t, true)`) and at a
local time value (`LocalTZA(t, false)`). -/
structure Zone where
  offsetAtUtc : Int → Int
  offsetAtLocal : Int → Int

/-- ECMAScript `LocalTime(t)`. -/
def Zone.localTime (z : Zone) (t : Int) : Int := t + z.offsetAtUtc t

/-- ECMAScript `UTC(t)`. -/
def Zone.utc (z : Zone) (t : Int) : Int := t - z.offsetAtLocal t

/-- The time value of a date `d` after `d.setDate(d.getDate() + n)`: the local time is
moved by `n` calendar days (`MakeDay(year, month, date + n)` is `Day(local) + n`, the
time within the day is kept) and converted back to UTC. -/
def Zone.setDatePlus (z : Zone) (t n : Int) : Int :=
  z.utc (z.localTime t + n * msPerDay)

/-- A zone whose offset never changes (UTC, or any zone without daylight saving). -/
def Zone.fixed (off : Int) : Zone :=
  { offsetAtUtc := fun _ => off, offsetAtLocal := fun _ => off }

/-- A zone that is five hours behind UTC before the UTC instant `switch` and four
hours behind from then on (one daylight-saving change; a local time skipped by the
change is read with the offset in force before it). -/
def Zone.springForward (switch : Int) : Zone :=
  { offsetAtUtc := fun t => if t < switch then -18000000 else -14400000
    offsetAtLocal := fun t => if t < switch - 14400000 then -18000000 else -14400000 }

/-! ## Request values and the validators of `express-validator` -/

/-- A value found under a key of `req.body`. -/
inductive JsVal where
  | null
  | bool (b : Bool)
  | num (n : Int)
  | str (s : String)
  deriving DecidableEq, Repr

/-- A request body: the keys of `req.body` with their values. `body[key]` is the first
binding of `key`. -/
abbrev Body := List (String × JsVal)

/-- The value of `req.body[key]`; `none` is `undefined`. -/
def Body.get (b : Body) (key : String) : Option JsVal := b.lookup key

/-- The names returned by `Object.keys(req.body)`. -/
def Body.keys (b : Body) : List String := b.map Prod.fst

/-- The string a validator sees: `express-validator` converts every value to a string
before handing it to a standard validator (`null` and `undefined` become the empty
string). -/
def JsVal.toStr : JsVal → String
  | .null => ""
  | .bool true => "true"
  | .bool false => "false"
  | .num n => toString n
  | .str s => s

/-- The value of a run of decimal digits, most significant first. -/
def digitsValue? : List Char → Option Nat
  | [] => none
  | cs => cs.foldl (fun acc c =>
      match acc with
      | none => none
      | some n => if c.isDigit then some (10 * n + (c.toNat - 48)) else none) (some 0)

/-- The number written by `[0-9]+`. -/
def plainNat? (cs : List Char) : Option Nat := digitsValue? cs

/-- The integer written by a string that matches `^[-+]?[0-9]+$`, the pattern `isInt`
tests (leading zeroes are allowed unless the option `allow_leading_zeroes` is set to
false, which no validator of the server does). -/
def plainInt? (s : String) : Option Int :=
  match s.toList with
  | '-' :: cs => (plainNat? cs).map (fun n => -(n : Int))
  | '+' :: cs => (plainNat? cs).map (fun n => (n : Int))
  | cs => (plainNat? cs).map (fun n => (n : Int))

/-- The integer a value denotes for `isInt`: an integral number prints as a plain
decimal numeral; a string must be one; nothing else is. -/
def JsVal.asInt? : JsVal → Option Int
  | .num n => some n
  | .str s => plainInt? s
  | _ => none

/-- Validator `isInt({ min, max })`. -/
def isInt (min max : Int) (v : JsVal) : Bool :=
  match v.asInt? with
  | some n => decide (min ≤ n) && decide (n ≤ max)
  | none => false

/-- Validator `isBoolean()`: the string form is one of `true`, `false`, `1`, `0`; so
the booleans, the numbers 1 and 0 and those four strings pass. -/
def isBoolean : JsVal → Bool
  | .null => false
  | .bool _ => true
  | .num n => n = 1 ∨ n = 0
  | .str s => s = "true" ∨ s = "false" ∨ s = "1" ∨ s = "0"

/-- Validator `notEmpty()`: the string form is not the empty string. -/
def notEmpty (v : JsVal) : Bool := v.toStr ≠ ""

/-- Validator `isIn(values)`: the string form is one of `values`. -/
def isIn (values : List String) (v : JsVal) : Bool := values.contains v.toStr

/-- A required field: `undefined` is validated as the empty string, so it fails every
validator used here; the result is the failing field name, if any. -/
def checkRequired (b : Body) (field : String) (valid : JsVal → Bool) : Option String :=
  match b.get field with
  | some v => if valid v then none else some field
  | none => some field

/-- A field declared `.optional()`: skipped when `undefined`. -/
def checkOptional (b : Body) (field : String) (valid : JsVal → Bool) : Option String :=
  match b.get field with
  | some v => if valid v then none else some field
  | none => none

/-! ## Schema casts (Mongoose) -/

/-- Cast to a `Number` path. Behind the route validators only integral numbers and
plain decimal numerals arrive; those are the cases represented, anything else is
reported as a cast failure. -/
def castNumber (v : JsVal) : Option Int := v.asInt?

/-- Cast to a `Boolean` path: `true`, `'true'`, `1`, `'1'`, `'yes'` are true and
`false`, `'false'`, `0`, `'0'`, `'no'` are false; other values fail to cast. -/
def castBoolean : JsVal → Option Bool
  | .bool b => some b
  | .num n => if n = 1 then some true else if n = 0 then some false else none
  | .str s =>
      if s = "true" ∨ s = "1" ∨ s = "yes" then some true
      else if s = "false" ∨ s = "0" ∨ s = "no" then some false
      else none
  | .null => none

/-- Cast to a `String` path. -/
def castString : JsVal → Option String
  | .null => none
  | v => some v.toStr

/-! ## Data model -/

/-- Field `privacySettings` of the user schema. -/
structure PrivacySettings where
  dataRetention : Int
  analyticsOptIn : Bool
  shareAnonymizedData : Bool
  deriving DecidableEq, Repr

/-- Field `preferences` of the user schema. -/
structure Preferences where
  colorTheme : String
  reminderFrequency : String
  journalPrompts : Bool
  deriving DecidableEq, Repr

/-- Schema defaults of `preferences`. -/
def Preferences.default : Preferences :=
  { colorTheme := "calming", reminderFrequency := "daily", journalPrompts := true }

/-- Field `accountStatus`. -/
inductive AccountStatus where
  | active
  | suspended
  | deleted
  deriving DecidableEq, Repr

/-- A user document. `email` holds the stored form (the schema setter hashes it). -/
structure User where
  _id : Nat
  auth0Id : String
  email : String
  displayName : String
  privacySettings : PrivacySettings
  preferences : Preferences
  consentVersion : String
  consentDate : Option Int
  lastActive : Int
  accountStatus : AccountStatus
  deriving DecidableEq, Repr

/-- One element of `entry.mood.colors`; the schema requires neither path (`none` is
an absent one). An intensity is any number the schema accepts, held as a rational. -/
structure MoodColor where
  color : Option String
  intensity : Option ℚ
  deriving DecidableEq, Repr

/-- Field `entry.mood`. -/
structure Mood where
  scale : Int
  colors : List MoodColor
  tags : List String
  deriving DecidableEq, Repr

/-- Field `entry.prompts`. -/
structure Prompts where
  gratitude : List String
  challenges : List String
  goals : List String
  reflections : List String
  deriving DecidableEq, Repr

/-- Field `entry.context`. -/
structure Context where
  location : Option String
  timeOfDay : Option String
  stressLevel : Option Int
  deriving DecidableEq, Repr

/-- Field `entry` of a journal document. -/
structure EntryFields where
  content : String
  mood : Mood
  prompts : Prompts
  context : Context
  deriving DecidableEq, Repr

/-- Field `privacy` of a journal document. -/
structure EntryPrivacy where
  isPrivate : Bool
  shareWithCounselor : Bool
  anonymousSharing : Bool
  deriving DecidableEq, Repr

/-- Field `analytics` of a journal document (`sentiment` as score and confidence in
hundredths). -/
structure Analytics where
  readTime : Option Nat
  editCount : Option Nat
  sentiment : Option (Int × Int)
  deriving DecidableEq, Repr

/-- A journal entry document. -/
structure JournalEntry where
  _id : Nat
  userId : Nat
  entry : EntryFields
  privacy : EntryPrivacy
  analytics : Analytics
  expiresAt : Option Int
  createdAt : Int
  deriving DecidableEq, Repr

/-- The persisted state: both collections and the next document id. -/
structure Store where
  users : List User
  entries : List JournalEntry
  nextId : Nat
  deriving DecidableEq, Repr

/-- What a request cannot control: the clock, the server time zone, the email hash of
the schema setter, the time that passes between stamping `createdAt` and the clock
read of the expiry hook, whether the hook's user lookup or the real-time relay raise,
and for which documents `save` raises. -/
structure Env where
  now : Int
  zone : Zone
  hashEmail : String → String
  hookDelay : Int
  userLookupRaises : Bool
  relayRaises : Bool
  rejectsUser : User → Bool
  rejectsEntry : JournalEntry → Bool

/-- The fields of a reply that the policy reads. -/
structure Reply where
  status : Nat
  message : String
  requiresConsent : Bool
  errors : List String
  deriving DecidableEq, Repr

/-- The verified token payload (`req.user` after `jwtCheck`). -/
structure Claims where
  sub : String
  email : Option String
  name : Option String
  deriving DecidableEq, Repr

/-- The JavaScript `a || b` on an optional string: `undefined` and the empty string are
falsy. -/
def orDefault (a : Option String) (b : String) : String :=
  match a with
  | some s => if s = "" then b else s
  | none => b

/-! ## Storage layer -/

/-- The query `User.findOne({ auth0Id })`. -/
def User.findOne (s : Store) (auth0Id : String) : Option User :=
  s.users.find? (fun u => u.auth0Id = auth0Id)

/-- The query `User.findById(id)`. -/
def User.findById (s : Store) (id : Nat) : Option User :=
  s.users.find? (fun u => u._id = id)

/-- The write of a user document that was loaded from the store: the stored document
with its `_id` is replaced. -/
def Store.putUser (s : Store) (u : User) : Store :=
  { s with users := s.users.map (fun x => if x._id = u._id then u else x) }

/-- The write of a user document made with `new User(...)`: it is added, and the next
id moves on. -/
def Store.addUser (s : Store) (u : User) : Store :=
  { s with users := s.users ++ [u], nextId := s.nextId + 1 }

/-- No two documents of a collection share an `_id`, ids in use are below the next
id, and no two users share an `auth0Id` (the unique index). -/
def Store.WellFormed (s : Store) : Prop :=
  (s.users.map (fun u => u._id)).Nodup ∧
  (s.users.map (fun u => u.auth0Id)).Nodup ∧
  (s.entries.map (fun e => e._id)).Nodup ∧
  (∀ u ∈ s.users, u._id < s.nextId) ∧
  (∀ e ∈ s.entries, e._id < s.nextId)

instance (s : Store) : Decidable s.WellFormed := by
  unfold Store.WellFormed; infer_instance

/-! ## `middleware/auth.js` -/

/-- The constant `maxConsentAge` of `requireConsent`: one year in milliseconds. -/
def maxConsentAge : Int := 365 * 24 * 60 * 60 * 1000

/-- What a middleware does with a request: answer it, or call `next()`. -/
inductive Gate where
  | respond (r : Reply)
  | next
  deriving DecidableEq, Repr

/-- The middleware `requireConsent`, on the value of `req.user` (its `consentDate`
is all it reads) at clock reading `now`. -/
def requireConsent (now : Int) (user : Option User) : Gate :=
  match user with
  | none =>
      .respond { status := 403, message := "Privacy consent required",
                 requiresConsent := true, errors := [] }
  | some u =>
      match u.consentDate with
      | none =>
          .respond { status := 403, message := "Privacy consent required",
                     requiresConsent := true, errors := [] }
      | some consentDate =>
          let consentAge := now - consentDate
          if consentAge > maxConsentAge then
            .respond { status := 403, message := "Privacy consent expired",
                       requiresConsent := true, errors := [] }
          else .next

deriving instance DecidableEq for Except

/-- The reply of a `catch` block: status 500 with the handler's message. -/
def serverError (message : String) : Reply :=
  { status := 500, message := message, requiresConsent := false, errors := [] }

/-- The reply `res.status(400).json({ errors: errors.array() })`; `errors` lists the
field of each failed validator, in the order the validators are declared. -/
def validationError (errors : List String) : Reply :=
  { status := 400, message := "", requiresConsent := false, errors := errors }

/-- The reply `res.status(404).json({ message })`. -/
def notFound (message : String) : Reply :=
  { status := 404, message := message, requiresConsent := false, errors := [] }

/-- Method `save` of a user document: `none` when it raises, else the document as
stored and the store after the write. A new document (`isNew`) gets its id. -/
def User.save (env : Env) (s : Store) (isNew : Bool) (u : User) : Option (User × Store) :=
  let doc := if isNew then { u with _id := s.nextId } else u
  if env.rejectsUser doc then none
  else some (doc, if isNew then s.addUser doc else s.putUser doc)

/-- Method `updateLastActive` of the user model. -/
def User.updateLastActive (env : Env) (s : Store) (u : User) : Option (User × Store) :=
  User.save env s false { u with lastActive := env.now }

/-- Method `anonymizeData` of the user model (the assigned email goes through the
schema setter). -/
def User.anonymizeData (env : Env) (s : Store) (u : User) : Option (User × Store) :=
  User.save env s false
    { u with email := env.hashEmail "anonymized@privacy.local",
             displayName := "Anonymous User",
             accountStatus := AccountStatus.deleted }

/-- The document `new User({...})` of the middleware `auth`. -/
def newAuthUser (env : Env) (claims : Claims) : User :=
  { _id := 0
    auth0Id := claims.sub
    email := env.hashEmail (orDefault claims.email "anonymous@privacy.local")
    displayName := orDefault claims.name "Anonymous User"
    consentVersion := "1.0"
    consentDate := some env.now
    privacySettings :=
      { dataRetention := 365, analyticsOptIn := false, shareAnonymizedData := false }
    preferences := Preferences.default
    lastActive := env.now
    accountStatus := AccountStatus.active }

/-- The middleware `auth`: token verification (`token` is what `jwtCheck` yields),
then find-or-create of the user document, which replaces `req.user`; a raise in
between is answered 500. -/
def auth (env : Env) (s : Store) (token : Except String Claims) : Except Reply User × Store :=
  match token with
  | .error _ =>
      (.error { status := 401, message := "Unauthorized", requiresConsent := false,
                errors := [] }, s)
  | .ok claims =>
      match User.findOne s claims.sub with
      | none =>
          match User.save env s true (newAuthUser env claims) with
          | some (user, s1) => (.ok user, s1)
          | none => (.error (serverError "Authentication processing error"), s)
      | some user =>
          match User.updateLastActive env s user with
          | some (user1, s1) => (.ok user1, s1)
          | none => (.error (serverError "Authentication processing error"), s)

/-! ## Routing (`index.js` and the route declarations) -/

/-- What `req.user` holds: the token payload, or the user document put there by
`auth`. -/
inductive ReqUser where
  | payload (c : Claims)
  | doc (u : User)
  deriving DecidableEq, Repr

/-- The middleware-visible part of a request: the outcome token verification has on it
(read by `auth` only) and `req.user` as the request reaches the router (nothing in
`index.js` sets it before the routers). -/
structure Request where
  token : Except String Claims
  user : Option ReqUser

/-- The user document on `req.user`, if `req.user` is one. -/
def Request.doc? (req : Request) : Option User :=
  match req.user with
  | some (.doc u) => some u
  | _ => none

/-- The middleware functions routes are mounted behind. -/
inductive Middleware where
  | auth
  | requireConsent
  deriving DecidableEq, Repr

/-- The routes declared in `routes/auth.js`, `routes/journal.js`, `routes/user.js` and
`routes/analytics.js`. -/
inductive Route where
  | authConsent
  | authProfileGet
  | authProfilePut
  | authAccountDelete
  | authDataExport
  | journalList
  | journalCreate
  | journalGet
  | journalUpdate
  | journalDelete
  | journalMoodStats
  | userPreferencesGet
  | userPreferencesPut
  | userPrivacyPut
  | analyticsDashboard
  | analyticsAnonymous
  | analyticsMoodColors
  | analyticsExport
  deriving DecidableEq, Repr

/-- What `index.js` passes to `app.use` between the path and a router: the name
`auth`, which `const auth = require('./middleware/auth')` binds to the exports object
of the middleware module (`{ auth, optionalAuth, requireAdmin, requireConsent }`). -/
inductive MountArg where
  | authExports
  deriving DecidableEq, Repr

/-- The arguments of the mount points as `index.js` writes them: `/api/journal`,
`/api/analytics` and `/api/user` are mounted with the name `auth` in front of the
router, `/api/auth` is mounted bare. -/
def Route.mountArgs : Route → List MountArg
  | .authConsent | .authProfileGet | .authProfilePut | .authAccountDelete
  | .authDataExport => []
  | _ => [MountArg.authExports]

/-- The middleware function an argument of a mount is read as. `app.use` accepts
functions only: given the exports object it raises a `TypeError` when the
application starts, so as written no route is served. The argument is read as the
function `auth` of the module it names, the one function of that module that takes
a request from its token to a user document. Everything said of a request that is
served is said under this reading; what a router does by itself is `Route.own`, and
statements about the routers alone are made on `runChain env r.own`. -/
def MountArg.read : MountArg → Middleware
  | .authExports => Middleware.auth

/-- The middleware of the mount point of a route, under that reading. -/
def Route.mount (r : Route) : List Middleware := r.mountArgs.map MountArg.read

/-- The middleware named in the route declaration itself. -/
def Route.own : Route → List Middleware
  | .authConsent | .analyticsAnonymous => []
  | _ => [Middleware.requireConsent]

/-- The middleware a request to the route passes, in order, before the handler. -/
def Route.chain (r : Route) : List Middleware := r.mount ++ r.own

/-- Running a middleware chain: each middleware either answers the request or
passes it on, `auth` with the user document on `req.user`. -/
def runChain (env : Env) : List Middleware → Store → Request → Except Reply Request × Store
  | [], s, req => (.ok req, s)
  | Middleware.auth :: rest, s, req =>
      match auth env s req.token with
      | (.error r, s1) => (.error r, s1)
      | (.ok u, s1) => runChain env rest s1 { req with user := some (.doc u) }
  | Middleware.requireConsent :: rest, s, req =>
      match requireConsent env.now req.doc? with
      | .respond r => (.error r, s)
      | .next => runChain env rest s req

/-- A route handler: reads the request as the middleware left it, answers, and may
write to the store. -/
abbrev Handler (α : Type) := Env → Store → Request → Except Reply α × Store

/-- One request to route `r` whose handler is `h`. -/
def serve (env : Env) (s : Store) (req : Request) (r : Route) (h : Handler α) :
    Except Reply α × Store :=
  match runChain env r.chain s req with
  | (.error rep, s1) => (.error rep, s1)
  | (.ok req1, s1) => h env s1 req1

/-- A handler that reads `req.user._id`. Without a `req.user` the read raises inside
the handler's `try` and the `catch` answers 500; a token payload has no `_id`, so the
lookup by id finds nothing. Routes whose handler is of this kind declare
`requireConsent`, which passes user documents only. -/
def onDoc (failure : String) (missing : Reply)
    (h : Env → Store → User → Except Reply α × Store) : Handler α :=
  fun env s req =>
    match req.user with
    | some (.doc u) => h env s u
    | some (.payload _) => (.error missing, s)
    | none => (.error (serverError failure), s)

/-! ## `routes/auth.js` and `routes/user.js` -/

/-- The validators of `POST /api/auth/consent`: the fields that fail, in declaration
order. -/
def consentErrors (b : Body) : List String :=
  [ checkRequired b "consentVersion" notEmpty,
    checkRequired b "analyticsOptIn" isBoolean,
    checkRequired b "shareAnonymizedData" isBoolean,
    checkRequired b "dataRetention" (isInt 30 1095) ].reduceOption

/-- The fields of a consent body after the schema casts. -/
structure ConsentFields where
  consentVersion : String
  dataRetention : Int
  analyticsOptIn : Bool
  shareAnonymizedData : Bool
  deriving DecidableEq, Repr

/-- Destructuring `req.body` in the consent handler and casting each value to its
schema path; `none` when a value is missing or does not cast (the save then fails). -/
def consentFields (b : Body) : Option ConsentFields :=
  match (b.get "consentVersion").bind castString, (b.get "dataRetention").bind castNumber,
        (b.get "analyticsOptIn").bind castBoolean,
        (b.get "shareAnonymizedData").bind castBoolean with
  | some cv, some dr, some a, some sh =>
      some { consentVersion := cv, dataRetention := dr, analyticsOptIn := a,
             shareAnonymizedData := sh }
  | _, _, _, _ => none

/-- The document `new User({...})` of the consent handler. -/
def newConsentUser (env : Env) (c : Claims) (f : ConsentFields) : User :=
  { _id := 0
    auth0Id := c.sub
    email := env.hashEmail (orDefault c.email "anonymous@privacy.local")
    displayName := orDefault c.name "Anonymous User"
    consentVersion := f.consentVersion
    consentDate := some env.now
    privacySettings :=
      { dataRetention := f.dataRetention
        analyticsOptIn := f.analyticsOptIn
        shareAnonymizedData := f.shareAnonymizedData }
    preferences := Preferences.default
    lastActive := env.now
    accountStatus := AccountStatus.active }

/-- The five assignments of the consent handler to an existing user document. -/
def overwriteConsent (env : Env) (f : ConsentFields) (user : User) : User :=
  { user with
    consentVersion := f.consentVersion
    consentDate := some env.now
    privacySettings :=
      { dataRetention := f.dataRetention
        analyticsOptIn := f.analyticsOptIn
        shareAnonymizedData := f.shareAnonymizedData } }

/-- The handler of `POST /api/auth/consent`. -/
def consentHandler (b : Body) : Handler User :=
  fun env s req =>
    if consentErrors b ≠ [] then (.error (validationError (consentErrors b)), s)
    else
      match req.user with
      | some (.payload c) =>
          if c.sub = "" then
            (.error { status := 401, message := "User not authenticated",
                      requiresConsent := false, errors := [] }, s)
          else
            match consentFields b with
            | none => (.error (serverError "Error updating consent"), s)
            | some f =>
                match User.findOne s c.sub with
                | none =>
                    match User.save env s true (newConsentUser env c f) with
                    | some (user, s1) => (.ok user, s1)
                    | none => (.error (serverError "Error updating consent"), s)
                | some user =>
                    match User.save env s false (overwriteConsent env f user) with
                    | some (user1, s1) => (.ok user1, s1)
                    | none => (.error (serverError "Error updating consent"), s)
      | _ =>
          (.error { status := 401, message := "User not authenticated",
                    requiresConsent := false, errors := [] }, s)

/-- The validators of `PUT /api/user/privacy`. -/
def privacyErrors (b : Body) : List String :=
  [ checkOptional b "dataRetention" (isInt 30 1095),
    checkOptional b "analyticsOptIn" isBoolean,
    checkOptional b "shareAnonymizedData" isBoolean ].reduceOption

/-- The assignment `user.privacySettings[key] = value`: the value is cast to the schema
type of the path; a key that is no path of `privacySettings` is not persisted (strict
schema); `none` is a failed cast. -/
def PrivacySettings.set (p : PrivacySettings) (key : String) (v : JsVal) :
    Option PrivacySettings :=
  if key = "dataRetention" then (castNumber v).map (fun n => { p with dataRetention := n })
  else if key = "analyticsOptIn" then
    (castBoolean v).map (fun x => { p with analyticsOptIn := x })
  else if key = "shareAnonymizedData" then
    (castBoolean v).map (fun x => { p with shareAnonymizedData := x })
  else some p

/-- The callback of the loop in the privacy handler:
`if (req.body[key] !== undefined) user.privacySettings[key] = req.body[key]`. -/
def assignPrivacy (b : Body) (acc : PrivacySettings) (key : String) : Option PrivacySettings :=
  match b.get key with
  | some v => acc.set key v
  | none => some acc

/-- The loop `Object.keys(req.body).forEach(key => ...)` of the privacy handler. -/
def applyPrivacyBody (b : Body) (p : PrivacySettings) : Option PrivacySettings :=
  b.keys.foldlM (assignPrivacy b) p

/-- The handler of `PUT /api/user/privacy` past `requireConsent`, for the user
document on `req.user`. -/
def privacyHandler (b : Body) (env : Env) (s : Store) (reqUser : User) :
    Except Reply PrivacySettings × Store :=
  if privacyErrors b ≠ [] then (.error (validationError (privacyErrors b)), s)
  else
    match User.findById s reqUser._id with
    | none => (.error (notFound "User not found"), s)
    | some user =>
        match applyPrivacyBody b user.privacySettings with
        | none => (.error (serverError "Error updating privacy settings"), s)
        | some p =>
            match User.save env s false { user with privacySettings := p } with
            | some (user1, s1) => (.ok user1.privacySettings, s1)
            | none => (.error (serverError "Error updating privacy settings"), s)

/-- The enumerated values of `preferences.colorTheme`. -/
def colorThemes : List String := ["calming", "energizing", "balanced", "custom"]

/-- The enumerated values of `preferences.reminderFrequency`. -/
def reminderFrequencies : List String := ["daily", "weekly", "custom", "none"]

/-- The validators of `PUT /api/user/preferences` (also those that
`PUT /api/auth/profile` applies to its `preferences` object). -/
def preferencesErrors (b : Body) : List String :=
  [ checkOptional b "colorTheme" (isIn colorThemes),
    checkOptional b "reminderFrequency" (isIn reminderFrequencies),
    checkOptional b "journalPrompts" isBoolean ].reduceOption

/-- The assignment `user.preferences[key] = value`. -/
def Preferences.set (p : Preferences) (key : String) (v : JsVal) : Option Preferences :=
  if key = "colorTheme" then (castString v).map (fun x => { p with colorTheme := x })
  else if key = "reminderFrequency" then
    (castString v).map (fun x => { p with reminderFrequency := x })
  else if key = "journalPrompts" then
    (castBoolean v).map (fun x => { p with journalPrompts := x })
  else some p

/-- The callback of the loop in the preferences handler:
`if (req.body[key] !== undefined) user.preferences[key] = req.body[key]`. -/
def assignPreference (b : Body) (acc : Preferences) (key : String) : Option Preferences :=
  match b.get key with
  | some v => acc.set key v
  | none => some acc

/-- Assigning every key of a body to `preferences`. -/
def applyPreferencesBody (b : Body) (p : Preferences) : Option Preferences :=
  b.keys.foldlM (assignPreference b) p

/-- The handler of `PUT /api/user/preferences` past `requireConsent`. -/
def preferencesHandler (b : Body) (env : Env) (s : Store) (reqUser : User) :
    Except Reply Preferences × Store :=
  if preferencesErrors b ≠ [] then (.error (validationError (preferencesErrors b)), s)
  else
    match User.findById s reqUser._id with
    | none => (.error (notFound "User not found"), s)
    | some user =>
        match applyPreferencesBody b user.preferences with
        | none => (.error (serverError "Error updating preferences"), s)
        | some p =>
            match User.save env s false { user with preferences := p } with
            | some (user1, s1) => (.ok user1.preferences, s1)
            | none => (.error (serverError "Error updating preferences"), s)

/-- JavaScript truthiness of a body value. -/
def JsVal.truthy : JsVal → Bool
  | .null => false
  | .bool b => b
  | .num n => n ≠ 0
  | .str s => s ≠ ""

/-- The body of `PUT /api/auth/profile`: `displayName` and the object `preferences`. -/
structure ProfileBody where
  displayName : Option JsVal
  preferences : Option Body

/-- The validators of `PUT /api/auth/profile`. -/
def profileErrors (b : ProfileBody) : List String :=
  (match b.displayName with
    | some v => if v.toStr.length ≤ 50 then [] else ["displayName"]
    | none => []) ++
  (match b.preferences with
    | some pb => (preferencesErrors pb).map (fun f => "preferences." ++ f)
    | none => [])

/-- The handler of `PUT /api/auth/profile` past `requireConsent`: a truthy
`displayName` is assigned, a `preferences` object is spread over the stored
preferences, and the document is saved. -/
def profileHandler (b : ProfileBody) (env : Env) (s : Store) (reqUser : User) :
    Except Reply User × Store :=
  if profileErrors b ≠ [] then (.error (validationError (profileErrors b)), s)
  else
    match User.findById s reqUser._id with
    | none => (.error (notFound "User not found"), s)
    | some user =>
        let displayName : Option String :=
          match b.displayName with
          | some v => if v.truthy then castString v else some user.displayName
          | none => some user.displayName
        let preferences : Option Preferences :=
          match b.preferences with
          | some pb => applyPreferencesBody pb user.preferences
          | none => some user.preferences
        match displayName, preferences with
        | some n, some p =>
            match User.save env s false { user with displayName := n, preferences := p } with
            | some (user1, s1) => (.ok user1, s1)
            | none => (.error (serverError "Error updating profile"), s)
        | _, _ => (.error (serverError "Error updating profile"), s)

/-- The handler of `DELETE /api/auth/account` past `requireConsent`. -/
def accountDeleteHandler (env : Env) (s : Store) (reqUser : User) :
    Except Reply Unit × Store :=
  match User.findById s reqUser._id with
  | none => (.error (notFound "User not found"), s)
  | some user =>
      match User.anonymizeData env s user with
      | some (_, s1) => (.ok (), s1)
      | none => (.error (serverError "Error processing account deletion"), s)

/-! ## `models/JournalEntry.js` and `routes/journal.js` -/

/-- The `pre('save')` hook of the journal schema. For a new document it looks the
owner up and, when one is found with a truthy `dataRetention`, sets `expiresAt` to
the hook's clock reading moved forward by that many days with `setDate`; a lookup
that raises is caught and logged. Then `next()` is called in every case. -/
def JournalEntry.preSave (env : Env) (s : Store) (isNew : Bool) (e : JournalEntry) :
    JournalEntry :=
  if isNew then
    if env.userLookupRaises then e
    else
      match User.findById s e.userId with
      | some user =>
          if user.privacySettings.dataRetention ≠ 0 then
            { e with
              expiresAt :=
                some (env.zone.setDatePlus (env.now + env.hookDelay)
                  user.privacySettings.dataRetention) }
          else e
      | none => e
  else e

/-- The write of a new journal document: it is added, and the next id moves on. -/
def Store.addEntry (s : Store) (e : JournalEntry) : Store :=
  { s with entries := s.entries ++ [e], nextId := s.nextId + 1 }

/-- The write of a journal document that was loaded from the store: the stored
document with its `_id` is replaced. -/
def Store.putEntry (s : Store) (e : JournalEntry) : Store :=
  { s with entries := s.entries.map (fun x => if x._id = e._id then e else x) }

/-- Method `save` of a journal document: `none` when it raises, else the document
as stored and the store after the write. A new document (`isNew`) gets its id and
`createdAt`; the expiry hook runs before the write. The schema is among the reasons
for which it raises: `entry.content` has `maxlength: 5000`, counted in UTF-16 code
units, which can exceed what the validators of the routes count
(`validatorLength`). -/
def JournalEntry.save (env : Env) (s : Store) (isNew : Bool) (e : JournalEntry) :
    Option (JournalEntry × Store) :=
  let doc :=
    if isNew then JournalEntry.preSave env s true { e with _id := s.nextId, createdAt := env.now }
    else JournalEntry.preSave env s false e
  if env.rejectsEntry doc then none
  else some (doc, if isNew then s.addEntry doc else s.putEntry doc)

/-- The three assignments of method `anonymize`. -/
def JournalEntry.scrubbed (e : JournalEntry) : JournalEntry :=
  { e with
    entry := { e.entry with content := "[Content removed for privacy]" }
    privacy := { e.privacy with isPrivate := true, shareWithCounselor := false } }

/-- Method `anonymize` of a journal document: the assignments, then `save`. -/
def JournalEntry.anonymize (env : Env) (s : Store) (isNew : Bool) (e : JournalEntry) :
    Option (JournalEntry × Store) :=
  JournalEntry.save env s isNew e.scrubbed

/-- The query `JournalEntry.findOne({ _id, userId })` on an `_id` that has been cast
to an object id (a route parameter the cast refuses never reaches the collection: see
the handlers). -/
def JournalEntry.findOne (s : Store) (id userId : Nat) : Option JournalEntry :=
  s.entries.find? (fun e => e._id = id ∧ e.userId = userId)

/-- The object `mood` of a journal body. -/
structure MoodInput where
  scale : Option Int
  tags : Option (List String)
  colors : Option (List MoodColor)

/-- The object `prompts` of a journal body. -/
structure PromptsInput where
  gratitude : Option (List String)
  challenges : Option (List String)
  goals : Option (List String)
  reflections : Option (List String)

/-- The object `privacy` of a journal body. -/
structure PrivacyInput where
  isPrivate : Option Bool
  shareWithCounselor : Option Bool
  anonymousSharing : Option Bool

/-- The body of `POST /api/journal` and `PUT /api/journal/:id`, with every value of
its declared type. -/
structure JournalBody where
  content : Option String
  mood : Option MoodInput
  context : Option Context
  prompts : Option PromptsInput
  privacy : Option PrivacyInput

/-- The enumerated values of `context.location`. -/
def locations : List String := ["campus", "dorm", "library", "outdoors", "home", "other"]

/-- The enumerated values of `context.timeOfDay`. -/
def timesOfDay : List String := ["morning", "afternoon", "evening", "night"]

/-- The validators that `POST /api/journal` and `PUT /api/journal/:id` apply to the
context object. -/
def contextErrors (c : Option Context) : List String :=
  (match c.bind (fun x => x.location) with
    | some l => if locations.contains l then [] else ["context.location"]
    | none => []) ++
  (match c.bind (fun x => x.timeOfDay) with
    | some t => if timesOfDay.contains t then [] else ["context.timeOfDay"]
    | none => []) ++
  (match c.bind (fun x => x.stressLevel) with
    | some n => if 1 ≤ n ∧ n ≤ 10 then [] else ["context.stressLevel"]
    | none => [])

/-- The length that `isLength` of validator.js compares: the UTF-16 length of the
string, less its variation selectors U+FE0E and U+FE0F, less one for each surrogate
pair. A string here is a sequence of code points (an unpaired surrogate is not
represented), so that is the number of its code points other than the two
selectors. -/
def validatorLength (s : String) : Nat :=
  (s.toList.filter (fun c => c.toNat ≠ 0xFE0E ∧ c.toNat ≠ 0xFE0F)).length

/-- The validators of `POST /api/journal`. -/
def createErrors (b : JournalBody) : List String :=
  (match b.content with
    | some c =>
        (if c = "" then ["content"] else []) ++
          (if validatorLength c ≤ 5000 then [] else ["content"])
    | none => ["content"]) ++
  (match b.mood.bind (fun m => m.scale) with
    | some n => if 1 ≤ n ∧ n ≤ 10 then [] else ["mood.scale"]
    | none => ["mood.scale"]) ++
  contextErrors b.context

/-- The document `new JournalEntry({...})` of the create handler, for the content and
mood of the body. -/
def newEntry (reqUser : User) (content : String) (mood : MoodInput) (scale : Int)
    (b : JournalBody) : JournalEntry :=
  { _id := 0
    userId := reqUser._id
    entry :=
      { content := content
        mood := { scale := scale, tags := mood.tags.getD [], colors := mood.colors.getD [] }
        context := b.context.getD { location := none, timeOfDay := none, stressLevel := none }
        prompts :=
          match b.prompts with
          | some p =>
              { gratitude := p.gratitude.getD [], challenges := p.challenges.getD [],
                goals := p.goals.getD [], reflections := p.reflections.getD [] }
          | none => { gratitude := [], challenges := [], goals := [], reflections := [] } }
    privacy :=
      { isPrivate := true
        shareWithCounselor := (b.privacy.bind (fun x => x.shareWithCounselor)).getD false
        anonymousSharing := (b.privacy.bind (fun x => x.anonymousSharing)).getD false }
    analytics := { readTime := none, editCount := some 0, sentiment := none }
    expiresAt := none
    createdAt := 0 }

/-- The handler of `POST /api/journal` past `requireConsent`: validation, `save`, the
real-time event when the entry is shared anonymously, and the 201 reply (payload: the
saved document). A raise after the save is answered by the `catch` with 500. -/
def createEntryHandler (b : JournalBody) (env : Env) (s : Store) (reqUser : User) :
    Except Reply JournalEntry × Store :=
  if createErrors b ≠ [] then (.error (validationError (createErrors b)), s)
  else
    match b.content, b.mood with
    | some content, some mood =>
        match mood.scale with
        | some scale =>
            match JournalEntry.save env s true (newEntry reqUser content mood scale b) with
            | some (journalEntry, s1) =>
                if journalEntry.privacy.anonymousSharing && env.relayRaises then
                  (.error (serverError "Error creating journal entry"), s1)
                else (.ok journalEntry, s1)
            | none => (.error (serverError "Error creating journal entry"), s)
        | none => (.error (serverError "Error creating journal entry"), s)
    | _, _ => (.error (serverError "Error creating journal entry"), s)

/-- The validators of `PUT /api/journal/:id`. -/
def updateErrors (b : JournalBody) : List String :=
  (match b.content with
    | some c => if validatorLength c ≤ 5000 then [] else ["content"]
    | none => []) ++
  (match b.mood.bind (fun m => m.scale) with
    | some n => if 1 ≤ n ∧ n ≤ 10 then [] else ["mood.scale"]
    | none => [])

/-- The field assignments of the update handler: each object of the body is spread
over the stored one, a non-empty `content` replaces the stored one, and `editCount`
is incremented. -/
def applyUpdate (b : JournalBody) (e : JournalEntry) : JournalEntry :=
  let content :=
    match b.content with
    | some c => if c = "" then e.entry.content else c
    | none => e.entry.content
  let mood :=
    match b.mood with
    | some m =>
        { scale := m.scale.getD e.entry.mood.scale
          tags := m.tags.getD e.entry.mood.tags
          colors := m.colors.getD e.entry.mood.colors }
    | none => e.entry.mood
  let context :=
    match b.context with
    | some c =>
        { location := c.location.orElse (fun _ => e.entry.context.location)
          timeOfDay := c.timeOfDay.orElse (fun _ => e.entry.context.timeOfDay)
          stressLevel := c.stressLevel.orElse (fun _ => e.entry.context.stressLevel) }
    | none => e.entry.context
  let prompts :=
    match b.prompts with
    | some p =>
        { gratitude := p.gratitude.getD e.entry.prompts.gratitude
          challenges := p.challenges.getD e.entry.prompts.challenges
          goals := p.goals.getD e.entry.prompts.goals
          reflections := p.reflections.getD e.entry.prompts.reflections }
    | none => e.entry.prompts
  let privacy :=
    match b.privacy with
    | some p =>
        { isPrivate := p.isPrivate.getD e.privacy.isPrivate
          shareWithCounselor := p.shareWithCounselor.getD e.privacy.shareWithCounselor
          anonymousSharing := p.anonymousSharing.getD e.privacy.anonymousSharing }
    | none => e.privacy
  { e with
    entry := { content := content, mood := mood, prompts := prompts, context := context }
    privacy := privacy
    analytics := { e.analytics with editCount := some (e.analytics.editCount.getD 0 + 1) } }

/-- The handler of `PUT /api/journal/:id` past `requireConsent`. The route parameter
`id` is given as the query casts it to the type of `_id`: `some` for a string that
denotes an object id, `none` for any other string, on which the cast raises
(`CastError`), the query rejects and the `catch` answers 500. Which strings denote
object ids is left to the driver. -/
def updateEntryHandler (id : Option Nat) (b : JournalBody) (env : Env) (s : Store)
    (reqUser : User) : Except Reply JournalEntry × Store :=
  if updateErrors b ≠ [] then (.error (validationError (updateErrors b)), s)
  else
    match id with
    | none => (.error (serverError "Error updating journal entry"), s)
    | some id =>
        match JournalEntry.findOne s id reqUser._id with
        | none => (.error (notFound "Journal entry not found"), s)
        | some entry =>
            match JournalEntry.save env s false (applyUpdate b entry) with
            | some (saved, s1) => (.ok saved, s1)
            | none => (.error (serverError "Error updating journal entry"), s)

/-- The handler of `DELETE /api/journal/:id` past `requireConsent`; `id` is the route
parameter as the query casts it (`none`: the cast raises). -/
def deleteEntryHandler (id : Option Nat) (_env : Env) (s : Store) (reqUser : User) :
    Except Reply Unit × Store :=
  match id with
  | none => (.error (serverError "Error deleting journal entry"), s)
  | some id =>
      match JournalEntry.findOne s id reqUser._id with
      | none => (.error (notFound "Journal entry not found"), s)
      | some entry =>
          (.ok (), { s with entries := s.entries.filter (fun x => x._id ≠ entry._id) })

/-! ## The application as a transition system -/

/-- One call to the server: the route, the request as the middleware sees it, and the
inputs the handlers read (bodies and the `:id` parameter, as the query casts it). -/
structure Call where
  route : Route
  req : Request
  body : Body
  profile : ProfileBody
  journal : JournalBody
  entryId : Option Nat

/-- A handler with its payload dropped. -/
def Handler.effect (h : Handler α) : Handler Unit :=
  fun env s req => ((h env s req).1.map (fun _ => ()), (h env s req).2)

/-- A handler that only queries the store (`find`, `findOne`, `findById`,
`countDocuments`, `aggregate`): whatever it answers, it leaves the store as it is. -/
def queryOnly : Handler Unit := fun _ s _ => (.ok (), s)

/-- The handler of each route, as far as its writes go. -/
def Call.handler (c : Call) : Handler Unit :=
  match c.route with
  | .authConsent => (consentHandler c.body).effect
  | .authProfilePut =>
      (onDoc "Error updating profile" (notFound "User not found")
        (profileHandler c.profile)).effect
  | .authAccountDelete =>
      (onDoc "Error processing account deletion" (notFound "User not found")
        accountDeleteHandler).effect
  | .userPreferencesPut =>
      (onDoc "Error updating preferences" (notFound "User not found")
        (preferencesHandler c.body)).effect
  | .userPrivacyPut =>
      (onDoc "Error updating privacy settings" (notFound "User not found")
        (privacyHandler c.body)).effect
  | .journalCreate =>
      (onDoc "Error creating journal entry" (serverError "Error creating journal entry")
        (createEntryHandler c.journal)).effect
  | .journalUpdate =>
      (onDoc "Error updating journal entry" (notFound "Journal entry not found")
        (updateEntryHandler c.entryId c.journal)).effect
  | .journalDelete =>
      (onDoc "Error deleting journal entry" (notFound "Journal entry not found")
        (deleteEntryHandler c.entryId)).effect
  | _ => queryOnly

/-- The store after the server has handled a call. -/
def step (env : Env) (s : Store) (c : Call) : Store :=
  (serve env s c.req c.route c.handler).2

/-- The gate denies a user document `u` at clock reading `now`: it has no
`consentDate`, or its consent is more than 365 days old. -/
def ConsentStale (now : Int) (u : User) : Prop :=
  match u.consentDate with
  | none => True
  | some d => now - d > 365 * msPerDay

instance (now : Int) (u : User) : Decidable (ConsentStale now u) := by
  unfold ConsentStale; cases u.consentDate <;> infer_instance

/-- The routes the specification calls data-bearing operations. -/
def dataBearingRoutes : List Route :=
  [ .journalList, .journalCreate, .journalGet, .journalUpdate, .journalDelete,
    .journalMoodStats, .userPreferencesGet, .userPreferencesPut, .userPrivacyPut,
    .analyticsDashboard, .analyticsMoodColors, .analyticsExport ]

/-- The partial update as the specification words it: each of the three settings the
body provides takes the provided (cast) value, each one it omits keeps its value. -/
def expectedPrivacy (b : Body) (p : PrivacySettings) : PrivacySettings :=
  { dataRetention := ((b.get "dataRetention").bind castNumber).getD p.dataRetention
    analyticsOptIn := ((b.get "analyticsOptIn").bind castBoolean).getD p.analyticsOptIn
    shareAnonymizedData :=
      ((b.get "shareAnonymizedData").bind castBoolean).getD p.shareAnonymizedData }

/-- The settings after the keys `ks` of the body have been assigned. -/
def patchPrivacy (b : Body) (ks : List String) (p : PrivacySettings) : PrivacySettings :=
  { dataRetention :=
      if "dataRetention" ∈ ks then ((b.get "dataRetention").bind castNumber).getD p.dataRetention
      else p.dataRetention
    analyticsOptIn :=
      if "analyticsOptIn" ∈ ks then
        ((b.get "analyticsOptIn").bind castBoolean).getD p.analyticsOptIn
      else p.analyticsOptIn
    shareAnonymizedData :=
      if "shareAnonymizedData" ∈ ks then
        ((b.get "shareAnonymizedData").bind castBoolean).getD p.shareAnonymizedData
      else p.shareAnonymizedData }

/-! ## Concrete inputs -/

/-- A user whose consent was never recorded. -/
def staleUser : User :=
  { _id := 0, auth0Id := "auth0|a", email := "h", displayName := "A",
    privacySettings :=
      { dataRetention := 365, analyticsOptIn := false, shareAnonymizedData := false },
    preferences := Preferences.default, consentVersion := "1.0", consentDate := none,
    lastActive := 0, accountStatus := AccountStatus.active }

/-- A store with that user and no entries. -/
def staleStore : Store :=
  { users := [staleUser], entries := [], nextId := 1 }

/-- An environment: clock at 1000 ms, server in UTC, nothing raises; every save is
accepted, also that of a document the schema refuses (`schemaEnv` is the environment
with the schema's validation). -/
def utcEnv : Env :=
  { now := 1000, zone := Zone.fixed 0, hashEmail := fun e => e, hookDelay := 0,
    userLookupRaises := false, relayRaises := false,
    rejectsUser := fun _ => false, rejectsEntry := fun _ => false }

/-- The token payload of the identity `auth0|a`. -/
def claimsA : Claims := { sub := "auth0|a", email := none, name := none }

/-- A request carrying a verified token of the identity `auth0|a`. -/
def tokenRequest : Request := { token := .ok claimsA, user := none }

/-- A request on which `req.user` is the token payload of `auth0|a`. -/
def payloadRequest : Request := { token := .ok claimsA, user := some (.payload claimsA) }

/-- A consent body with every field of its declared type. -/
def consentBody : Body :=
  [ ("consentVersion", .str "2.0"), ("analyticsOptIn", .bool true),
    ("shareAnonymizedData", .bool false), ("dataRetention", .num 90) ]

/-- The values `isBoolean()` lets through. -/
def booleanLike : List JsVal :=
  [ .bool true, .bool false, .num 1, .num 0, .str "true", .str "false", .str "1", .str "0" ]

/-- A user who keeps entries for 30 days, with fresh consent. -/
def thirtyDayUser : User :=
  { _id := 0, auth0Id := "auth0|a", email := "h", displayName := "A",
    privacySettings :=
      { dataRetention := 30, analyticsOptIn := false, shareAnonymizedData := false },
    preferences := Preferences.default, consentVersion := "1.0",
    consentDate := some 1709985600000, lastActive := 1709985600000,
    accountStatus := AccountStatus.active }

/-- A store with that user and no entries. -/
def thirtyDayStore : Store :=
  { users := [thirtyDayUser], entries := [], nextId := 1 }

/-- A server in a zone that moves its clocks forward on 2024-03-10 07:00 UTC, at
2024-03-09 12:00 UTC. -/
def dstEnv : Env :=
  { now := 1709985600000, zone := Zone.springForward 1710054000000,
    hashEmail := fun e => e, hookDelay := 0, userLookupRaises := false,
    relayRaises := false, rejectsUser := fun _ => false, rejectsEntry := fun _ => false }

/-- The same instant on a server in UTC. -/
def marchEnv : Env :=
  { now := 1709985600000, zone := Zone.fixed 0, hashEmail := fun e => e, hookDelay := 0,
    userLookupRaises := false, relayRaises := false,
    rejectsUser := fun _ => false, rejectsEntry := fun _ => false }

/-- A minimal valid journal body. -/
def plainJournalBody : JournalBody :=
  { content := some "today", mood := some { scale := some 3, tags := none, colors := none },
    context := none, prompts := none, privacy := none }

/-- A stored entry of `thirtyDayUser` that expires on 2024-04-08. -/
def storedEntry : JournalEntry :=
  { _id := 1, userId := 0,
    entry :=
      { content := "today", mood := { scale := 3, colors := [], tags := ["calm"] },
        prompts := { gratitude := [], challenges := [], goals := [], reflections := [] },
        context := { location := some "dorm", timeOfDay := none, stressLevel := some 4 } },
    privacy := { isPrivate := true, shareWithCounselor := true, anonymousSharing := true },
    analytics := { readTime := none, editCount := some 0, sentiment := none },
    expiresAt := some 1712577600000, createdAt := 1709985600000 }

/-- A store with `thirtyDayUser` and `storedEntry`. -/
def entryStore : Store :=
  { users := [thirtyDayUser], entries := [storedEntry], nextId := 2 }

/-- An environment in which the owner lookup of the expiry hook raises. -/
def lookupFailsEnv : Env :=
  { now := 1709985600000, zone := Zone.fixed 0, hashEmail := fun e => e, hookDelay := 0,
    userLookupRaises := true, relayRaises := false,
    rejectsUser := fun _ => false, rejectsEntry := fun _ => false }

/-- What of a stored user the consent gate depends on, with the id of the user. -/
def userKey (u : User) : Nat × Option Int := (u._id, u.consentDate)

/-- User ids are unique and below the next id. -/
def Store.UsersKeyed (s : Store) : Prop :=
  (s.users.map (fun u => u._id)).Nodup ∧ ∀ u ∈ s.users, u._id < s.nextId

instance (s : Store) : Decidable s.UsersKeyed := by
  unfold Store.UsersKeyed; infer_instance

/-- A store without any document. -/
def emptyStore : Store := { users := [], entries := [], nextId := 0 }

/-- A call of the journal list by the identity `auth0|a`. -/
def listCall : Call :=
  { route := Route.journalList, req := tokenRequest, body := [],
    profile := { displayName := none, preferences := none },
    journal := { content := none, mood := none, context := none, prompts := none,
                 privacy := none },
    entryId := some 0 }

/-- A privacy body whose values are not of the declared types. -/
def looseBody : Body :=
  [ ("analyticsOptIn", .num 1), ("shareAnonymizedData", .str "true"),
    ("dataRetention", .str "45") ]

/-! ## Aggregation: numbers, query parameters and the window

Numbers of the aggregation pipeline are binary64 doubles, held as the rationals they
denote: `$avg` divides in double precision and `$round` goes through a 34-digit
decimal, as the database does. Doubles beyond the normal range (overflow to
infinity, subnormals) are not represented. Time values are unbounded integers (a
date outside the range of `Date` is not represented). -/

/-- The integer nearest to `x`, a tie going to the even neighbour (the rounding of
binary64 arithmetic and of `$round`). -/
def roundHalfEven (x : ℚ) : Int :=
  let fl := ⌊x⌋
  let fr := x - fl
  if fr < 1 / 2 then fl
  else if 1 / 2 < fr then fl + 1
  else if fl % 2 = 0 then fl else fl + 1

/-- The power `base ^ e` for an integer exponent, as a rational. -/
def scalePow (base : Nat) (e : Int) : ℚ :=
  if 0 ≤ e then ((base ^ e.toNat : Nat) : ℚ) else 1 / ((base ^ (-e).toNat : Nat) : ℚ)

/-- The loop of `digitLength`: one more digit for every division by the base that
leaves something. -/
def digitLengthAux (base : Nat) : Nat → Nat → Nat → Nat
  | 0, _, acc => acc
  | fuel + 1, n, acc =>
      match n / base with
      | 0 => acc + 1
      | m + 1 => digitLengthAux base fuel (m + 1) (acc + 1)

/-- The number of digits of a positive `n` written in the base. -/
def digitLength (base n : Nat) : Nat := digitLengthAux base n n 0

/-- The exponent of a non-zero rational in the base: the `e` with
`base ^ e ≤ |x| < base ^ (e + 1)`. The difference of the digit lengths of numerator
and denominator is `e` or `e + 1`. -/
def exponentOf (base : Nat) (x : ℚ) : Int :=
  let c : Int := (digitLength base x.num.natAbs : Int) - (digitLength base x.den : Int)
  if scalePow base c ≤ |x| then c else c - 1

/-- The number of `digits` significant digits in the base that is nearest to `x`, a
tie going to the even last digit. -/
def roundSignificant (base digits : Nat) (x : ℚ) : ℚ :=
  if x = 0 then 0
  else
    roundHalfEven (x / scalePow base (exponentOf base x - (digits - 1 : Nat)))
      * scalePow base (exponentOf base x - (digits - 1 : Nat))

/-- The binary64 double nearest to `x` (53 significant bits, ties to even). -/
def toDouble (x : ℚ) : ℚ := roundSignificant 2 53 x

/-- The conversion `Decimal128(double, kRoundTo34Digits)`: `x` rounded to 34
significant decimal digits, ties to even. -/
def toDecimal34 (x : ℚ) : ℚ := roundSignificant 10 34 x

/-- Accumulator `$avg` over the numeric values present among the grouped documents:
`null` (`none`) when there is none, else the total as a double divided, in double
precision, by the count. -/
def avg (xs : List ℚ) : Option ℚ :=
  if xs.isEmpty then none else some (toDouble (toDouble xs.sum / xs.length))

/-- Operator `$round: [x, places]` on a double: the 34-digit decimal of `x` is
quantized to `places` decimals, a tie going to the even digit, and the result is
converted back to the nearest double. (A number so large that its quantized form
needs more than 34 digits is not represented.) -/
def roundTo (places : Nat) (x : ℚ) : ℚ :=
  toDouble (roundHalfEven (toDecimal34 x * 10 ^ places) / 10 ^ places)

/-- Operator `$round` on the result of `$avg`: `null` stays `null`. -/
def roundAvg (places : Nat) (x : Option ℚ) : Option ℚ := x.map (roundTo places)

/-- ECMAScript white space and line terminators, which `parseInt` skips at the start
of its input. -/
def isWhiteSpace (c : Char) : Bool :=
  c.toNat ∈ [9, 10, 11, 12, 13, 32, 160, 5760, 8232, 8233, 8239, 8287, 12288, 65279]
    ∨ (8192 ≤ c.toNat ∧ c.toNat ≤ 8202)

/-- The value of `c` as a digit of radix 10 or 16, if it is one. -/
def digitOf (radix : Nat) (c : Char) : Option Nat :=
  if c.isDigit then some (c.toNat - 48)
  else if radix = 16 ∧ 97 ≤ c.toNat ∧ c.toNat ≤ 102 then some (c.toNat - 87)
  else if radix = 16 ∧ 65 ≤ c.toNat ∧ c.toNat ≤ 70 then some (c.toNat - 55)
  else none

/-- The longest run of digits of the radix at the start of `cs`, as digit values. -/
def leadingDigits (radix : Nat) : List Char → List Nat
  | [] => []
  | c :: cs =>
      match digitOf radix c with
      | some d => d :: leadingDigits radix cs
      | none => []

/-- Function `parseInt(string)` without a radix: leading white space is skipped, a
sign is read, a prefix `0x` or `0X` selects radix 16, and the longest run of digits
is the value; `none` is `NaN` (no digit to read). The value here is the integer the
digits write. ECMAScript returns the double nearest to it, which is that integer
when its magnitude is below `2 ^ 53` (`toDouble_int`); what is said of the value
returned is said within that range. -/
def parseInt (s : String) : Option Int :=
  let cs := s.toList.dropWhile isWhiteSpace
  let signed : Int × List Char :=
    match cs with
    | '-' :: r => (-1, r)
    | '+' :: r => (1, r)
    | r => (1, r)
  let based : Nat × List Char :=
    match signed.2 with
    | '0' :: 'x' :: r => (16, r)
    | '0' :: 'X' :: r => (16, r)
    | r => (10, r)
  let ds := leadingDigits based.1 based.2
  if ds.isEmpty then none
  else some (signed.1 * (ds.foldl (fun acc d => based.1 * acc + d) 0 : Nat))

/-- The expression `parseInt(param) || dflt` on a query parameter (`none` is an
absent one, which `parseInt` reads as `NaN`): `NaN` and 0 give the default. -/
def timeframeOr (param : Option String) (dflt : Int) : Int :=
  match param.bind parseInt with
  | some n => if n = 0 then dflt else n
  | none => dflt

/-- The window start of the aggregations:
`startDate = new Date(); startDate.setDate(startDate.getDate() - timeframe)`. -/
def startDate (env : Env) (timeframe : Int) : Int :=
  env.zone.setDatePlus env.now (-timeframe)

/-- The reply `res.status(403).json({ message })`. -/
def forbidden (message : String) : Reply :=
  { status := 403, message := message, requiresConsent := false, errors := [] }

/-! ## The personal dashboard: `GET /api/analytics/dashboard` -/

/-- One element of a trend list (`moodTrend`): the UTC calendar day of `createdAt`
(the day number stands for the string `%Y-%m-%d`), the mood scale, and the stress
level when the entry has one. -/
structure TrendPoint where
  date : Int
  mood : Int
  stress : Option Int
  deriving DecidableEq, Repr

/-- Operator `$dateToString` with format `%Y-%m-%d` (in UTC), as a day number. -/
def dateToString (t : Int) : Int := t / msPerDay

/-- The object pushed into `moodTrend` for one entry. -/
def trendPoint (e : JournalEntry) : TrendPoint :=
  { date := dateToString e.createdAt, mood := e.entry.mood.scale,
    stress := e.entry.context.stressLevel }

/-- The summary object of the dashboard. The document of the aggregation has all
eight fields; the literal the handler substitutes for an empty result has the first
four only (`none` is an absent field). -/
structure Summary where
  totalEntries : Nat
  avgMood : Option ℚ
  avgStress : Option ℚ
  avgReadTime : Option ℚ
  mostCommonMoodTags : Option (List (List String))
  locationPatterns : Option (List String)
  timeOfDayPatterns : Option (List String)
  moodTrend : Option (List TrendPoint)
  deriving DecidableEq, Repr

/-- Stage `$match: { userId, createdAt: { $gte: startDate } }`; documents come in the
order of the collection. -/
def matchOwn (s : Store) (userId : Nat) (start : Int) : List JournalEntry :=
  s.entries.filter (fun e => e.userId = userId ∧ start ≤ e.createdAt)

/-- The mood scales of the matched documents, for `$avg: '$entry.mood.scale'`. -/
def moodScales (docs : List JournalEntry) : List ℚ :=
  docs.map (fun e => (e.entry.mood.scale : ℚ))

/-- The stress levels present among the matched documents, for
`$avg: '$entry.context.stressLevel'`. -/
def stressLevels (docs : List JournalEntry) : List ℚ :=
  docs.filterMap (fun e => e.entry.context.stressLevel.map (fun n => (n : ℚ)))

/-- Stage `$group` of the dashboard, with `_id: null`: one document for all matched
ones, none when nothing matched. `$push` adds nothing for a document without the
field. -/
def dashboardGroup (docs : List JournalEntry) : List Summary :=
  if docs.isEmpty then []
  else
    [ { totalEntries := docs.length
        avgMood := avg (moodScales docs)
        avgStress := avg (stressLevels docs)
        avgReadTime := avg (docs.filterMap (fun e => e.analytics.readTime.map (fun n => (n : ℚ))))
        mostCommonMoodTags := some (docs.map (fun e => e.entry.mood.tags))
        locationPatterns := some (docs.filterMap (fun e => e.entry.context.location))
        timeOfDayPatterns := some (docs.filterMap (fun e => e.entry.context.timeOfDay))
        moodTrend := some (docs.map trendPoint) } ]

/-- Stage `$project` of the dashboard: the two means are rounded to two places, the
mean read time to none. -/
def dashboardProject (g : Summary) : Summary :=
  { g with avgMood := roundAvg 2 g.avgMood, avgStress := roundAvg 2 g.avgStress,
           avgReadTime := roundAvg 0 g.avgReadTime }

/-- The aggregation of the dashboard. -/
def dashboardAggregate (s : Store) (userId : Nat) (start : Int) : List Summary :=
  (dashboardGroup (matchOwn s userId start)).map dashboardProject

/-- The step `acc[key] = (acc[key] || 0) + 1` on an object, kept as its properties in
insertion order. Keys are values the schema enumerates (mood tags, locations, times
of day); a key that names a property every object inherits is not represented. -/
def countKey (acc : List (String × Nat)) (key : String) : List (String × Nat) :=
  match acc.lookup key with
  | some _ => acc.map (fun p => if p.1 = key then (p.1, p.2 + 1) else p)
  | none => acc ++ [(key, 1)]

/-- The reducer of `moodTagFrequency`. -/
def tagFrequency (tags : List String) : List (String × Nat) := tags.foldl countKey []

/-- The reducer of `locationFrequency` and `timePatterns`: a falsy element (the empty
string) is passed over. -/
def patternFrequency (xs : List String) : List (String × Nat) :=
  xs.foldl (fun acc x => if x ≠ "" then countKey acc x else acc) []

/-- One recommendation. -/
structure Recommendation where
  type : String
  priority : String
  message : String
  action : String
  deriving DecidableEq, Repr

/-- The recommendation pushed when `avgMood < 5`. -/
def seekSupport : Recommendation :=
  { type := "mood", priority := "high",
    message := "Your recent mood scores suggest you might benefit from additional support. Consider reaching out to campus counseling services.",
    action := "contact_counselor" }

/-- The recommendation pushed when `avgMood > 7`. -/
def maintainHabits : Recommendation :=
  { type := "mood", priority := "low",
    message := "Great job maintaining positive mood levels! Keep up the healthy habits.",
    action := "maintain_habits" }

/-- The recommendation pushed when `avgStress > 7`. -/
def stressManagement : Recommendation :=
  { type := "stress", priority := "high",
    message := "Your stress levels have been elevated. Consider stress management techniques like deep breathing or meditation.",
    action := "stress_management" }

/-- The recommendation pushed when `totalEntries < 7`. -/
def increaseFrequency : Recommendation :=
  { type := "engagement", priority := "medium",
    message := "Regular journaling can help improve mental clarity. Try setting a daily reminder.",
    action := "increase_frequency" }

/-- The number a relational operator compares when an operand is the result of `$avg`:
`null` converts to 0. -/
def toNumber (x : Option ℚ) : ℚ := x.getD 0

/-- Function `generateRecommendations(analytics)`; `none` is `undefined`. -/
def generateRecommendations (analytics : Option Summary) : List Recommendation :=
  match analytics with
  | none => []
  | some a =>
      (if toNumber a.avgMood < 5 then [seekSupport]
       else if toNumber a.avgMood > 7 then [maintainHabits] else [])
      ++ (if toNumber a.avgStress > 7 then [stressManagement] else [])
      ++ (if a.totalEntries < 7 then [increaseFrequency] else [])

/-- Field `insights` of the dashboard reply. -/
structure Insights where
  moodTagFrequency : List (String × Nat)
  locationFrequency : List (String × Nat)
  timePatterns : List (String × Nat)
  moodTrend : List TrendPoint
  deriving DecidableEq, Repr

/-- The success reply of the dashboard. -/
structure Dashboard where
  timeframe : Int
  summary : Summary
  insights : Insights
  recommendations : List Recommendation
  deriving DecidableEq, Repr

/-- The literal the dashboard substitutes for `analytics[0]` when the aggregation
returned nothing. -/
def emptySummary : Summary :=
  { totalEntries := 0, avgMood := none, avgStress := none, avgReadTime := none,
    mostCommonMoodTags := none, locationPatterns := none, timeOfDayPatterns := none,
    moodTrend := none }

/-- The validator of the dashboard:
`query('timeframe').optional().isInt({ min: 7, max: 365 })`. -/
def dashboardErrors (timeframe : Option String) : List String :=
  match timeframe with
  | some t => if isInt 7 365 (.str t) then [] else ["timeframe"]
  | none => []

/-- The reply the dashboard builds from the result of its aggregation. -/
def dashboardResult (timeframe : Int) (analytics : List Summary) : Dashboard :=
  { timeframe := timeframe
    summary := analytics.head?.getD emptySummary
    insights :=
      { moodTagFrequency :=
          tagFrequency ((analytics.head?.bind (fun a => a.mostCommonMoodTags)).getD []).flatten
        locationFrequency :=
          patternFrequency ((analytics.head?.bind (fun a => a.locationPatterns)).getD [])
        timePatterns :=
          patternFrequency ((analytics.head?.bind (fun a => a.timeOfDayPatterns)).getD [])
        moodTrend := (analytics.head?.bind (fun a => a.moodTrend)).getD [] }
    recommendations := generateRecommendations analytics.head? }

/-- The handler of `GET /api/analytics/dashboard` past `requireConsent`, for the query
parameter `timeframe`; `reqUser` is the document on `req.user`. -/
def dashboardHandler (timeframe : Option String) (env : Env) (s : Store) (reqUser : User) :
    Except Reply Dashboard :=
  if dashboardErrors timeframe ≠ [] then .error (validationError (dashboardErrors timeframe))
  else if !reqUser.privacySettings.analyticsOptIn then
    .error (forbidden "Analytics not enabled. Please opt-in through privacy settings.")
  else
    .ok (dashboardResult (timeframeOr timeframe 30)
      (dashboardAggregate s reqUser._id (startDate env (timeframeOr timeframe 30))))

/-! ## Mood statistics of the journal: `GET /api/journal/stats/mood` -/

/-- The statistics object of the mood-statistics reply. -/
structure MoodStats where
  avgMood : Option ℚ
  avgStress : Option ℚ
  totalEntries : Nat
  moodTrend : List TrendPoint
  deriving DecidableEq, Repr

/-- The aggregation of the mood statistics: the stage `$match` of the caller's
entries of the window and a stage `$group` with `_id: null`; the pipeline ends
there. -/
def moodStatsAggregate (s : Store) (userId : Nat) (start : Int) : List MoodStats :=
  let docs := matchOwn s userId start
  if docs.isEmpty then []
  else
    [ { avgMood := avg (moodScales docs)
        avgStress := avg (stressLevels docs)
        totalEntries := docs.length
        moodTrend := docs.map trendPoint } ]

/-- The success reply of the mood statistics. -/
structure MoodStatsReply where
  stats : MoodStats
  timeframe : Int
  deriving DecidableEq, Repr

/-- The literal the mood statistics substitute for `stats[0]` when the aggregation
returned nothing. -/
def emptyMoodStats : MoodStats :=
  { avgMood := none, avgStress := none, totalEntries := 0, moodTrend := [] }

/-- The handler of `GET /api/journal/stats/mood` past `requireConsent`, for the query
parameter `days`; `reqUser` is the document on `req.user`. -/
def moodStatsHandler (days : Option String) (env : Env) (s : Store) (reqUser : User) :
    Except Reply MoodStatsReply :=
  .ok { stats :=
          (moodStatsAggregate s reqUser._id (startDate env (timeframeOr days 30))).head?.getD
            emptyMoodStats
        timeframe := timeframeOr days 30 }

/-! ## Cohort statistics: `getAnonymizedStats` and `GET /api/analytics/anonymous` -/

/-- One element of `moodTrends` of the cohort statistics; `date` is `createdAt`. -/
structure CohortPoint where
  date : Int
  mood : Int
  stress : Option Int
  deriving DecidableEq, Repr

/-- The document of the cohort aggregation. -/
structure CohortStats where
  avgMood : Option ℚ
  avgStress : Option ℚ
  totalEntries : Nat
  moodTrends : List CohortPoint
  deriving DecidableEq, Repr

/-- The filter of the cohort aggregation on one document:
`{ createdAt: { $gte: startDate }, 'privacy.anonymousSharing': true }`. -/
def cohortMatches (start : Int) (e : JournalEntry) : Bool :=
  decide (start ≤ e.createdAt) && e.privacy.anonymousSharing

/-- Stage `$match` of the cohort aggregation. -/
def matchCohort (s : Store) (start : Int) : List JournalEntry :=
  s.entries.filter (cohortMatches start)

/-- Static `getAnonymizedStats(timeframe)` of the journal model: `$match`, `$group`
with `_id: null`, and `$project` rounding the two means to two places. -/
def JournalEntry.getAnonymizedStats (env : Env) (s : Store) (timeframe : Int) :
    List CohortStats :=
  let docs := matchCohort s (startDate env timeframe)
  if docs.isEmpty then []
  else
    [ { avgMood := roundAvg 2 (avg (moodScales docs))
        avgStress := roundAvg 2 (avg (stressLevels docs))
        totalEntries := docs.length
        moodTrends := docs.map (fun e =>
          { date := e.createdAt, mood := e.entry.mood.scale,
            stress := e.entry.context.stressLevel }) } ]

/-- The reply of `GET /api/analytics/anonymous`: with `campusStats` and the
disclaimer when the aggregation returned a document, with the message (and
`stats: null`) when it returned none. -/
structure AnonymousReply where
  message : Option String
  campusStats : Option CohortStats
  timeframe : Int
  disclaimer : Option String
  deriving DecidableEq, Repr

/-- The handler of `GET /api/analytics/anonymous`, for the query parameter
`timeframe`. -/
def anonymousHandler (timeframe : Option String) (env : Env) (s : Store) : AnonymousReply :=
  match (JournalEntry.getAnonymizedStats env s (timeframeOr timeframe 30)).head? with
  | none =>
      { message := some "No anonymized data available", campusStats := none,
        timeframe := timeframeOr timeframe 30, disclaimer := none }
  | some stats =>
      { message := none, campusStats := some stats, timeframe := timeframeOr timeframe 30,
        disclaimer :=
          some "This data is anonymized and aggregated from users who opted into data sharing." }

/-! ## Colour analytics and export: `GET /api/analytics/mood-colors`, `/export` -/

/-- One document of the colour aggregation; `color` is the group key (`none` is the
key `null`, which collects the elements without a colour). -/
structure ColorStat where
  color : Option String
  frequency : Nat
  avgIntensity : Option ℚ
  avgMoodWhenUsed : Option ℚ
  deriving DecidableEq, Repr

/-- Stage `$match` of the colour aggregation: the caller's entries of the window
whose `entry.mood.colors` is not the empty array. -/
def matchColored (s : Store) (userId : Nat) (start : Int) : List JournalEntry :=
  (matchOwn s userId start).filter (fun e => e.entry.mood.colors ≠ [])

/-- Stage `$unwind: '$entry.mood.colors'`: one row for each colour element of each
document, with the mood scale of its document. -/
def unwindColors (docs : List JournalEntry) : List (MoodColor × Int) :=
  docs.flatMap (fun e => e.entry.mood.colors.map (fun c => (c, e.entry.mood.scale)))

/-- Stage `$group` by colour on the unwound rows. The database fixes no order for
the groups; here they come in the order of `List.dedup` on the keys. -/
def groupColors (rows : List (MoodColor × Int)) : List ColorStat :=
  (rows.map (fun r => r.1.color)).dedup.map (fun key =>
    let members := rows.filter (fun r => r.1.color = key)
    { color := key
      frequency := members.length
      avgIntensity := avg (members.filterMap (fun r => r.1.intensity))
      avgMoodWhenUsed := avg (members.map (fun r => (r.2 : ℚ))) })

/-- Stage `$sort: { frequency: -1 }` (the order among equal frequencies, which the
database leaves open, is that of an insertion sort). -/
def sortByFrequency (groups : List ColorStat) : List ColorStat :=
  groups.insertionSort (fun a b => b.frequency ≤ a.frequency)

/-- Stage `$project` of the colour aggregation: both means rounded to two places. -/
def colorProject (g : ColorStat) : ColorStat :=
  { g with avgIntensity := roundAvg 2 g.avgIntensity,
           avgMoodWhenUsed := roundAvg 2 g.avgMoodWhenUsed }

/-- The aggregation of the colour analytics. -/
def colorAggregate (s : Store) (userId : Nat) (start : Int) : List ColorStat :=
  (sortByFrequency (groupColors (unwindColors (matchColored s userId start)))).map colorProject

/-- The insight of `generateColorInsights` for one aggregated colour, if any:
`none` when `color.color.toLowerCase()` raises (the key is `null`), else the
message pushed, if one is. Lower-casing is that of the ASCII letters, which decides
the same four cases. -/
def colorInsight (c : ColorStat) : Option (Option String) :=
  if 3 ≤ c.frequency then
    match c.color with
    | none => none
    | some name =>
        if name.toLower = "blue" then
          some (some ("Blue appears frequently in your entries (" ++ toString c.frequency
            ++ " times), often associated with calm and stability."))
        else if name.toLower = "red" then
          some (some ("Red usage (" ++ toString c.frequency
            ++ " times) may indicate high energy or stress periods."))
        else if name.toLower = "green" then
          some (some ("Green in your entries (" ++ toString c.frequency
            ++ " times) often represents growth and balance."))
        else if name.toLower = "yellow" then
          some (some ("Yellow usage (" ++ toString c.frequency
            ++ " times) may reflect optimism and energy."))
        else if toNumber c.avgMoodWhenUsed > 7 then
          some (some (name ++ " seems to be associated with your positive moods."))
        else some none
  else some none

/-- Function `generateColorInsights(colorAnalytics)`; `none` when it raises. -/
def generateColorInsights (colorAnalytics : List ColorStat) : Option (List String) :=
  (colorAnalytics.mapM colorInsight).map List.reduceOption

/-- The success reply of the colour analytics. -/
structure ColorReply where
  colorAnalytics : List ColorStat
  timeframe : Int
  insights : List String
  deriving DecidableEq, Repr

/-- The handler of `GET /api/analytics/mood-colors` past `requireConsent`. -/
def moodColorsHandler (timeframe : Option String) (env : Env) (s : Store) (reqUser : User) :
    Except Reply ColorReply :=
  if !reqUser.privacySettings.analyticsOptIn then .error (forbidden "Analytics not enabled")
  else
    let colorAnalytics :=
      colorAggregate s reqUser._id (startDate env (timeframeOr timeframe 30))
    match generateColorInsights colorAnalytics with
    | some insights =>
        .ok { colorAnalytics := colorAnalytics, timeframe := timeframeOr timeframe 30,
              insights := insights }
    | none => .error (serverError "Error fetching color analytics")

/-- One element of `entries` of the export. -/
structure ExportEntry where
  date : Int
  mood : Mood
  context : Context
  analytics : Analytics
  deriving DecidableEq, Repr

/-- The object `data` of the export reply (its constant fields `format` and `version`
are left out). -/
structure ExportData where
  userId : Nat
  analyticsOptIn : Bool
  dataRetention : Int
  timeframe : Int
  entries : List ExportEntry
  exportTimestamp : Int
  deriving DecidableEq, Repr

/-- The handler of `GET /api/analytics/export` past `requireConsent`. -/
def exportHandler (timeframe : Option String) (env : Env) (s : Store) (reqUser : User) :
    Except Reply ExportData :=
  if !reqUser.privacySettings.analyticsOptIn then .error (forbidden "Analytics not enabled")
  else
    .ok { userId := reqUser._id
          analyticsOptIn := reqUser.privacySettings.analyticsOptIn
          dataRetention := reqUser.privacySettings.dataRetention
          timeframe := timeframeOr timeframe 365
          entries :=
            (matchOwn s reqUser._id (startDate env (timeframeOr timeframe 365))).map (fun e =>
              { date := e.createdAt, mood := e.entry.mood, context := e.entry.context,
                analytics := e.analytics })
          exportTimestamp := env.now }

/-! ## The read-only routes behind the middleware -/

/-- A handler that reads `req.user` and writes nothing. These routes declare
`requireConsent`, which passes on requests with a user document only; a request
without one is represented as raising into the handler's `catch`. -/
def readDoc (failure : String) (h : Env → Store → User → Except Reply α) : Handler α :=
  fun env s req =>
    match req.user with
    | some (.doc u) => (h env s u, s)
    | _ => (.error (serverError failure), s)

/-- Route `GET /api/analytics/dashboard` with the query parameter `timeframe`. -/
def dashboardRoute (timeframe : Option String) : Handler Dashboard :=
  readDoc "Error generating analytics dashboard" (dashboardHandler timeframe)

/-- Route `GET /api/journal/stats/mood` with the query parameter `days`. -/
def moodStatsRoute (days : Option String) : Handler MoodStatsReply :=
  readDoc "Error fetching mood statistics" (moodStatsHandler days)

/-- Route `GET /api/analytics/mood-colors` with the query parameter `timeframe`. -/
def moodColorsRoute (timeframe : Option String) : Handler ColorReply :=
  readDoc "Error fetching color analytics" (moodColorsHandler timeframe)

/-- Route `GET /api/analytics/export` with the query parameter `timeframe`. -/
def exportRoute (timeframe : Option String) : Handler ExportData :=
  readDoc "Error exporting analytics data" (exportHandler timeframe)

/-- Route `GET /api/analytics/anonymous` with the query parameter `timeframe`. -/
def anonymousRoute (timeframe : Option String) : Handler AnonymousReply :=
  fun env s _ => (.ok (anonymousHandler timeframe env s), s)

/-! ## Concrete inputs of the aggregations -/

/-- The user `thirtyDayUser` after opting in to analytics. -/
def optedInUser : User :=
  { thirtyDayUser with
    privacySettings :=
      { dataRetention := 30, analyticsOptIn := true, shareAnonymizedData := false } }

/-- A store with `optedInUser` and no entries. -/
def optedInEmpty : Store := { users := [optedInUser], entries := [], nextId := 1 }

/-- A store with `optedInUser` and the entry `storedEntry` (mood scale 3). -/
def optedInStore : Store := { users := [optedInUser], entries := [storedEntry], nextId := 2 }

/-- An entry of user 0 with the given id, mood scale and creation time, and no stress
level. -/
def scaleEntry (id : Nat) (scale createdAt : Int) : JournalEntry :=
  { storedEntry with
    _id := id
    entry := { storedEntry.entry with
               mood := { scale := scale, colors := [], tags := [] }
               context := { location := none, timeOfDay := none, stressLevel := none } }
    createdAt := createdAt }

/-- A store in which user 0, who has not opted in to analytics, has three entries of
2024-03-09 with mood scales 1, 1 and 2. -/
def thirdsStore : Store :=
  { users := [thirtyDayUser],
    entries := [scaleEntry 1 1 1709985600000, scaleEntry 2 1 1709985600000,
                scaleEntry 3 2 1709985600000],
    nextId := 4 }

/-- A summary with mean mood 4, mean stress 8 and 10 entries. -/
def lowMoodSummary : Summary :=
  { emptySummary with avgMood := some 4, avgStress := some 8, totalEntries := 10 }

/-- A server in the zone of `dstEnv` one day after its clocks moved forward
(2024-03-11 07:00 UTC). -/
def afterSwitchEnv : Env := { dstEnv with now := 1710140400000 }

/-- The server of `marchEnv` forty days later (2024-04-18 12:00 UTC). -/
def aprilEnv : Env := { marchEnv with now := 1713441600000 }

/-! ## Reading the journal: `GET /api/journal` and `GET /api/journal/:id` -/

/-- A journal document under `.select('-analytics -__v')`. -/
structure EntryView where
  _id : Nat
  userId : Nat
  entry : EntryFields
  privacy : EntryPrivacy
  expiresAt : Option Int
  createdAt : Int
  deriving DecidableEq, Repr

/-- The projection `.select('-analytics -__v')` of a journal document. -/
def JournalEntry.view (e : JournalEntry) : EntryView :=
  { _id := e._id, userId := e.userId, entry := e.entry, privacy := e.privacy,
    expiresAt := e.expiresAt, createdAt := e.createdAt }

/-- The handler of `GET /api/journal/:id` past `requireConsent`; `id` is the route
parameter as the query casts it (`none`: the cast raises and the `catch` answers
500). -/
def getEntryHandler (id : Option Nat) (_env : Env) (s : Store) (reqUser : User) :
    Except Reply EntryView :=
  match id with
  | none => .error (serverError "Error fetching journal entry")
  | some id =>
      match JournalEntry.findOne s id reqUser._id with
      | none => .error (notFound "Journal entry not found")
      | some entry => .ok entry.view

/-- Validator `isInt({ min })`. -/
def isIntFrom (min : Int) (v : JsVal) : Bool :=
  match v.asInt? with
  | some n => decide (min ≤ n)
  | none => false

/-- The query of `GET /api/journal`: `page` and `limit` as they arrive, `startDate`
and `endDate` as the time values of `new Date(...)` on parameters that passed
`isISO8601()` (the parsing of date strings is not represented). -/
structure ListQuery where
  page : Option String
  limit : Option String
  startDate : Option Int
  endDate : Option Int

/-- The validators of `GET /api/journal` on `page` and `limit`. -/
def listErrors (q : ListQuery) : List String :=
  (match q.page with
    | some p => if isIntFrom 1 (.str p) then [] else ["page"]
    | none => []) ++
  (match q.limit with
    | some l => if isInt 1 50 (.str l) then [] else ["limit"]
    | none => [])

/-- The filter the list handler builds: the caller's entries, from `startDate` on and
up to `endDate` when these are given. -/
def listMatches (q : ListQuery) (userId : Nat) (e : JournalEntry) : Bool :=
  decide (e.userId = userId) &&
  (match q.startDate with
    | some t => decide (t ≤ e.createdAt)
    | none => true) &&
  (match q.endDate with
    | some t => decide (e.createdAt ≤ t)
    | none => true)

/-- The order of `.sort({ createdAt: -1 })`. -/
def newerFirst (a b : JournalEntry) : Prop := b.createdAt ≤ a.createdAt

instance : DecidableRel newerFirst :=
  fun a b => inferInstanceAs (Decidable (b.createdAt ≤ a.createdAt))

/-- The documents `find(query).sort({ createdAt: -1 })` returns (entries of equal
`createdAt`, whose order the database leaves open, stay in the order of the
collection). -/
def findSorted (q : ListQuery) (s : Store) (userId : Nat) : List JournalEntry :=
  (s.entries.filter (listMatches q userId)).insertionSort newerFirst

/-- Field `pagination` of the list reply. -/
structure Pagination where
  page : Int
  limit : Int
  total : Nat
  pages : Int
  deriving DecidableEq, Repr

/-- The success reply of the journal list. -/
structure ListReply where
  entries : List EntryView
  pagination : Pagination
  deriving DecidableEq, Repr

/-- The handler of `GET /api/journal` past `requireConsent`: validation, then
`find(query).sort(...).skip((page - 1) * limit).limit(limit)` and
`countDocuments(query)`; `pages` is `Math.ceil(total / limit)`. Numbers are exact
integers (a numeral beyond the precision of a double is not represented). -/
def listHandler (q : ListQuery) (_env : Env) (s : Store) (reqUser : User) :
    Except Reply ListReply :=
  if listErrors q ≠ [] then .error (validationError (listErrors q))
  else
    let page := timeframeOr q.page 1
    let limit := timeframeOr q.limit 10
    let skip := (page - 1) * limit
    .ok { entries :=
            (((findSorted q s reqUser._id).drop skip.toNat).take limit.toNat).map
              JournalEntry.view
          pagination :=
            { page := page
              limit := limit
              total := (s.entries.filter (listMatches q reqUser._id)).length
              pages := ⌈((s.entries.filter (listMatches q reqUser._id)).length : ℚ) / (limit : ℚ)⌉ } }

/-- Route `GET /api/journal` with its query. -/
def listRoute (q : ListQuery) : Handler ListReply :=
  readDoc "Error fetching journal entries" (listHandler q)

/-- Route `GET /api/journal/:id`. -/
def getEntryRoute (id : Option Nat) : Handler EntryView :=
  readDoc "Error fetching journal entry" (getEntryHandler id)

/-! ## Concrete inputs of the journal routes -/

/-- The user `thirtyDayUser` after account anonymization: status `deleted`, consent
of 2024-03-09 kept. -/
def deletedUser : User :=
  { thirtyDayUser with
    email := "anonymized", displayName := "Anonymous User",
    accountStatus := AccountStatus.deleted }

/-- A store with `deletedUser` and the entry `storedEntry`. -/
def deletedStore : Store := { users := [deletedUser], entries := [storedEntry], nextId := 2 }

/-- A second user, with the identity `auth0|b`. -/
def otherUser : User :=
  { thirtyDayUser with _id := 5, auth0Id := "auth0|b", email := "hb", displayName := "B" }

/-- A store with two users; the one entry belongs to `thirtyDayUser`. -/
def sharedStore : Store :=
  { users := [thirtyDayUser, otherUser], entries := [storedEntry], nextId := 6 }

/-- A store in which user 0 has three entries, stored newest first: 2024-03-09,
2024-03-08 and 2024-03-07 (mood scales 5, 6 and 7). -/
def newestFirstStore : Store :=
  { users := [optedInUser],
    entries := [scaleEntry 1 5 1709985600000, scaleEntry 2 6 1709899200000,
                scaleEntry 3 7 1709812800000],
    nextId := 4 }

/-- A journal body that shares the entry anonymously. -/
def sharingBody : JournalBody :=
  { plainJournalBody with
    privacy := some { isPrivate := none, shareWithCounselor := none,
                      anonymousSharing := some true } }

/-- A server whose real-time emit raises. -/
def relayDownEnv : Env := { marchEnv with relayRaises := true }

/-- The list query without parameters. -/
def plainListQuery : ListQuery :=
  { page := none, limit := none, startDate := none, endDate := none }

/-- An update body without any field. -/
def emptyJournalBody : JournalBody :=
  { content := none, mood := none, context := none, prompts := none, privacy := none }

/-- What the cohort aggregation reads of a document: `createdAt`, the mood scale and
the stress level. -/
def cohortTriple (e : JournalEntry) : Int × Int × Option Int :=
  (e.createdAt, e.entry.mood.scale, e.entry.context.stressLevel)

/-- The triples of the entries of a store that are shared anonymously and were
created at or after `start`, in the order of the collection. -/
def cohortTriples (s : Store) (start : Int) : List (Int × Int × Option Int) :=
  (s.entries.filter (fun e =>
    e.privacy.anonymousSharing = true ∧ start ≤ e.createdAt)).map cohortTriple

/-- A store that agrees with `entryStore` on the triple of its one anonymously shared
entry and on nothing else: the shared entry has another owner, id, content, tags,
colours, location, prompts and privacy flags, and there is a further entry that is
not shared. -/
def disguisedStore : Store :=
  { users := [otherUser],
    entries :=
      [ { scaleEntry 8 9 1709985600000 with
          privacy := { isPrivate := true, shareWithCounselor := false,
                       anonymousSharing := false } },
        { _id := 9, userId := 5,
          entry :=
            { content := "another day",
              mood := { scale := 3, colors := [{ color := some "red", intensity := some 2 }],
                        tags := ["sad"] },
              prompts := { gratitude := ["rain"], challenges := [], goals := [],
                           reflections := [] },
              context := { location := some "library", timeOfDay := some "night",
                           stressLevel := some 4 } },
          privacy := { isPrivate := false, shareWithCounselor := false,
                       anonymousSharing := true },
          analytics := { readTime := some 12, editCount := some 3, sentiment := none },
          expiresAt := none, createdAt := 1709985600000 } ],
    nextId := 10 }

/-- The document the server stores for `sharingBody` sent by `thirtyDayUser` on
2024-03-09 12:00 UTC into `thirtyDayStore`. -/
def createdSharing : JournalEntry :=
  { _id := 1, userId := 0,
    entry :=
      { content := "today", mood := { scale := 3, colors := [], tags := [] },
        prompts := { gratitude := [], challenges := [], goals := [], reflections := [] },
        context := { location := none, timeOfDay := none, stressLevel := none } },
    privacy := { isPrivate := true, shareWithCounselor := false, anonymousSharing := true },
    analytics := { readTime := none, editCount := some 0, sentiment := none },
    expiresAt := some 1712577600000, createdAt := 1709985600000 }

instance : IsTotal JournalEntry newerFirst :=
  ⟨fun a b => le_total b.createdAt a.createdAt⟩

instance : IsTrans JournalEntry newerFirst :=
  ⟨fun _ _ _ hab hbc => le_trans hbc hab⟩

/-- The list query for page `p` with limit 2. -/
def pageOfTwo (p : String) : ListQuery :=
  { page := some p, limit := some "2", startDate := none, endDate := none }

/-! ## Schema validation and its concrete inputs -/

/-- The length Mongoose's `maxlength` compares, `value.length`: the number of UTF-16
code units of the string. -/
def utf16Length (s : String) : Nat :=
  s.toList.foldl (fun n c => n + (if c.toNat < 65536 then 1 else 2)) 0

/-- The validation of `userSchema` on a user document: the required paths `auth0Id`,
`email`, `consentVersion` (a required string is a non-empty one) and `consentDate`,
`maxlength` of `displayName`, `min` and `max` of `privacySettings.dataRetention` and
the enumerated preferences (`accountStatus` is of its enumerated type). `save()`
checks the required paths of every document and the other validators on the
paths that were modified, so this is what `save()` checks of a document whose
unmodified paths hold values the schema accepts. -/
def User.schemaValid (u : User) : Bool :=
  decide (u.auth0Id ≠ "") && decide (u.email ≠ "") && decide (u.consentVersion ≠ "") &&
    u.consentDate.isSome && decide (utf16Length u.displayName ≤ 50) &&
    decide (30 ≤ u.privacySettings.dataRetention ∧ u.privacySettings.dataRetention ≤ 1095) &&
    colorThemes.contains u.preferences.colorTheme &&
    reminderFrequencies.contains u.preferences.reminderFrequency

/-- The server of `marchEnv` (2024-03-09 12:00 UTC, in UTC) with the validation of
`userSchema`: the save of a user document raises exactly when the schema refuses
the document. -/
def schemaEnv : Env := { marchEnv with rejectsUser := fun u => !u.schemaValid }

/-- A user whose consent was recorded on 2023-01-01, more than 365 days before the
clock reading of `schemaEnv`. -/
def expiredUser : User :=
  { thirtyDayUser with consentDate := some 1672531200000, lastActive := 1672531200000 }

/-- A store with that user and no entries. -/
def expiredStore : Store :=
  { users := [expiredUser], entries := [], nextId := 1 }

/-- A store in which `optedInUser` has one entry, of mood scale 3, written on
2024-03-04 07:30 UTC: six days, 23 hours and 30 minutes before the clock reading of
`afterSwitchEnv`. -/
def dstWindowStore : Store :=
  { users := [optedInUser], entries := [scaleEntry 1 3 1709537400000], nextId := 2 }

/-- A store in which `optedInUser` has 40 entries of 2024-03-09: 37 of mood scale 1
and 3 of mood scale 2, whose mean is 43/40 = 1.075. -/
def tieStore : Store :=
  { users := [optedInUser],
    entries :=
      (List.range 37).map (fun i => scaleEntry (i + 1) 1 1709985600000) ++
        (List.range 3).map (fun i => scaleEntry (i + 38) 2 1709985600000),
    nextId := 41 }

/-- An update body whose mood scale, 11, fails the validator. -/
def offScaleBody : JournalBody :=
  { emptyJournalBody with mood := some { scale := some 11, tags := none, colors := none } }

/-- A window parameter that `parseInt(x) || dflt` reads here as the code does: absent,
not a number, or an integer of magnitude below `2 ^ 53` (where the double that
`parseInt` returns is the integer read) whose window start is the time value of a
`Date` (at most 8.64e15 ms from the epoch). -/
def WindowReadable (env : Env) (param : Option String) : Prop :=
  ∀ t n, param = some t → parseInt t = some n →
    |n| < 2 ^ 53 ∧ |startDate env n| ≤ 8640000000000000

/-! ## Properties -/

/-- C1: `requireConsent` answers 403 with `requiresConsent = true` (and does not call
`next`) exactly when the request has no user, the user has no `consentDate`, or
`now - consentDate` exceeds 365 days in milliseconds; otherwise it calls `next`, in
particular for consent aged 365 days minus one second. -/
theorem requireConsent_denies_iff (now : Int) (user : Option User) :
    ((∃ r, requireConsent now user = .respond r ∧ r.status = 403 ∧
          r.requiresConsent = true ∧ requireConsent now user ≠ .next) ↔
      (user = none ∨ ∃ u, user = some u ∧ (u.consentDate = none ∨
        ∃ d, u.consentDate = some d ∧ now - d > 365 * 24 * 60 * 60 * 1000))) ∧
    (requireConsent now user = .next ↔
      ¬ (user = none ∨ ∃ u, user = some u ∧ (u.consentDate = none ∨
        ∃ d, u.consentDate = some d ∧ now - d > 365 * 24 * 60 * 60 * 1000))) ∧
    (∀ u d, user = some u → u.consentDate = some d →
      now - d = 365 * 24 * 60 * 60 * 1000 - 1000 → requireConsent now user = .next) := by
  have hmax : maxConsentAge = 365 * 24 * 60 * 60 * 1000 := rfl
  refine ⟨?_, ?_, ?_⟩
  · cases user with
    | none => simp [requireConsent]
    | some u =>
      cases hd : u.consentDate with
      | none => simp [requireConsent, hd]
      | some d =>
        by_cases h : now - d > maxConsentAge
        · simp only [requireConsent, hd, h]
          rw [hmax] at h
          simp [hd]
          omega
        · simp only [requireConsent, hd, h]
          rw [hmax] at h
          simp [hd]
          omega
  · cases user with
    | none => simp [requireConsent]
    | some u =>
      cases hd : u.consentDate with
      | none => simp [requireConsent, hd]
      | some d =>
        by_cases h : now - d > maxConsentAge
        · simp only [requireConsent, hd, h]
          rw [hmax] at h
          simp [hd]
          omega
        · simp only [requireConsent, hd, h]
          rw [hmax] at h
          simp [hd]
          omega
  · intro u d hu hd hage
    subst hu
    have h : ¬ (now - d > maxConsentAge) := by rw [hmax, hage]; norm_num
    simp [requireConsent, hd, h]

/-! ### Store lemmas -/

theorem user_eq_of_id_eq {l : List User} (hnd : (l.map (fun u => u._id)).Nodup)
    {x y : User} (hx : x ∈ l) (hy : y ∈ l) (h : x._id = y._id) : x = y :=
  List.inj_on_of_nodup_map hnd hx hy h

theorem user_findOne_mem {s : Store} {a : String} {u : User} (h : User.findOne s a = some u) :
    u ∈ s.users ∧ u.auth0Id = a := by
  unfold User.findOne at h
  exact ⟨List.mem_of_find?_eq_some h, by simpa using List.find?_some h⟩

theorem user_findById_mem {s : Store} {i : Nat} {u : User} (h : User.findById s i = some u) :
    u ∈ s.users ∧ u._id = i := by
  unfold User.findById at h
  exact ⟨List.mem_of_find?_eq_some h, by simpa using List.find?_some h⟩

/-- Saving a stored document that differs from the stored one in `lastActive` only
leaves every other field of every user as it was. -/
theorem user_save_lastActive_frame {s : Store} (hwf : s.WellFormed) {u : User}
    (hu : u ∈ s.users) (t : Int) :
    (Store.putUser s { u with lastActive := t }).users.map (fun x => { x with lastActive := 0 })
      = s.users.map (fun x => { x with lastActive := 0 }) := by
  simp only [Store.putUser, List.map_map]
  apply List.map_congr_left
  intro x hx
  by_cases hid : x._id = u._id
  · have : x = u := user_eq_of_id_eq hwf.1 hx hu hid
    subst this
    simp
  · simp [hid]

theorem dataBearing_chain :
    ∀ r ∈ dataBearingRoutes, r.chain = [Middleware.auth, Middleware.requireConsent] := by
  decide

/-! ### C2 -/

/-- The routers of the data-bearing routes declare `requireConsent` and nothing else,
and are mounted with the name `auth` in front. -/
theorem dataBearing_own :
    ∀ r ∈ dataBearingRoutes, r.mountArgs = [MountArg.authExports] ∧
      r.mount = [Middleware.auth] ∧ r.own = [Middleware.requireConsent] := by
  decide

/-- A user document without `consentDate` is refused by the schema. -/
theorem schemaValid_consentDate {u : User} (h : u.consentDate = none) :
    u.schemaValid = false := by
  simp [User.schemaValid, h]

/-- C2, as stated, fails: the user of `expiredStore` (consent recorded more than 365
days before the request, the document valid by the schema) asks for the journal
list. The request is denied with 403 and `requiresConsent`, yet the stored user
record is not left as it was: `auth` has written `lastActive` before the gate ran. -/
theorem denied_request_touches_lastActive :
    expiredUser.schemaValid = true ∧
    User.schemaValid { expiredUser with lastActive := schemaEnv.now } = true ∧
    (serve schemaEnv expiredStore tokenRequest Route.journalList queryOnly).1 =
        .error { status := 403, message := "Privacy consent expired",
                 requiresConsent := true, errors := [] } ∧
    (serve schemaEnv expiredStore tokenRequest Route.journalList queryOnly).2.users ≠
        expiredStore.users ∧
    expiredStore.users.map (fun u => u.lastActive) = [1672531200000] ∧
    ((serve schemaEnv expiredStore tokenRequest Route.journalList queryOnly).2.users.map
        (fun u => u.lastActive)) = [1709985600000] := by
  decide

/-- C2 (amended): every data-bearing route declares `requireConsent` before its
handler and is mounted behind the name `auth` (read as the function `auth` of the
middleware module), whatever the handler is. The router by itself
answers any request on which the gate does not pass (no user on it, no consent date,
or consent older than 365 days) with the 403 consent denial and leaves the store
exactly as it was. Through `auth`, for a stored user whose consent is older than 365
days (and whose `lastActive` write is accepted), the reply is the 403 denial, the
handler is not run, the journal entries are unchanged and the user records are
unchanged except for the `lastActive` that `auth` has written. For a stored user
without a consent date the schema refuses the `lastActive` write (`consentDate` is
required), so where `save` enforces the schema the request is answered 500 by `auth`
and the store is unchanged. -/
theorem consent_gate_before_handler {α : Type} (env : Env) (s : Store) (req : Request)
    (r : Route) (h : Handler α) (c : Claims) (u : User)
    (hwf : s.WellFormed) (hr : r ∈ dataBearingRoutes) (htok : req.token = .ok c)
    (hu : User.findOne s c.sub = some u) :
    r.mountArgs = [MountArg.authExports] ∧ r.mount = [Middleware.auth] ∧
    r.own = [Middleware.requireConsent] ∧
    (∀ req1 : Request, requireConsent env.now req1.doc? ≠ .next →
      ∃ rep, runChain env r.own s req1 = (.error rep, s) ∧ rep.status = 403 ∧
        rep.requiresConsent = true) ∧
    (∀ d, u.consentDate = some d → env.now - d > maxConsentAge →
      env.rejectsUser { u with lastActive := env.now } = false →
      (serve env s req r h).1 =
        .error { status := 403, message := "Privacy consent expired",
                 requiresConsent := true, errors := [] } ∧
      (serve env s req r h).2 = Store.putUser s { u with lastActive := env.now } ∧
      (serve env s req r h).2.entries = s.entries ∧
      (serve env s req r h).2.users.map (fun x => { x with lastActive := 0 }) =
        s.users.map (fun x => { x with lastActive := 0 })) ∧
    (u.consentDate = none →
      User.schemaValid { u with lastActive := env.now } = false ∧
      ((∀ x : User, x.schemaValid = false → env.rejectsUser x = true) →
        serve env s req r h =
          (.error (serverError "Authentication processing error"), s))) := by
  have hchain := dataBearing_chain r hr
  obtain ⟨hargs, hmount, hown⟩ := dataBearing_own r hr
  refine ⟨hargs, hmount, hown, ?_, ?_, ?_⟩
  · intro req1 hden
    rw [hown]
    cases hdoc : req1.doc? with
    | none =>
      exact ⟨{ status := 403, message := "Privacy consent required",
               requiresConsent := true, errors := [] },
        by simp [runChain, hdoc, requireConsent], rfl, rfl⟩
    | some u1 =>
      cases hcd : u1.consentDate with
      | none =>
        exact ⟨{ status := 403, message := "Privacy consent required",
                 requiresConsent := true, errors := [] },
          by simp [runChain, hdoc, requireConsent, hcd], rfl, rfl⟩
      | some d =>
        by_cases hgt : env.now - d > maxConsentAge
        · exact ⟨{ status := 403, message := "Privacy consent expired",
                   requiresConsent := true, errors := [] },
            by simp [runChain, hdoc, requireConsent, hcd, hgt], rfl, rfl⟩
        · exfalso
          apply hden
          simp [hdoc, requireConsent, hcd, hgt]
  · intro d hd hgt hstored
    have hauth : auth env s req.token =
        (.ok { u with lastActive := env.now }, s.putUser { u with lastActive := env.now }) := by
      simp [auth, htok, hu, User.updateLastActive, User.save, hstored]
    have hserve : serve env s req r h =
        (.error { status := 403, message := "Privacy consent expired",
                  requiresConsent := true, errors := [] },
         Store.putUser s { u with lastActive := env.now }) := by
      simp [serve, hchain, runChain, hauth, Request.doc?, requireConsent, hd, hgt]
    refine ⟨by rw [hserve], by rw [hserve], by rw [hserve]; rfl, ?_⟩
    rw [hserve]
    exact user_save_lastActive_frame hwf (user_findOne_mem hu).1 env.now
  · intro hnone
    have hinv : User.schemaValid { u with lastActive := env.now } = false :=
      schemaValid_consentDate hnone
    refine ⟨hinv, fun henf => ?_⟩
    have hrej := henf _ hinv
    simp [serve, hchain, runChain, auth, htok, hu, User.updateLastActive, User.save, hrej]

/-- C2 at concrete stores, on the server that enforces the schema: the user of
`expiredStore` asking for a privacy update is denied by the gate after `auth` has
written `lastActive`; the user of `staleStore`, whose document has no consent date,
is answered 500 by `auth`. In both cases the handler is not reached. -/
theorem consent_gate_before_handler_witness :
    ((serve schemaEnv expiredStore tokenRequest Route.userPrivacyPut
        (onDoc "Error updating privacy settings" (notFound "User not found")
          (privacyHandler [("dataRetention", .num 90)]))).1 =
        .error { status := 403, message := "Privacy consent expired",
                 requiresConsent := true, errors := [] } ∧
      (serve schemaEnv expiredStore tokenRequest Route.userPrivacyPut
        (onDoc "Error updating privacy settings" (notFound "User not found")
          (privacyHandler [("dataRetention", .num 90)]))).2 =
        expiredStore.putUser { expiredUser with lastActive := schemaEnv.now }) ∧
    serve schemaEnv staleStore tokenRequest Route.userPrivacyPut
        (onDoc "Error updating privacy settings" (notFound "User not found")
          (privacyHandler [("dataRetention", .num 90)])) =
      (.error (serverError "Authentication processing error"), staleStore) :=
  have h1 := (consent_gate_before_handler schemaEnv expiredStore tokenRequest
    Route.userPrivacyPut
    (onDoc "Error updating privacy settings" (notFound "User not found")
      (privacyHandler [("dataRetention", .num 90)]))
    claimsA expiredUser (by decide) (by decide) rfl (by decide)).2.2.2.2.1
      1672531200000 rfl (by decide) (by decide)
  have h2 := (consent_gate_before_handler schemaEnv staleStore tokenRequest
    Route.userPrivacyPut
    (onDoc "Error updating privacy settings" (notFound "User not found")
      (privacyHandler [("dataRetention", .num 90)]))
    claimsA staleUser (by decide) (by decide) rfl (by decide)).2.2.2.2.2 rfl
  ⟨⟨h1.1, h1.2.1⟩, h2.2 (fun x hx => by simp [schemaEnv, hx])⟩

/-! ### Validators and casts -/

theorem isBoolean_cast {v : JsVal} (h : isBoolean v = true) : ∃ x, castBoolean v = some x := by
  cases v with
  | null => simp [isBoolean] at h
  | bool b => exact ⟨b, rfl⟩
  | num n =>
    simp only [isBoolean, decide_eq_true_eq] at h
    rcases h with h | h <;> subst h <;> simp [castBoolean]
  | str s =>
    simp only [isBoolean, decide_eq_true_eq] at h
    rcases h with h | h | h | h <;> subst h <;> simp [castBoolean]

theorem isInt_cast {lo hi : Int} {v : JsVal} (h : isInt lo hi v = true) :
    ∃ n, castNumber v = some n ∧ lo ≤ n ∧ n ≤ hi := by
  unfold isInt at h
  unfold castNumber
  cases hv : v.asInt? with
  | none => simp [hv] at h
  | some n =>
    simp only [hv, Bool.and_eq_true, decide_eq_true_eq] at h
    exact ⟨n, rfl, h.1, h.2⟩

theorem notEmpty_cast {v : JsVal} (h : notEmpty v = true) : castString v = some v.toStr := by
  cases v <;> simp_all [notEmpty, castString, JsVal.toStr]

theorem checkRequired_none {b : Body} {k : String} {p : JsVal → Bool}
    (h : checkRequired b k p = none) : ∃ v, b.get k = some v ∧ p v = true := by
  unfold checkRequired at h
  cases hv : b.get k with
  | none => simp [hv] at h
  | some v =>
    by_cases hp : p v = true
    · exact ⟨v, rfl, hp⟩
    · simp [hv, hp] at h

theorem consentErrors_nil {b : Body} (h : consentErrors b = []) :
    checkRequired b "consentVersion" notEmpty = none ∧
    checkRequired b "analyticsOptIn" isBoolean = none ∧
    checkRequired b "shareAnonymizedData" isBoolean = none ∧
    checkRequired b "dataRetention" (isInt 30 1095) = none := by
  unfold consentErrors at h
  cases h1 : checkRequired b "consentVersion" notEmpty <;>
  cases h2 : checkRequired b "analyticsOptIn" isBoolean <;>
  cases h3 : checkRequired b "shareAnonymizedData" isBoolean <;>
  cases h4 : checkRequired b "dataRetention" (isInt 30 1095) <;>
  simp_all [List.reduceOption]

theorem consentFields_of_valid {b : Body} (h : consentErrors b = []) :
    ∃ f vc va vs vd, consentFields b = some f ∧
      b.get "consentVersion" = some vc ∧ b.get "analyticsOptIn" = some va ∧
      b.get "shareAnonymizedData" = some vs ∧ b.get "dataRetention" = some vd ∧
      castString vc = some f.consentVersion ∧ castBoolean va = some f.analyticsOptIn ∧
      castBoolean vs = some f.shareAnonymizedData ∧ castNumber vd = some f.dataRetention ∧
      30 ≤ f.dataRetention ∧ f.dataRetention ≤ 1095 := by
  obtain ⟨h1, h2, h3, h4⟩ := consentErrors_nil h
  obtain ⟨vc, hvc, hpc⟩ := checkRequired_none h1
  obtain ⟨va, hva, hpa⟩ := checkRequired_none h2
  obtain ⟨vs, hvs, hps⟩ := checkRequired_none h3
  obtain ⟨vd, hvd, hpd⟩ := checkRequired_none h4
  have hc := notEmpty_cast hpc
  obtain ⟨xa, hxa⟩ := isBoolean_cast hpa
  obtain ⟨xs, hxs⟩ := isBoolean_cast hps
  obtain ⟨n, hn, hlo, hhi⟩ := isInt_cast hpd
  refine ⟨{ consentVersion := vc.toStr, dataRetention := n, analyticsOptIn := xa,
            shareAnonymizedData := xs }, vc, va, vs, vd, ?_, hvc, hva, hvs, hvd, hc, hxa, hxs,
          hn, hlo, hhi⟩
  simp [consentFields, hvc, hva, hvs, hvd, hc, hxa, hxs, hn]

theorem filter_save_aux (a : String) (old u1 : User) (hid : u1._id = old._id)
    (ha : u1.auth0Id = a) (hold : old.auth0Id = a) :
    ∀ l : List User, (l.map (fun u => u._id)).Nodup → (l.map (fun u => u.auth0Id)).Nodup →
      old ∈ l →
      (l.map (fun x => if x._id = u1._id then u1 else x)).filter (fun x => x.auth0Id = a)
        = [u1] := by
  intro l
  induction l with
  | nil => intro _ _ h; simp at h
  | cons x xs ih =>
    intro hn1 hn2 hmem
    have hn1' := List.nodup_cons.mp hn1
    have hn2' := List.nodup_cons.mp hn2
    by_cases hx : x = old
    · subst hx
      have hrest1 : ∀ y ∈ xs, y._id ≠ u1._id := by
        intro y hy hEq
        exact hn1'.1 (List.mem_map.mpr ⟨y, hy, hEq.trans hid⟩)
      have hrest2 : ∀ y ∈ xs, y.auth0Id ≠ a := by
        intro y hy hEq
        exact hn2'.1 (List.mem_map.mpr ⟨y, hy, hEq.trans hold.symm⟩)
      have hmap : xs.map (fun y => if y._id = u1._id then u1 else y) = xs := by
        conv_rhs => rw [← List.map_id xs]
        apply List.map_congr_left
        intro y hy
        simp [hrest1 y hy]
      have hfil : xs.filter (fun x => x.auth0Id = a) = [] := by
        rw [List.filter_eq_nil_iff]
        intro y hy
        simpa using hrest2 y hy
      rw [List.map_cons, hmap, if_pos hid.symm, List.filter_cons, hfil]
      simp [ha]
    · have hmem' : old ∈ xs := by
        rcases List.mem_cons.mp hmem with h | h
        · exact absurd h.symm hx
        · exact h
      have hxid : x._id ≠ u1._id := by
        intro hEq
        exact hn1'.1 (List.mem_map.mpr ⟨old, hmem', (hEq.trans hid).symm⟩)
      have hxa : x.auth0Id ≠ a := by
        intro hEq
        exact hn2'.1 (List.mem_map.mpr ⟨old, hmem', hold.trans hEq.symm⟩)
      have := ih hn1'.2 hn2'.2 hmem'
      rw [List.map_cons, if_neg hxid, List.filter_cons, this]
      simp [hxa]

theorem findOne_none_filter {s : Store} {a : String} (h : User.findOne s a = none) :
    s.users.filter (fun x => x.auth0Id = a) = [] := by
  unfold User.findOne at h
  rw [List.filter_eq_nil_iff]
  intro y hy
  have := List.find?_eq_none.mp h y hy
  simpa using this

/-! ### C3 -/

/-- C3: for a request whose `req.user` is a verified identity (a token payload with a
non-empty `sub`) and a body that passes the consent validators, when the save of
that identity's document does not raise, the handler answers with a user `u` that
is, afterwards, the one stored user of that identity; its
`consentVersion`, `dataRetention`, `analyticsOptIn` and `shareAnonymizedData` are the
(schema-cast) values of the body and its `consentDate` is the clock reading. An
existing user is that user with exactly these five fields overwritten; a new one is
appended. `requireConsent` passes `u` at that instant and for the next 365 days. -/
theorem consent_recorded (env : Env) (s : Store) (req : Request) (b : Body) (c : Claims)
    (hwf : s.WellFormed) (hreq : req.user = some (.payload c)) (hsub : c.sub ≠ "")
    (hvalid : consentErrors b = [])
    (hstored : ∀ u, u.auth0Id = c.sub → env.rejectsUser u = false) :
    ∃ f u, consentFields b = some f ∧
      (∀ v, b.get "consentVersion" = some (.str v) → f.consentVersion = v) ∧
      (∀ n, b.get "dataRetention" = some (.num n) → f.dataRetention = n) ∧
      (∀ x, b.get "analyticsOptIn" = some (.bool x) → f.analyticsOptIn = x) ∧
      (∀ x, b.get "shareAnonymizedData" = some (.bool x) → f.shareAnonymizedData = x) ∧
      (consentHandler b env s req).1 = .ok u ∧
      (consentHandler b env s req).2.users.filter (fun x => x.auth0Id = c.sub) = [u] ∧
      u.consentVersion = f.consentVersion ∧
      u.consentDate = some env.now ∧
      u.privacySettings =
        { dataRetention := f.dataRetention, analyticsOptIn := f.analyticsOptIn,
          shareAnonymizedData := f.shareAnonymizedData } ∧
      (∀ old, User.findOne s c.sub = some old →
        u = { old with
              consentVersion := f.consentVersion
              consentDate := some env.now
              privacySettings :=
                { dataRetention := f.dataRetention, analyticsOptIn := f.analyticsOptIn,
                  shareAnonymizedData := f.shareAnonymizedData } } ∧
        (consentHandler b env s req).2 = s.putUser u) ∧
      (User.findOne s c.sub = none →
        (consentHandler b env s req).2.users = s.users ++ [u]) ∧
      (consentHandler b env s req).2.entries = s.entries ∧
      requireConsent env.now (some u) = .next ∧
      (∀ later, later - env.now ≤ maxConsentAge → requireConsent later (some u) = .next) := by
  obtain ⟨f, vc, va, vs, vd, hf, hvc, hva, hvs, hvd, hcc, hca, hcs, hcd, -, -⟩ :=
    consentFields_of_valid hvalid
  have hgate : ∀ (u : User), u.consentDate = some env.now →
      ∀ later, later - env.now ≤ maxConsentAge → requireConsent later (some u) = .next := by
    intro u hu later hle
    have : ¬ (later - env.now > maxConsentAge) := not_lt.mpr hle
    simp [requireConsent, hu, this]
  have hnow : env.now - env.now ≤ maxConsentAge := by
    rw [sub_self]; decide
  have hv1 : ∀ v, b.get "consentVersion" = some (.str v) → f.consentVersion = v := by
    intro v hv
    rw [hvc] at hv
    cases hv
    simpa [castString, JsVal.toStr] using hcc.symm
  have hv2 : ∀ n, b.get "dataRetention" = some (.num n) → f.dataRetention = n := by
    intro n hv
    rw [hvd] at hv
    cases hv
    simpa [castNumber, JsVal.asInt?] using hcd.symm
  have hv3 : ∀ x, b.get "analyticsOptIn" = some (.bool x) → f.analyticsOptIn = x := by
    intro x hv
    rw [hva] at hv
    cases hv
    simpa [castBoolean] using hca.symm
  have hv4 : ∀ x, b.get "shareAnonymizedData" = some (.bool x) → f.shareAnonymizedData = x := by
    intro x hv
    rw [hvs] at hv
    cases hv
    simpa [castBoolean] using hcs.symm
  cases hfo : User.findOne s c.sub with
  | none =>
    have hacc : env.rejectsUser { newConsentUser env c f with _id := s.nextId } = false :=
      hstored _ rfl
    have hres : consentHandler b env s req =
        (.ok { newConsentUser env c f with _id := s.nextId },
         s.addUser { newConsentUser env c f with _id := s.nextId }) := by
      simp [consentHandler, hvalid, hreq, hsub, hf, hfo, User.save, hacc]
    refine ⟨f, { newConsentUser env c f with _id := s.nextId }, hf, hv1, hv2, hv3, hv4, ?_, ?_,
      rfl, rfl, rfl, ?_, ?_, ?_, hgate _ rfl _ hnow, hgate _ rfl⟩
    · rw [hres]
    · rw [hres]
      simp [Store.addUser, List.filter_append, findOne_none_filter hfo, newConsentUser]
    · intro old hold; cases hold
    · intro _; rw [hres]; rfl
    · rw [hres]; rfl
  | some old =>
    obtain ⟨hmem, hauth⟩ := user_findOne_mem hfo
    have hacc : env.rejectsUser (overwriteConsent env f old) = false := hstored _ hauth
    have hres : consentHandler b env s req =
        (.ok (overwriteConsent env f old), Store.putUser s (overwriteConsent env f old)) := by
      simp [consentHandler, hvalid, hreq, hsub, hf, hfo, User.save, hacc]
    refine ⟨f, overwriteConsent env f old, hf, hv1, hv2, hv3, hv4, ?_, ?_,
      rfl, rfl, rfl, ?_, ?_, ?_, hgate _ rfl _ hnow, hgate _ rfl⟩
    · rw [hres]
    · rw [hres]
      exact filter_save_aux c.sub old (overwriteConsent env f old) rfl hauth hauth s.users
        hwf.1 hwf.2.1 hmem
    · intro old2 hold
      cases hold
      exact ⟨rfl, by rw [hres]⟩
    · intro h; cases h
    · rw [hres]; rfl

/-! ### C5 and C6: the privacy-settings update -/

theorem checkOptional_none {b : Body} {k : String} {p : JsVal → Bool}
    (h : checkOptional b k p = none) : ∀ v, b.get k = some v → p v = true := by
  intro v hv
  unfold checkOptional at h
  rw [hv] at h
  by_cases hp : p v = true
  · exact hp
  · simp [hp] at h

theorem privacyErrors_nil {b : Body} (h : privacyErrors b = []) :
    checkOptional b "dataRetention" (isInt 30 1095) = none ∧
    checkOptional b "analyticsOptIn" isBoolean = none ∧
    checkOptional b "shareAnonymizedData" isBoolean = none := by
  unfold privacyErrors at h
  cases h1 : checkOptional b "dataRetention" (isInt 30 1095) <;>
  cases h2 : checkOptional b "analyticsOptIn" isBoolean <;>
  cases h3 : checkOptional b "shareAnonymizedData" isBoolean <;>
  simp_all [List.reduceOption]

theorem foldlM_privacy (b : Body) (hvalid : privacyErrors b = []) :
    ∀ (ks : List String) (p : PrivacySettings),
      ks.foldlM (assignPrivacy b) p = some (patchPrivacy b ks p) := by
  obtain ⟨h1, h2, h3⟩ := privacyErrors_nil hvalid
  have hd := checkOptional_none h1
  have ha := checkOptional_none h2
  have hs := checkOptional_none h3
  intro ks
  induction ks with
  | nil => intro p; simp [patchPrivacy]
  | cons k ks ih =>
    intro p
    rw [List.foldlM_cons]
    cases hk : b.get k with
    | none =>
      have hstep : assignPrivacy b p k = some p := by simp [assignPrivacy, hk]
      rw [hstep]
      simp only [Option.bind_eq_bind, Option.some_bind]
      rw [ih p]
      congr 1
      by_cases k1 : k = "dataRetention"
      · subst k1; simp [patchPrivacy, hk]
      · by_cases k2 : k = "analyticsOptIn"
        · subst k2; simp [patchPrivacy, hk]
        · by_cases k3 : k = "shareAnonymizedData"
          · subst k3; simp [patchPrivacy, hk]
          · simp [patchPrivacy, Ne.symm k1, Ne.symm k2, Ne.symm k3]
    | some v =>
      by_cases k1 : k = "dataRetention"
      · subst k1
        obtain ⟨n, hn, -, -⟩ := isInt_cast (hd v hk)
        have hstep : assignPrivacy b p "dataRetention" = some { p with dataRetention := n } := by
          simp [assignPrivacy, hk, PrivacySettings.set, hn]
        rw [hstep]
        simp only [Option.bind_eq_bind, Option.some_bind]
        rw [ih]
        simp [patchPrivacy, hk, hn]
      · by_cases k2 : k = "analyticsOptIn"
        · subst k2
          obtain ⟨x, hx⟩ := isBoolean_cast (ha v hk)
          have hstep : assignPrivacy b p "analyticsOptIn" = some { p with analyticsOptIn := x } := by
            simp [assignPrivacy, hk, PrivacySettings.set, hx]
          rw [hstep]
          simp only [Option.bind_eq_bind, Option.some_bind]
          rw [ih]
          simp [patchPrivacy, hk, hx]
        · by_cases k3 : k = "shareAnonymizedData"
          · subst k3
            obtain ⟨x, hx⟩ := isBoolean_cast (hs v hk)
            have hstep : assignPrivacy b p "shareAnonymizedData" =
                some { p with shareAnonymizedData := x } := by
              simp [assignPrivacy, hk, PrivacySettings.set, hx]
            rw [hstep]
            simp only [Option.bind_eq_bind, Option.some_bind]
            rw [ih]
            simp [patchPrivacy, hk, hx]
          · have hstep : assignPrivacy b p k = some p := by
              simp [assignPrivacy, hk, PrivacySettings.set, k1, k2, k3]
            rw [hstep]
            simp only [Option.bind_eq_bind, Option.some_bind]
            rw [ih]
            simp [patchPrivacy, Ne.symm k1, Ne.symm k2, Ne.symm k3]

theorem get_none_of_not_mem_keys {b : Body} {k : String} (h : k ∉ b.keys) : b.get k = none := by
  unfold Body.get
  rw [List.lookup_eq_none_iff]
  intro p hp
  simp only [bne_iff_ne, ne_eq]
  intro hEq
  exact h (List.mem_map.mpr ⟨p, hp, hEq.symm⟩)

theorem applyPrivacyBody_valid (b : Body) (hvalid : privacyErrors b = []) (p : PrivacySettings) :
    applyPrivacyBody b p = some (expectedPrivacy b p) := by
  unfold applyPrivacyBody
  rw [foldlM_privacy b hvalid]
  congr 1
  unfold patchPrivacy expectedPrivacy
  congr 1
  · split
    · rfl
    · next h => simp [get_none_of_not_mem_keys h]
  · split
    · rfl
    · next h => simp [get_none_of_not_mem_keys h]
  · split
    · rfl
    · next h => simp [get_none_of_not_mem_keys h]

theorem user_findById_save {s : Store} {i : Nat} {user u1 : User}
    (hfind : User.findById s i = some user) (hid : u1._id = user._id) :
    User.findById (s.putUser u1) i = some u1 := by
  obtain ⟨-, hi⟩ := user_findById_mem hfind
  unfold User.findById Store.putUser at *
  simp only
  rw [List.find?_map]
  have hcomp : ((fun u : User => decide (u._id = i)) ∘ fun x => if x._id = u1._id then u1 else x)
      = fun u : User => decide (u._id = i) := by
    funext x
    simp only [Function.comp]
    by_cases hx : x._id = u1._id
    · simp [hx, hid, hi]
    · simp [hx]
  rw [hcomp, hfind]
  simp [hid]

theorem user_save_other_mem {s : Store} {u1 x : User} (hx : x ∈ s.users)
    (hne : x._id ≠ u1._id) : x ∈ (Store.putUser s u1).users := by
  unfold Store.putUser
  simp only
  exact List.mem_map.mpr ⟨x, hx, by simp [hne]⟩

/-- C5: past validation, and when the save of the updated document does not raise,
the privacy handler assigns to each of `dataRetention`, `analyticsOptIn`,
`shareAnonymizedData` the value the body provides and keeps the stored value of each
one the body omits; the stored user is the old document with only `privacySettings`
replaced, other users and the journal entries are untouched. The updated document of
a user the schema accepts is accepted by the schema. A body of only
`analyticsOptIn: true` keeps the retention period and `shareAnonymizedData`. -/
theorem privacy_update_field_wise (b : Body) (env : Env) (s : Store) (reqUser user : User)
    (hfind : User.findById s reqUser._id = some user) :
    (privacyErrors b = [] →
      (user.schemaValid = true →
        User.schemaValid
          { user with privacySettings := expectedPrivacy b user.privacySettings } = true) ∧
      (env.rejectsUser
          { user with privacySettings := expectedPrivacy b user.privacySettings } = false →
      privacyHandler b env s reqUser =
        (.ok (expectedPrivacy b user.privacySettings),
         Store.putUser s { user with privacySettings := expectedPrivacy b user.privacySettings }) ∧
      (∀ n, b.get "dataRetention" = some (.num n) →
        (expectedPrivacy b user.privacySettings).dataRetention = n) ∧
      (∀ x, b.get "analyticsOptIn" = some (.bool x) →
        (expectedPrivacy b user.privacySettings).analyticsOptIn = x) ∧
      (∀ x, b.get "shareAnonymizedData" = some (.bool x) →
        (expectedPrivacy b user.privacySettings).shareAnonymizedData = x) ∧
      (∀ v, b.get "dataRetention" = some v →
        castNumber v = some (expectedPrivacy b user.privacySettings).dataRetention) ∧
      (∀ v, b.get "analyticsOptIn" = some v →
        castBoolean v = some (expectedPrivacy b user.privacySettings).analyticsOptIn) ∧
      (∀ v, b.get "shareAnonymizedData" = some v →
        castBoolean v = some (expectedPrivacy b user.privacySettings).shareAnonymizedData) ∧
      (b.get "dataRetention" = none →
        (expectedPrivacy b user.privacySettings).dataRetention =
          user.privacySettings.dataRetention) ∧
      (b.get "analyticsOptIn" = none →
        (expectedPrivacy b user.privacySettings).analyticsOptIn =
          user.privacySettings.analyticsOptIn) ∧
      (b.get "shareAnonymizedData" = none →
        (expectedPrivacy b user.privacySettings).shareAnonymizedData =
          user.privacySettings.shareAnonymizedData) ∧
      (∃ stored, User.findById (privacyHandler b env s reqUser).2 reqUser._id = some stored ∧
        stored.privacySettings = expectedPrivacy b user.privacySettings ∧
        stored.consentVersion = user.consentVersion ∧
        stored.consentDate = user.consentDate ∧
        stored.preferences = user.preferences ∧
        stored.displayName = user.displayName ∧
        stored.accountStatus = user.accountStatus ∧
        stored.auth0Id = user.auth0Id ∧ stored.email = user.email ∧
        stored.lastActive = user.lastActive ∧ stored._id = user._id) ∧
      (∀ x ∈ s.users, x._id ≠ user._id → x ∈ (privacyHandler b env s reqUser).2.users) ∧
      (privacyHandler b env s reqUser).2.entries = s.entries)) ∧
    (env.rejectsUser
        { user with privacySettings := { user.privacySettings with analyticsOptIn := true } }
        = false →
      privacyHandler [("analyticsOptIn", .bool true)] env s reqUser =
        (.ok { user.privacySettings with analyticsOptIn := true },
         Store.putUser s
          { user with
            privacySettings := { user.privacySettings with analyticsOptIn := true } })) := by
  constructor
  · intro hvalid
    obtain ⟨h1, h2, h3⟩ := privacyErrors_nil hvalid
    have hcd : ∀ v, b.get "dataRetention" = some v →
        castNumber v = some (expectedPrivacy b user.privacySettings).dataRetention := by
      intro v hv
      obtain ⟨n, hn, -, -⟩ := isInt_cast (checkOptional_none h1 v hv)
      simp [expectedPrivacy, hv, hn]
    have hca : ∀ v, b.get "analyticsOptIn" = some v →
        castBoolean v = some (expectedPrivacy b user.privacySettings).analyticsOptIn := by
      intro v hv
      obtain ⟨x, hx⟩ := isBoolean_cast (checkOptional_none h2 v hv)
      simp [expectedPrivacy, hv, hx]
    have hcs : ∀ v, b.get "shareAnonymizedData" = some v →
        castBoolean v = some (expectedPrivacy b user.privacySettings).shareAnonymizedData := by
      intro v hv
      obtain ⟨x, hx⟩ := isBoolean_cast (checkOptional_none h3 v hv)
      simp [expectedPrivacy, hv, hx]
    constructor
    · intro hsv
      have hrange : 30 ≤ (expectedPrivacy b user.privacySettings).dataRetention ∧
          (expectedPrivacy b user.privacySettings).dataRetention ≤ 1095 := by
        cases hg : b.get "dataRetention" with
        | none =>
          have : (expectedPrivacy b user.privacySettings).dataRetention =
              user.privacySettings.dataRetention := by simp [expectedPrivacy, hg]
          rw [this]
          simp only [User.schemaValid, Bool.and_eq_true, decide_eq_true_eq] at hsv
          exact hsv.1.1.2
        | some v =>
          obtain ⟨n, hn, hlo, hhi⟩ := isInt_cast (checkOptional_none h1 v hg)
          have : (expectedPrivacy b user.privacySettings).dataRetention = n := by
            simp [expectedPrivacy, hg, hn]
          rw [this]
          exact ⟨hlo, hhi⟩
      simp only [User.schemaValid, Bool.and_eq_true, decide_eq_true_eq] at hsv ⊢
      exact ⟨⟨⟨hsv.1.1.1, hrange⟩, hsv.1.2⟩, hsv.2⟩
    · intro hstored
      have hres : privacyHandler b env s reqUser =
          (.ok (expectedPrivacy b user.privacySettings),
           Store.putUser s
            { user with privacySettings := expectedPrivacy b user.privacySettings }) := by
        simp [privacyHandler, hvalid, hfind, applyPrivacyBody_valid b hvalid, User.save,
          hstored]
      refine ⟨hres, ?_, ?_, ?_, hcd, hca, hcs, ?_, ?_, ?_, ?_, ?_, ?_⟩
      · intro n hv
        have := hcd _ hv
        simpa [castNumber, JsVal.asInt?] using this.symm
      · intro x hv
        have := hca _ hv
        simpa [castBoolean] using this.symm
      · intro x hv
        have := hcs _ hv
        simpa [castBoolean] using this.symm
      · intro hv; simp [expectedPrivacy, hv]
      · intro hv; simp [expectedPrivacy, hv]
      · intro hv; simp [expectedPrivacy, hv]
      · refine ⟨{ user with privacySettings := expectedPrivacy b user.privacySettings }, ?_,
          rfl, rfl, rfl, rfl, rfl, rfl, rfl, rfl, rfl, rfl⟩
        rw [hres]
        exact user_findById_save hfind rfl
      · intro x hx hne
        rw [hres]
        exact user_save_other_mem hx hne
      · rw [hres]; rfl
  · intro hstored
    have hvalid : privacyErrors [("analyticsOptIn", JsVal.bool true)] = [] := by decide
    have hexp : expectedPrivacy [("analyticsOptIn", JsVal.bool true)] user.privacySettings =
        { user.privacySettings with analyticsOptIn := true } := by
      simp [expectedPrivacy, Body.get, List.lookup, castBoolean]
    simp only [privacyHandler, hvalid, hfind, applyPrivacyBody_valid _ hvalid, User.save,
      hexp]
    simp [hstored]

/-- C5 at a concrete store, on the server that enforces the schema: the body
`analyticsOptIn: true` and the body `dataRetention: 90` for the user of
`thirtyDayStore`, whose document the schema accepts. -/
theorem privacy_update_field_wise_witness :
    thirtyDayUser.schemaValid = true ∧
    privacyHandler [("analyticsOptIn", .bool true)] schemaEnv thirtyDayStore thirtyDayUser =
      (.ok { dataRetention := 30, analyticsOptIn := true, shareAnonymizedData := false },
       Store.putUser thirtyDayStore
        { thirtyDayUser with
          privacySettings :=
            { dataRetention := 30, analyticsOptIn := true, shareAnonymizedData := false } }) ∧
    privacyHandler [("dataRetention", .num 90)] schemaEnv thirtyDayStore thirtyDayUser =
      (.ok { dataRetention := 90, analyticsOptIn := false, shareAnonymizedData := false },
       Store.putUser thirtyDayStore
        { thirtyDayUser with
          privacySettings :=
            { dataRetention := 90, analyticsOptIn := false,
              shareAnonymizedData := false } }) :=
  ⟨by decide,
   (privacy_update_field_wise [] schemaEnv thirtyDayStore thirtyDayUser thirtyDayUser
      (by decide)).2 (by decide),
   ((privacy_update_field_wise [("dataRetention", .num 90)] schemaEnv thirtyDayStore
      thirtyDayUser thirtyDayUser (by decide)).1 (by decide)).2 (by decide) |>.1⟩

/-- C3 at a concrete store: the identity `auth0|a`, whose user has no consent date,
records consent with `consentBody`. -/
theorem consent_recorded_witness :
    ∃ u, (consentHandler consentBody utcEnv staleStore payloadRequest).1 = .ok u ∧
      (consentHandler consentBody utcEnv staleStore payloadRequest).2.users.filter
        (fun x => x.auth0Id = "auth0|a") = [u] ∧
      u.consentVersion = "2.0" ∧ u.consentDate = some 1000 ∧
      u.privacySettings.dataRetention = 90 ∧
      requireConsent 1000 (some u) = .next := by
  obtain ⟨f, u, -, h1, h2, -, -, hok, hfil, hcv, hcd, hps, -, -, -, hgate, -⟩ :=
    consent_recorded utcEnv staleStore payloadRequest consentBody claimsA
      (by decide) rfl (by decide) (by decide) (fun _ _ => rfl)
  refine ⟨u, hok, hfil, ?_, hcd, ?_, hgate⟩
  · rw [hcv]; exact h1 "2.0" (by decide)
  · rw [hps]; exact h2 90 (by decide)

theorem isBoolean_iff (v : JsVal) : isBoolean v = true ↔ v ∈ booleanLike := by
  cases v with
  | null => simp [isBoolean, booleanLike]
  | bool x => cases x <;> simp [isBoolean, booleanLike]
  | num n => simp [isBoolean, booleanLike]
  | str s => simp [isBoolean, booleanLike]

theorem mem_reduceOption_three {a b c : Option String} {k : String} :
    k ∈ [a, b, c].reduceOption ↔ a = some k ∨ b = some k ∨ c = some k := by
  rw [List.reduceOption_mem_iff]
  simp [eq_comm]

theorem checkOptional_eq_some {b : Body} {k k' : String} {p : JsVal → Bool} :
    checkOptional b k p = some k' ↔ k' = k ∧ ∃ v, b.get k = some v ∧ p v = false := by
  unfold checkOptional
  cases hv : b.get k with
  | none => simp
  | some v =>
    by_cases hp : p v = true
    · simp [hp]
    · have hf : p v = false := by simpa using hp
      simp only [hf, Bool.false_eq_true, if_false, Option.some.injEq]
      constructor
      · intro h; exact ⟨h.symm, v, rfl, hf⟩
      · intro h; exact h.1.symm

/-- C6, as stated, fails: `analyticsOptIn` given as the number 1,
`shareAnonymizedData` given as the string `true` and the retention period given as
the string `45` are provided and are not booleans and not an integer, yet none is
reported; for the user of `thirtyDayStore`, whose document the schema accepts, the
update is applied and stored with the cast values. -/
theorem non_boolean_values_pass_validation :
    Body.get looseBody "analyticsOptIn" = some (.num 1) ∧
    Body.get looseBody "shareAnonymizedData" = some (.str "true") ∧
    Body.get looseBody "dataRetention" = some (.str "45") ∧
    (∀ x : Bool, JsVal.num 1 ≠ JsVal.bool x ∧ JsVal.str "true" ≠ JsVal.bool x) ∧
    (∀ n : Int, JsVal.str "45" ≠ JsVal.num n) ∧
    privacyErrors looseBody = [] ∧
    thirtyDayUser.schemaValid = true ∧
    (privacyHandler looseBody schemaEnv thirtyDayStore thirtyDayUser).1 =
      .ok { dataRetention := 45, analyticsOptIn := true, shareAnonymizedData := true } ∧
    ((privacyHandler looseBody schemaEnv thirtyDayStore thirtyDayUser).2.users.map
        (fun u => u.privacySettings)) =
      [{ dataRetention := 45, analyticsOptIn := true, shareAnonymizedData := true }] := by
  refine ⟨by decide, by decide, by decide, by decide, ?_, by decide, by decide, by decide,
    by decide⟩
  intro n h
  cases h

theorem isInt_false_iff (lo hi : Int) (v : JsVal) :
    isInt lo hi v = false ↔ ¬ ∃ n, v.asInt? = some n ∧ lo ≤ n ∧ n ≤ hi := by
  unfold isInt
  cases hv : v.asInt? with
  | none => simp
  | some n =>
    simp only [Option.some.injEq, exists_eq_left', Bool.and_eq_false_iff, decide_eq_false_iff_not]
    tauto

/-- C6 (amended): the privacy validators report exactly the failing fields, where a
value fails `dataRetention` unless it is an integer in [30, 1095] or a string that is
the plain decimal numeral of one, and fails a flag unless it is a boolean, the number
1 or 0, or one of the strings `true`, `false`, `1`, `0`. A number is reported for
`dataRetention` iff it is outside [30, 1095] (29 and 1096 are, 30 and 1095 are not).
The request is rejected with status 400 iff a field is reported; the reply lists every
reported field and the store is unchanged. -/
theorem privacy_validation_reports (b : Body) (env : Env) (s : Store) (reqUser : User) :
    ("dataRetention" ∈ privacyErrors b ↔
      ∃ v, b.get "dataRetention" = some v ∧
        ¬ ∃ n, v.asInt? = some n ∧ 30 ≤ n ∧ n ≤ 1095) ∧
    (∀ n, b.get "dataRetention" = some (.num n) →
      ("dataRetention" ∈ privacyErrors b ↔ ¬ (30 ≤ n ∧ n ≤ 1095))) ∧
    ("analyticsOptIn" ∈ privacyErrors b ↔
      ∃ v, b.get "analyticsOptIn" = some v ∧ v ∉ booleanLike) ∧
    ("shareAnonymizedData" ∈ privacyErrors b ↔
      ∃ v, b.get "shareAnonymizedData" = some v ∧ v ∉ booleanLike) ∧
    (∀ k ∈ privacyErrors b,
      k = "dataRetention" ∨ k = "analyticsOptIn" ∨ k = "shareAnonymizedData") ∧
    (privacyErrors b ≠ [] →
      privacyHandler b env s reqUser = (.error (validationError (privacyErrors b)), s)) ∧
    (privacyErrors b = [] →
      ∀ rep, (privacyHandler b env s reqUser).1 = .error rep → rep.status ≠ 400) ∧
    privacyErrors [("dataRetention", .num 29)] = ["dataRetention"] ∧
    privacyErrors [("dataRetention", .num 1096)] = ["dataRetention"] ∧
    privacyErrors [("dataRetention", .num 30)] = [] ∧
    privacyErrors [("dataRetention", .num 1095)] = [] ∧
    privacyErrors [("dataRetention", .num 29), ("analyticsOptIn", .null),
        ("shareAnonymizedData", .str "maybe")] =
      ["dataRetention", "analyticsOptIn", "shareAnonymizedData"] := by
  have hnot : ∀ v, isBoolean v = false ↔ v ∉ booleanLike := by
    intro v
    rw [← isBoolean_iff]
    simp
  have hD : "dataRetention" ∈ privacyErrors b ↔
      ∃ v, b.get "dataRetention" = some v ∧
        ¬ ∃ n, v.asInt? = some n ∧ 30 ≤ n ∧ n ≤ 1095 := by
    unfold privacyErrors
    rw [mem_reduceOption_three, checkOptional_eq_some, checkOptional_eq_some,
      checkOptional_eq_some]
    simp only [show ¬ ("dataRetention" = "analyticsOptIn") by decide,
      show ¬ ("dataRetention" = "shareAnonymizedData") by decide, false_and, or_false,
      true_and, isInt_false_iff]
  refine ⟨hD, ?_, ?_, ?_, ?_, ?_, ?_, by decide, by decide, by decide, by decide, by decide⟩
  · intro n hn
    rw [hD]
    simp [hn, JsVal.asInt?]
  · unfold privacyErrors
    rw [mem_reduceOption_three, checkOptional_eq_some, checkOptional_eq_some,
      checkOptional_eq_some]
    simp only [show ¬ ("analyticsOptIn" = "dataRetention") by decide,
      show ¬ ("analyticsOptIn" = "shareAnonymizedData") by decide, false_and, or_false,
      false_or, true_and, hnot]
  · unfold privacyErrors
    rw [mem_reduceOption_three, checkOptional_eq_some, checkOptional_eq_some,
      checkOptional_eq_some]
    simp only [show ¬ ("shareAnonymizedData" = "dataRetention") by decide,
      show ¬ ("shareAnonymizedData" = "analyticsOptIn") by decide, false_and, or_false,
      false_or, true_and, hnot]
  · intro k hk
    unfold privacyErrors at hk
    rw [mem_reduceOption_three, checkOptional_eq_some, checkOptional_eq_some,
      checkOptional_eq_some] at hk
    rcases hk with h | h | h
    · exact Or.inl h.1
    · exact Or.inr (Or.inl h.1)
    · exact Or.inr (Or.inr h.1)
  · intro hne
    simp [privacyHandler, hne]
  · intro hvalid rep hrep
    unfold privacyHandler at hrep
    simp only [hvalid, ne_eq, not_true_eq_false, if_false] at hrep
    cases hf : User.findById s reqUser._id with
    | none =>
      simp only [hf] at hrep
      cases hrep
      decide
    | some user =>
      simp only [hf, applyPrivacyBody_valid b hvalid, User.save] at hrep
      split at hrep
      · cases hrep
      · cases hrep
        decide

/-! ### C7 to C10: retention and entry anonymization -/

theorem createErrors_nil {b : JournalBody} (h : createErrors b = []) :
    ∃ content mood scale, b.content = some content ∧ b.mood = some mood ∧
      mood.scale = some scale := by
  unfold createErrors at h
  simp only [List.append_eq_nil] at h
  obtain ⟨⟨hc, hm⟩, -⟩ := h
  cases hbc : b.content with
  | none => simp [hbc] at hc
  | some content =>
    cases hbm : b.mood with
    | none => simp [hbm] at hm
    | some mood =>
      cases hs : mood.scale with
      | none => simp [hbm, hs] at hm
      | some scale => exact ⟨content, mood, scale, rfl, rfl, hs⟩

theorem setDatePlus_fixed (off t n : Int) :
    (Zone.fixed off).setDatePlus t n = t + n * msPerDay := by
  simp only [Zone.setDatePlus, Zone.utc, Zone.localTime, Zone.fixed]
  ring

theorem entry_save_existing (env : Env) (s : Store) (e : JournalEntry) :
    JournalEntry.save env s false e =
      if env.rejectsEntry e then none else some (e, s.putEntry e) := by
  simp [JournalEntry.save, JournalEntry.preSave]

theorem user_save_existing (env : Env) (s : Store) (u : User) :
    User.save env s false u = if env.rejectsUser u then none else some (u, s.putUser u) := by
  simp [User.save]

theorem user_save_some {env : Env} {s s1 : Store} {isNew : Bool} {u u1 : User}
    (h : User.save env s isNew u = some (u1, s1)) :
    s1.entries = s.entries ∧
    (isNew = false → u1 = u ∧ s1 = s.putUser u) ∧
    (isNew = true → u1 = { u with _id := s.nextId } ∧ s1 = s.addUser u1) := by
  unfold User.save at h
  cases isNew with
  | false =>
    simp only [Bool.false_eq_true, if_false] at h
    split at h
    · cases h
    · cases h
      refine ⟨rfl, fun _ => ⟨rfl, rfl⟩, ?_⟩
      intro h
      cases h
  | true =>
    simp only [if_true] at h
    split at h
    · cases h
    · cases h
      refine ⟨rfl, ?_, fun _ => ⟨rfl, rfl⟩⟩
      intro h
      cases h

theorem entry_save_some {env : Env} {s s1 : Store} {isNew : Bool} {e e1 : JournalEntry}
    (h : JournalEntry.save env s isNew e = some (e1, s1)) :
    s1.users = s.users ∧
    (isNew = false → e1 = e ∧ s1 = s.putEntry e) ∧
    (isNew = true → s1 = s.addEntry e1) := by
  unfold JournalEntry.save at h
  cases isNew with
  | false =>
    simp only [Bool.false_eq_true, if_false, JournalEntry.preSave] at h
    split at h
    · cases h
    · cases h
      refine ⟨rfl, fun _ => ⟨rfl, rfl⟩, ?_⟩
      intro h
      cases h
  | true =>
    simp only [if_true] at h
    split at h
    · cases h
    · cases h
      refine ⟨rfl, ?_, fun _ => rfl⟩
      intro h
      cases h

theorem user_save_new (env : Env) (s : Store) (u : User) :
    User.save env s true u =
      if env.rejectsUser { u with _id := s.nextId } then none
      else some ({ u with _id := s.nextId }, s.addUser { u with _id := s.nextId }) := by
  simp [User.save]

/-- C7, as stated, fails: on a server whose zone changes its UTC offset between the
save and the expiry (here a daylight-saving change the next day), an entry saved
under a retention of 30 days expires an hour short of `createdAt` + 30 days of 24 h. -/
theorem expiry_off_by_an_hour_across_dst :
    ((createEntryHandler plainJournalBody dstEnv thirtyDayStore thirtyDayUser).2.entries.map
        (fun e => (e.createdAt, e.expiresAt))) =
      [(1709985600000, some (1709985600000 + 30 * msPerDay - 3600000))] ∧
    ¬ (1709985600000 + 30 * msPerDay - 1000 ≤ 1709985600000 + 30 * msPerDay - 3600000) := by
  decide

/-- C7 (amended): on a server whose zone keeps one UTC offset, an entry first saved
(the save not raising) while its owner is found with retention `d` in [30, 1095] is
stored with `createdAt` the clock reading of the save and `expiresAt` the clock
reading of the expiry hook plus `d` days of 24 h; when the two readings are at most a
second apart, `expiresAt` is within a second of `createdAt + d` days. -/
theorem expiry_on_create (b : JournalBody) (env : Env) (s : Store) (reqUser owner : User)
    (d off : Int) (hd : 30 ≤ d ∧ d ≤ 1095) (hzone : env.zone = Zone.fixed off)
    (hlookup : env.userLookupRaises = false) (hvalid : createErrors b = [])
    (hown : User.findById s reqUser._id = some owner)
    (hret : owner.privacySettings.dataRetention = d)
    (hstored : ∀ e, e.userId = reqUser._id → env.rejectsEntry e = false) :
    ∃ e, (createEntryHandler b env s reqUser).2.entries = s.entries ++ [e] ∧
      e.userId = reqUser._id ∧
      e.createdAt = env.now ∧
      e.expiresAt = some (env.now + env.hookDelay + d * msPerDay) ∧
      (-1000 ≤ env.hookDelay ∧ env.hookDelay ≤ 1000 →
        ∃ x, e.expiresAt = some x ∧ e.createdAt + d * msPerDay - 1000 ≤ x ∧
          x ≤ e.createdAt + d * msPerDay + 1000) := by
  obtain ⟨content, mood, scale, hc, hm, hs⟩ := createErrors_nil hvalid
  have hd0 : d ≠ 0 := by omega
  have hsave : JournalEntry.save env s true (newEntry reqUser content mood scale b) =
      some ({ newEntry reqUser content mood scale b with
          _id := s.nextId, createdAt := env.now,
          expiresAt := some (env.now + env.hookDelay + d * msPerDay) },
       s.addEntry { newEntry reqUser content mood scale b with
                _id := s.nextId, createdAt := env.now,
                expiresAt := some (env.now + env.hookDelay + d * msPerDay) }) := by
    have huid : (newEntry reqUser content mood scale b).userId = reqUser._id := rfl
    simp only [JournalEntry.save, JournalEntry.preSave, hlookup, huid, hown, hret, hd0, hzone,
      setDatePlus_fixed, if_true, Bool.false_eq_true, if_false, ne_eq, not_false_eq_true]
    rw [hstored _ rfl]
    rfl
  refine ⟨{ newEntry reqUser content mood scale b with
              _id := s.nextId, createdAt := env.now,
              expiresAt := some (env.now + env.hookDelay + d * msPerDay) }, ?_, rfl, rfl, rfl, ?_⟩
  · unfold createEntryHandler
    simp only [hvalid, ne_eq, not_true_eq_false, if_false, hc, hm, hs, hsave]
    split <;> rfl
  · intro hdelay
    refine ⟨_, rfl, ?_, ?_⟩ <;> simp only <;> omega

/-- C7 at a concrete input: a 30-day user on a UTC server. -/
theorem expiry_on_create_witness :
    ∃ e, (createEntryHandler plainJournalBody marchEnv thirtyDayStore thirtyDayUser).2.entries =
        thirtyDayStore.entries ++ [e] ∧
      e.createdAt = 1709985600000 ∧
      e.expiresAt = some (1709985600000 + 0 + 30 * msPerDay) := by
  obtain ⟨e, h1, -, h2, h3, -⟩ :=
    expiry_on_create plainJournalBody marchEnv thirtyDayStore thirtyDayUser thirtyDayUser 30 0
      (by decide) rfl rfl (by decide) (by decide) (by decide) (fun _ _ => rfl)
  exact ⟨e, h1, h2, h3⟩

theorem entry_eq_of_id_eq {l : List JournalEntry}
    (hnd : (l.map (fun e => e._id)).Nodup) {x y : JournalEntry} (hx : x ∈ l) (hy : y ∈ l)
    (h : x._id = y._id) : x = y :=
  List.inj_on_of_nodup_map hnd hx hy h

theorem entry_findOne_mem {s : Store} {i uid : Nat} {e : JournalEntry}
    (h : JournalEntry.findOne s i uid = some e) :
    e ∈ s.entries ∧ e._id = i ∧ e.userId = uid := by
  unfold JournalEntry.findOne at h
  have := List.find?_some h
  simp only [decide_eq_true_eq] at this
  exact ⟨List.mem_of_find?_eq_some h, this.1, this.2⟩

/-- Writing a stored entry back under its id with its expiry leaves the id and expiry
of every stored entry as they were. -/
theorem entry_save_frame {s : Store} (hwf : s.WellFormed)
    {e e1 : JournalEntry} (he : e ∈ s.entries) (hid : e1._id = e._id)
    (hexp : e1.expiresAt = e.expiresAt) :
    (s.putEntry e1).entries.map (fun x => (x._id, x.expiresAt)) =
      s.entries.map (fun x => (x._id, x.expiresAt)) := by
  simp only [Store.putEntry, List.map_map]
  apply List.map_congr_left
  intro x hx
  by_cases hxi : x._id = e1._id
  · have : x = e := entry_eq_of_id_eq hwf.2.2.1 hx he (hxi.trans hid)
    subst this
    simp [hxi, hexp]
  · simp [hxi]

/-- C8: the expiry hook leaves a document that is not new as it is, and none of the
privacy-settings update, consent recording, entry update or entry anonymization
changes the `expiresAt` of a stored entry. -/
theorem expiry_never_recomputed (env : Env) (s : Store) (hwf : s.WellFormed) :
    (∀ e, JournalEntry.preSave env s false e = e) ∧
    (∀ b reqUser, (privacyHandler b env s reqUser).2.entries = s.entries) ∧
    (∀ b req, (consentHandler b env s req).2.entries = s.entries) ∧
    (∀ id b reqUser,
      (updateEntryHandler id b env s reqUser).2.entries.map (fun x => (x._id, x.expiresAt)) =
        s.entries.map (fun x => (x._id, x.expiresAt))) ∧
    (∀ e ∈ s.entries, ∀ r, JournalEntry.anonymize env s false e = some r →
      r.1.expiresAt = e.expiresAt ∧
      r.2.entries.map (fun x => (x._id, x.expiresAt)) =
        s.entries.map (fun x => (x._id, x.expiresAt))) := by
  refine ⟨fun e => by simp [JournalEntry.preSave], ?_, ?_, ?_, ?_⟩
  · intro b reqUser
    unfold privacyHandler
    split
    · rfl
    · split
      · rfl
      · split
        · rfl
        · split
          · next u1 s1 heq => exact (user_save_some heq).1
          · rfl
  · intro b req
    unfold consentHandler
    split
    · rfl
    · split
      · split
        · rfl
        · split
          · rfl
          · split
            · split
              · next u1 s1 heq => exact (user_save_some heq).1
              · rfl
            · split
              · next u1 s1 heq => exact (user_save_some heq).1
              · rfl
      · rfl
  · intro id b reqUser
    unfold updateEntryHandler
    split
    · rfl
    · split
      · rfl
      · split
        · rfl
        · next entry hfind =>
          obtain ⟨hmem, -, -⟩ := entry_findOne_mem hfind
          split
          · next saved s1 heq =>
            obtain ⟨-, hput, -⟩ := entry_save_some heq
            rw [(hput rfl).2]
            exact entry_save_frame hwf hmem rfl rfl
          · rfl
  · intro e he r hr
    unfold JournalEntry.anonymize at hr
    rw [entry_save_existing] at hr
    split at hr
    · cases hr
    · cases hr
      exact ⟨rfl, entry_save_frame hwf he rfl rfl⟩

/-- C8 at a concrete store: the stored entry keeps its expiry when its owner moves
the retention period to 90 days and when the entry is edited. -/
theorem expiry_never_recomputed_witness :
    (privacyHandler [("dataRetention", .num 90)] marchEnv entryStore thirtyDayUser).2.entries =
      entryStore.entries ∧
    (updateEntryHandler (some 1) plainJournalBody marchEnv entryStore
        thirtyDayUser).2.entries.map (fun x => (x._id, x.expiresAt)) =
      entryStore.entries.map (fun x => (x._id, x.expiresAt)) :=
  ⟨(expiry_never_recomputed marchEnv entryStore (by decide)).2.1
      [("dataRetention", .num 90)] thirtyDayUser,
   (expiry_never_recomputed marchEnv entryStore (by decide)).2.2.2.1
      (some 1) plainJournalBody thirtyDayUser⟩

/-- C9: when the owner lookup of the expiry hook raises or finds no user, a valid
create request still stores the entry, without `expiresAt`, and is answered with the
success payload (given that the write itself does not raise and that the real-time
event, if one is due, does not raise). -/
theorem create_survives_lookup_failure (b : JournalBody) (env : Env) (s : Store)
    (reqUser : User) (hvalid : createErrors b = [])
    (hfail : env.userLookupRaises = true ∨ User.findById s reqUser._id = none)
    (hstored : ∀ e, e.userId = reqUser._id → env.rejectsEntry e = false)
    (hrelay : env.relayRaises = false ∨
      (b.privacy.bind (fun x => x.anonymousSharing)).getD false = false) :
    ∃ e, createEntryHandler b env s reqUser = (.ok e, s.addEntry e) ∧
      (s.addEntry e).entries = s.entries ++ [e] ∧
      e.expiresAt = none ∧ e.userId = reqUser._id ∧ some e.entry.content = b.content ∧
      e.createdAt = env.now := by
  obtain ⟨content, mood, scale, hc, hm, hs⟩ := createErrors_nil hvalid
  have huid : (newEntry reqUser content mood scale b).userId = reqUser._id := rfl
  have hpre : JournalEntry.preSave env s true
      { newEntry reqUser content mood scale b with _id := s.nextId, createdAt := env.now } =
      { newEntry reqUser content mood scale b with _id := s.nextId, createdAt := env.now } := by
    rcases hfail with h | h
    · simp [JournalEntry.preSave, h]
    · simp only [JournalEntry.preSave, if_true, huid, h]
      split <;> rfl
  refine ⟨{ newEntry reqUser content mood scale b with _id := s.nextId, createdAt := env.now },
    ?_, rfl, rfl, rfl, ?_, rfl⟩
  · have hshare2 : (newEntry reqUser content mood scale b).privacy.anonymousSharing =
        (b.privacy.bind (fun x => x.anonymousSharing)).getD false := rfl
    unfold createEntryHandler
    simp only [hvalid, ne_eq, not_true_eq_false, if_false, hc, hm, hs, JournalEntry.save,
      if_true, hpre]
    rw [hstored _ rfl]
    rcases hrelay with h | h
    · simp [h]
    · simp [hshare2, h]
  · rw [hc]; rfl

/-- C9 at a concrete input: the owner lookup raises. -/
theorem create_survives_lookup_failure_witness :
    ∃ e, createEntryHandler plainJournalBody lookupFailsEnv thirtyDayStore thirtyDayUser =
        (.ok e, thirtyDayStore.addEntry e) ∧
      e.expiresAt = none := by
  obtain ⟨e, h1, -, h2, -⟩ :=
    create_survives_lookup_failure plainJournalBody lookupFailsEnv thirtyDayStore thirtyDayUser
      (by decide) (Or.inl rfl) (fun _ _ => rfl) (Or.inl rfl)
  exact ⟨e, h1, h2⟩

/-- C10: `anonymize` on a stored entry saves a document whose content is the
placeholder, whose `isPrivate` is true and `shareWithCounselor` false, with `userId`,
mood, context, prompts, analytics and `expiresAt` (and the id, `createdAt` and
`anonymousSharing`) as before; unless the save raises, that document is the result
and replaces the stored entry with its id, users being untouched. -/
theorem anonymize_entry (env : Env) (s : Store) (e : JournalEntry) :
    e.scrubbed.entry.content = "[Content removed for privacy]" ∧
    e.scrubbed.privacy.isPrivate = true ∧
    e.scrubbed.privacy.shareWithCounselor = false ∧
    e.scrubbed.userId = e.userId ∧
    e.scrubbed.entry.mood = e.entry.mood ∧
    e.scrubbed.entry.context = e.entry.context ∧
    e.scrubbed.entry.prompts = e.entry.prompts ∧
    e.scrubbed.analytics = e.analytics ∧
    e.scrubbed.expiresAt = e.expiresAt ∧
    e.scrubbed._id = e._id ∧
    e.scrubbed.createdAt = e.createdAt ∧
    e.scrubbed.privacy.anonymousSharing = e.privacy.anonymousSharing ∧
    (env.rejectsEntry e.scrubbed = false →
      JournalEntry.anonymize env s false e = some (e.scrubbed, s.putEntry e.scrubbed)) ∧
    (env.rejectsEntry e.scrubbed = true → JournalEntry.anonymize env s false e = none) ∧
    (s.putEntry e.scrubbed).entries =
      s.entries.map (fun x => if x._id = e._id then e.scrubbed else x) ∧
    (s.putEntry e.scrubbed).users = s.users := by
  refine ⟨rfl, rfl, rfl, rfl, rfl, rfl, rfl, rfl, rfl, rfl, rfl, rfl, ?_, ?_, rfl, rfl⟩
  · intro h
    simp [JournalEntry.anonymize, entry_save_existing, h]
  · intro h
    simp [JournalEntry.anonymize, entry_save_existing, h]

/-! ### C4: who writes `consentDate` -/

theorem usersKeyed_of_wellFormed {s : Store} (h : s.WellFormed) : s.UsersKeyed :=
  ⟨h.1, h.2.2.2.1⟩

theorem user_save_keys {s : Store} (hk : s.UsersKeyed) {user u1 : User} (hu : user ∈ s.users)
    (hid : u1._id = user._id) (hcd : u1.consentDate = user.consentDate) :
    (s.putUser u1).users.map userKey = s.users.map userKey := by
  simp only [Store.putUser, List.map_map]
  apply List.map_congr_left
  intro x hx
  by_cases hxi : x._id = u1._id
  · have : x = user := user_eq_of_id_eq hk.1 hx hu (hxi.trans hid)
    subst this
    simp [userKey, hxi, hcd]
  · simp [hxi]

theorem map_id_of_keys {l l' : List User} (h : l'.map userKey = l.map userKey) :
    l'.map (fun u => u._id) = l.map (fun u => u._id) := by
  have := congrArg (List.map Prod.fst) h
  simpa [List.map_map, userKey, Function.comp] using this

theorem addUser_keys {s : Store} (hk : s.UsersKeyed) {u : User} (hid : u._id = s.nextId) :
    (s.users.map userKey) <+: ((s.addUser u).users.map userKey) ∧ (s.addUser u).UsersKeyed := by
  simp only [Store.addUser]
  refine ⟨by simp, ?_, ?_⟩
  · simp only [List.map_append, List.map_cons, List.map_nil]
    rw [List.nodup_append]
    refine ⟨hk.1, by simp, ?_⟩
    intro a ha hb
    simp only [List.mem_singleton] at hb
    obtain ⟨x, hx, rfl⟩ := List.mem_map.mp ha
    have := hk.2 x hx
    omega
  · intro x hx
    simp only [List.mem_append, List.mem_singleton] at hx
    rcases hx with hx | hx
    · have := hk.2 x hx
      simp only
      omega
    · subst hx
      simp only
      omega

theorem putUser_keyed {s : Store} (hk : s.UsersKeyed) {u1 : User}
    (hkeys : (s.putUser u1).users.map userKey = s.users.map userKey) :
    (s.putUser u1).UsersKeyed := by
  refine ⟨?_, ?_⟩
  · rw [map_id_of_keys hkeys]; exact hk.1
  · intro u hu
    have hmemid : u._id ∈ (s.putUser u1).users.map (fun u => u._id) :=
      List.mem_map.mpr ⟨u, hu, rfl⟩
    rw [map_id_of_keys hkeys] at hmemid
    obtain ⟨u0, hu0, h0⟩ := List.mem_map.mp hmemid
    have := hk.2 u0 hu0
    have hn : (s.putUser u1).nextId = s.nextId := rfl
    rw [hn, ← h0]
    exact this

theorem auth_keys (env : Env) (s : Store) (token : Except String Claims) (hk : s.UsersKeyed) :
    (s.users.map userKey) <+: ((auth env s token).2.users.map userKey) ∧
    (auth env s token).2.UsersKeyed := by
  unfold auth
  cases token with
  | error e => exact ⟨List.prefix_refl _, hk⟩
  | ok claims =>
    simp only
    cases hfo : User.findOne s claims.sub with
    | none =>
      simp only
      split
      · next user s1 heq =>
        obtain ⟨-, -, hnew⟩ := user_save_some heq
        obtain ⟨hu, hs1⟩ := hnew rfl
        rw [hs1]
        exact addUser_keys hk (by rw [hu])
      · exact ⟨List.prefix_refl _, hk⟩
    | some user =>
      obtain ⟨hmem, -⟩ := user_findOne_mem hfo
      simp only [User.updateLastActive]
      split
      · next user1 s1 heq =>
        obtain ⟨-, hput, -⟩ := user_save_some heq
        obtain ⟨-, hs1⟩ := hput rfl
        have hkeys : (s.putUser { user with lastActive := env.now }).users.map userKey =
            s.users.map userKey := user_save_keys hk hmem rfl rfl
        rw [hs1]
        exact ⟨by rw [hkeys], putUser_keyed hk hkeys⟩
      · exact ⟨List.prefix_refl _, hk⟩

theorem runChain_keys (env : Env) :
    ∀ (chain : List Middleware) (s : Store) (req : Request), s.UsersKeyed →
      (s.users.map userKey) <+: ((runChain env chain s req).2.users.map userKey) ∧
      (runChain env chain s req).2.UsersKeyed := by
  intro chain
  induction chain with
  | nil => intro s req hk; exact ⟨List.prefix_refl _, hk⟩
  | cons m rest ih =>
    intro s req hk
    cases m with
    | auth =>
      obtain ⟨hp, hk1⟩ := auth_keys env s req.token hk
      simp only [runChain]
      cases hauth : auth env s req.token with
      | mk res s1 =>
        rw [hauth] at hp hk1
        cases res with
        | error r => exact ⟨hp, hk1⟩
        | ok u =>
          simp only
          obtain ⟨hp2, hk2⟩ := ih s1 { req with user := some (.doc u) } hk1
          exact ⟨hp.trans hp2, hk2⟩
    | requireConsent =>
      simp only [runChain]
      cases requireConsent env.now req.doc? with
      | respond r => exact ⟨List.prefix_refl _, hk⟩
      | next => exact ih s req hk

theorem saved_keys {env : Env} {s s1 : Store} (hk : s.UsersKeyed) {user u1 u2 : User}
    (hu : user ∈ s.users) (h : User.save env s false u1 = some (u2, s1))
    (hid : u1._id = user._id) (hcd : u1.consentDate = user.consentDate) :
    s1.users.map userKey = s.users.map userKey := by
  obtain ⟨-, hput, -⟩ := user_save_some h
  rw [(hput rfl).2]
  exact user_save_keys hk hu hid hcd

theorem privacyHandler_keys (b : Body) (env : Env) (s : Store) (u : User) (hk : s.UsersKeyed) :
    (privacyHandler b env s u).2.users.map userKey = s.users.map userKey := by
  unfold privacyHandler
  split
  · rfl
  · split
    · rfl
    · next user hfind =>
      split
      · rfl
      · split
        · next u2 s1 heq => exact saved_keys hk (user_findById_mem hfind).1 heq rfl rfl
        · rfl

theorem preferencesHandler_keys (b : Body) (env : Env) (s : Store) (u : User)
    (hk : s.UsersKeyed) :
    (preferencesHandler b env s u).2.users.map userKey = s.users.map userKey := by
  unfold preferencesHandler
  split
  · rfl
  · split
    · rfl
    · next user hfind =>
      split
      · rfl
      · split
        · next u2 s1 heq => exact saved_keys hk (user_findById_mem hfind).1 heq rfl rfl
        · rfl

theorem profileHandler_keys (b : ProfileBody) (env : Env) (s : Store) (u : User)
    (hk : s.UsersKeyed) :
    (profileHandler b env s u).2.users.map userKey = s.users.map userKey := by
  unfold profileHandler
  split
  · rfl
  · split
    · rfl
    · next user hfind =>
      simp only
      split
      · split
        · next u2 s1 heq => exact saved_keys hk (user_findById_mem hfind).1 heq rfl rfl
        · rfl
      · rfl

theorem accountDeleteHandler_keys (env : Env) (s : Store) (u : User) (hk : s.UsersKeyed) :
    (accountDeleteHandler env s u).2.users.map userKey = s.users.map userKey := by
  unfold accountDeleteHandler
  split
  · rfl
  · next user hfind =>
    simp only [User.anonymizeData]
    split
    · next u2 s1 heq => exact saved_keys hk (user_findById_mem hfind).1 heq rfl rfl
    · rfl

theorem createEntryHandler_users (b : JournalBody) (env : Env) (s : Store) (u : User) :
    (createEntryHandler b env s u).2.users = s.users := by
  unfold createEntryHandler
  split
  · rfl
  · split
    · split
      · split
        · next e1 s1 heq =>
          have := (entry_save_some heq).1
          split <;> exact this
        · rfl
      · rfl
    · rfl

theorem updateEntryHandler_users (id : Option Nat) (b : JournalBody) (env : Env)
    (s : Store) (u : User) : (updateEntryHandler id b env s u).2.users = s.users := by
  unfold updateEntryHandler
  split
  · rfl
  · split
    · rfl
    · split
      · rfl
      · split
        · next e1 s1 heq => exact (entry_save_some heq).1
        · rfl

theorem deleteEntryHandler_users (id : Option Nat) (env : Env) (s : Store) (u : User) :
    (deleteEntryHandler id env s u).2.users = s.users := by
  unfold deleteEntryHandler
  split
  · rfl
  · split <;> rfl

theorem onDoc_keys {α : Type} (failure : String) (missing : Reply)
    (h : Env → Store → User → Except Reply α × Store)
    (hh : ∀ env s u, s.UsersKeyed → (h env s u).2.users.map userKey = s.users.map userKey)
    (env : Env) (s : Store) (req : Request) (hk : s.UsersKeyed) :
    ((onDoc failure missing h).effect env s req).2.users.map userKey =
      s.users.map userKey := by
  simp only [Handler.effect, onDoc]
  split
  · exact hh _ _ _ hk
  · rfl
  · rfl

theorem handler_keys (c : Call) (hroute : c.route ≠ Route.authConsent) (env : Env) (s : Store)
    (req : Request) (hk : s.UsersKeyed) :
    (c.handler env s req).2.users.map userKey = s.users.map userKey := by
  obtain ⟨route, req0, body, profile, journal, entryId⟩ := c
  simp only at hroute
  cases route <;> simp only [Call.handler] <;>
    first
    | exact absurd rfl hroute
    | rfl
    | exact onDoc_keys _ _ _ (profileHandler_keys _) env s req hk
    | exact onDoc_keys _ _ _ accountDeleteHandler_keys env s req hk
    | exact onDoc_keys _ _ _ (preferencesHandler_keys _) env s req hk
    | exact onDoc_keys _ _ _ (privacyHandler_keys _) env s req hk
    | exact onDoc_keys _ _ _
        (fun env s u _ => by rw [createEntryHandler_users]) env s req hk
    | exact onDoc_keys _ _ _
        (fun env s u _ => by rw [updateEntryHandler_users]) env s req hk
    | exact onDoc_keys _ _ _
        (fun env s u _ => by rw [deleteEntryHandler_users]) env s req hk

theorem step_keys (env : Env) (s : Store) (c : Call) (hk : s.UsersKeyed)
    (hroute : c.route ≠ Route.authConsent) :
    (s.users.map userKey) <+: ((step env s c).users.map userKey) ∧
    ((step env s c).users.map (fun u => u._id)).Nodup := by
  obtain ⟨hp, hk1⟩ := runChain_keys env c.route.chain s c.req hk
  unfold step serve
  cases hrun : runChain env c.route.chain s c.req with
  | mk res s1 =>
    rw [hrun] at hp hk1
    cases res with
    | error r => exact ⟨hp, hk1.1⟩
    | ok req1 =>
      simp only
      have hkeys := handler_keys c hroute env s1 req1 hk1
      refine ⟨by rw [hkeys]; exact hp, ?_⟩
      rw [map_id_of_keys hkeys]
      exact hk1.1

theorem requireConsent_stays_denied (now later : Int) (u u1 : User) (hle : now ≤ later)
    (hcd : u1.consentDate = u.consentDate) (hden : requireConsent now (some u) ≠ .next) :
    requireConsent later (some u1) ≠ .next := by
  simp only [requireConsent] at *
  rw [hcd]
  cases hd : u.consentDate with
  | none => simp
  | some d =>
    simp only [hd] at hden
    by_cases h : now - d > maxConsentAge
    · have : later - d > maxConsentAge := by omega
      simp [this]
    · simp [h] at hden

/-- C4, as stated, fails: the first authenticated request of an identity that has no
user record (here a journal list, not a consent recording) creates the user with
`consentDate = now`; the gate, which denies a request without a user, then lets that
user through although no consent was recorded. -/
theorem first_authentication_grants_consent :
    listCall.route ≠ Route.authConsent ∧
    User.findOne emptyStore "auth0|a" = none ∧
    requireConsent utcEnv.now (User.findOne emptyStore "auth0|a") ≠ .next ∧
    ((step utcEnv emptyStore listCall).users.map (fun u => (u.auth0Id, u.consentDate))) =
      [("auth0|a", some 1000)] ∧
    requireConsent utcEnv.now (User.findOne (step utcEnv emptyStore listCall) "auth0|a") =
      .next := by
  decide

/-- C4 (amended): no call other than consent recording changes the `consentDate` of
a user that is already stored (nor removes the user), so none takes a stored user
from denied to authorized: a stored user the gate denies now is still denied after
the call, at any later clock reading. Entry anonymization does not touch users. (A
user that `auth` creates for a new identity is stamped with `consentDate = now`.) -/
theorem only_consent_recording_resets_consent (env : Env) (s : Store) (c : Call)
    (hwf : s.WellFormed) (hroute : c.route ≠ Route.authConsent) :
    (∀ u ∈ s.users, ∃ u1 ∈ (step env s c).users,
      u1._id = u._id ∧ u1.consentDate = u.consentDate) ∧
    (∀ u ∈ s.users, ∀ u1 ∈ (step env s c).users, u1._id = u._id →
      u1.consentDate = u.consentDate ∧
      ∀ later, env.now ≤ later → requireConsent env.now (some u) ≠ .next →
        requireConsent later (some u1) ≠ .next) ∧
    (∀ isNew e r, JournalEntry.anonymize env s isNew e = some r → r.2.users = s.users) := by
  obtain ⟨hp, hnd⟩ := step_keys env s c (usersKeyed_of_wellFormed hwf) hroute
  have hex : ∀ u ∈ s.users, ∃ u1 ∈ (step env s c).users,
      u1._id = u._id ∧ u1.consentDate = u.consentDate := by
    intro u hu
    have hmem : userKey u ∈ (step env s c).users.map userKey :=
      hp.subset (List.mem_map.mpr ⟨u, hu, rfl⟩)
    obtain ⟨u1, hu1, hkey⟩ := List.mem_map.mp hmem
    simp only [userKey, Prod.mk.injEq] at hkey
    exact ⟨u1, hu1, hkey.1, hkey.2⟩
  refine ⟨hex, ?_, ?_⟩
  · intro u hu u1 hu1 hid
    obtain ⟨u2, hu2, hid2, hcd2⟩ := hex u hu
    have : u1 = u2 := user_eq_of_id_eq hnd hu1 hu2 (hid.trans hid2.symm)
    subst this
    exact ⟨hcd2, fun later hle hden =>
      requireConsent_stays_denied env.now later u u1 hle hcd2 hden⟩
  · intro isNew e r hr
    obtain ⟨e1, s1⟩ := r
    exact (entry_save_some hr).1

/-- C4 at a concrete store: the stale user of `staleStore` stays denied across a
privacy-settings call. -/
theorem only_consent_recording_resets_consent_witness :
    ∃ u1 ∈ (step utcEnv staleStore { listCall with route := Route.userPrivacyPut }).users,
      u1._id = staleUser._id ∧ u1.consentDate = staleUser.consentDate :=
  (only_consent_recording_resets_consent utcEnv staleStore
    { listCall with route := Route.userPrivacyPut }
    (by decide) (by decide)).1 staleUser (by decide)

/-! ### Anonymization of entries and accounts -/

/-- Writing the same document twice is writing it once. -/
theorem putEntry_putEntry (s : Store) (d : JournalEntry) :
    (s.putEntry d).putEntry d = s.putEntry d := by
  simp only [Store.putEntry, List.map_map]
  congr 1
  apply List.map_congr_left
  intro x _
  simp only [Function.comp]
  by_cases hx : x._id = d._id
  · simp [hx]
  · simp [hx]

/-- The assignments of `anonymize` change nothing on a document they were applied to. -/
theorem scrubbed_scrubbed (e : JournalEntry) : e.scrubbed.scrubbed = e.scrubbed := rfl

/-- C11. Entry anonymization is idempotent. When `anonymize` on a stored entry `e`
succeeds with document `d` and store `s1`, then `d` is `e` after the three
assignments, and a second `anonymize` on `d` (at any later clock reading, the write
being accepted) returns the same document and leaves the store exactly as the first
call left it. -/
theorem anonymize_idempotent (env later : Env) (s s1 : Store) (e d : JournalEntry)
    (hfirst : JournalEntry.anonymize env s false e = some (d, s1))
    (haccept : later.rejectsEntry d = false) :
    d = e.scrubbed ∧ d.scrubbed = d ∧
    JournalEntry.anonymize later s1 false d = some (d, s1) := by
  obtain ⟨-, hput, -⟩ := entry_save_some hfirst
  obtain ⟨hd, hs⟩ := hput rfl
  subst hd hs
  refine ⟨rfl, rfl, ?_⟩
  unfold JournalEntry.anonymize
  rw [scrubbed_scrubbed, entry_save_existing, putEntry_putEntry]
  simp [haccept]

/-- C11 on the stored entry of `entryStore`: the second anonymization changes
nothing. -/
theorem anonymize_idempotent_witness :
    JournalEntry.anonymize marchEnv entryStore false storedEntry
        = some (storedEntry.scrubbed, entryStore.putEntry storedEntry.scrubbed) ∧
      JournalEntry.anonymize marchEnv (entryStore.putEntry storedEntry.scrubbed) false
        storedEntry.scrubbed
        = some (storedEntry.scrubbed, entryStore.putEntry storedEntry.scrubbed) :=
  ⟨by decide,
   (anonymize_idempotent marchEnv marchEnv entryStore
      (entryStore.putEntry storedEntry.scrubbed) storedEntry storedEntry.scrubbed
      (by decide) (by decide)).2.2⟩

/-- C13. Account anonymization. When account deletion finds the caller's document
`user` and the write is accepted, it answers success and stores, in place of `user`,
a document with the hashed sentinel email, the display name "Anonymous User" and
status `deleted`, whose privacy settings, preferences, consent version and consent
date are those of `user`; the journal entries of the store (content, privacy flags,
expiry and everything else) are left exactly as they were. The same holds of
`anonymizeData` itself. -/
theorem account_anonymization_frame (env : Env) (s : Store) (reqUser user : User)
    (hfind : User.findById s reqUser._id = some user)
    (haccept : env.rejectsUser
      { user with email := env.hashEmail "anonymized@privacy.local",
                  displayName := "Anonymous User",
                  accountStatus := AccountStatus.deleted } = false) :
    ∃ u1 s1,
      User.anonymizeData env s user = some (u1, s1) ∧
      accountDeleteHandler env s reqUser = (.ok (), s1) ∧
      User.findById s1 reqUser._id = some u1 ∧
      u1.email = env.hashEmail "anonymized@privacy.local" ∧
      u1.displayName = "Anonymous User" ∧
      u1.accountStatus = AccountStatus.deleted ∧
      u1.privacySettings = user.privacySettings ∧
      u1.preferences = user.preferences ∧
      u1.consentVersion = user.consentVersion ∧
      u1.consentDate = user.consentDate ∧
      u1._id = user._id ∧ u1.auth0Id = user.auth0Id ∧
      s1.entries = s.entries := by
  refine ⟨{ user with email := env.hashEmail "anonymized@privacy.local",
                      displayName := "Anonymous User",
                      accountStatus := AccountStatus.deleted },
    s.putUser { user with email := env.hashEmail "anonymized@privacy.local",
                          displayName := "Anonymous User",
                          accountStatus := AccountStatus.deleted }, ?_⟩
  have hanon : User.anonymizeData env s user = some
      ({ user with email := env.hashEmail "anonymized@privacy.local",
                   displayName := "Anonymous User",
                   accountStatus := AccountStatus.deleted },
       s.putUser { user with email := env.hashEmail "anonymized@privacy.local",
                             displayName := "Anonymous User",
                             accountStatus := AccountStatus.deleted }) := by
    unfold User.anonymizeData
    rw [user_save_existing, haccept]
    simp
  refine ⟨hanon, ?_, user_findById_save hfind rfl, rfl, rfl, rfl, rfl, rfl, rfl, rfl, rfl,
    rfl, rfl⟩
  unfold accountDeleteHandler
  rw [hfind]
  simp only [hanon]

/-- C13 on the store `entryStore`: deleting the account of its user leaves the stored
entry as it was and the retention setting at 30. -/
theorem account_anonymization_frame_witness :
    ∃ u1 s1,
      User.anonymizeData marchEnv entryStore thirtyDayUser = some (u1, s1) ∧
      accountDeleteHandler marchEnv entryStore thirtyDayUser = (.ok (), s1) ∧
      User.findById s1 thirtyDayUser._id = some u1 ∧
      u1.email = marchEnv.hashEmail "anonymized@privacy.local" ∧
      u1.displayName = "Anonymous User" ∧
      u1.accountStatus = AccountStatus.deleted ∧
      u1.privacySettings = thirtyDayUser.privacySettings ∧
      u1.preferences = thirtyDayUser.preferences ∧
      u1.consentVersion = thirtyDayUser.consentVersion ∧
      u1.consentDate = thirtyDayUser.consentDate ∧
      u1._id = thirtyDayUser._id ∧ u1.auth0Id = thirtyDayUser.auth0Id ∧
      s1.entries = entryStore.entries :=
  account_anonymization_frame marchEnv entryStore thirtyDayUser thirtyDayUser
    (by decide) (by decide)

/-- C12 (as stated, refuted): the stored entry `storedEntry` shares anonymously
(`anonymousSharing` is true); after `anonymize` it still does, the filter of the
cohort aggregation still selects it, and the cohort statistics count it. -/
theorem anonymized_entry_stays_in_cohort :
    JournalEntry.anonymize marchEnv entryStore false storedEntry
        = some (storedEntry.scrubbed, entryStore.putEntry storedEntry.scrubbed) ∧
      storedEntry.scrubbed.privacy.shareWithCounselor = false ∧
      storedEntry.scrubbed.privacy.anonymousSharing = true ∧
      storedEntry.scrubbed ∈
        matchCohort (entryStore.putEntry storedEntry.scrubbed) (startDate marchEnv 30) ∧
      (JournalEntry.getAnonymizedStats marchEnv (entryStore.putEntry storedEntry.scrubbed)
        30).map (fun c => c.totalEntries) = [1] := by
  refine ⟨by decide, by decide, by decide, by decide, by with_unfolding_all rfl⟩

/-- C12 (amended): an entry anonymized in place has its content replaced, `isPrivate`
forced true and `shareWithCounselor` forced false, while `anonymousSharing` keeps its
value; so the cohort filter selects the anonymized entry exactly when it selected the
entry before, and an entry of the store that shared anonymously inside the window is
still drawn into the cohort aggregation after its anonymization. -/
theorem anonymize_keeps_anonymous_sharing (env : Env) (s s1 : Store) (e d : JournalEntry)
    (hanon : JournalEntry.anonymize env s false e = some (d, s1)) :
    d.entry.content = "[Content removed for privacy]" ∧
    d.privacy.isPrivate = true ∧
    d.privacy.shareWithCounselor = false ∧
    d.privacy.anonymousSharing = e.privacy.anonymousSharing ∧
    (∀ start, cohortMatches start d = cohortMatches start e) ∧
    (∀ start, (∃ x ∈ s.entries, x._id = e._id) → cohortMatches start e = true →
      d ∈ matchCohort s1 start) := by
  obtain ⟨-, hput, -⟩ := entry_save_some hanon
  obtain ⟨hd, hs⟩ := hput rfl
  subst hd hs
  refine ⟨rfl, rfl, rfl, rfl, fun _ => rfl, ?_⟩
  intro start ⟨x, hx, hid⟩ hm
  unfold matchCohort
  rw [List.mem_filter]
  refine ⟨?_, hm⟩
  simp only [Store.putEntry, List.mem_map]
  exact ⟨x, hx, by simp [hid, JournalEntry.scrubbed]⟩

/-- C12 (amended) on `storedEntry`: anonymized, it is still selected by the cohort
filter of a 30-day window. -/
theorem anonymize_keeps_anonymous_sharing_witness :
    storedEntry.scrubbed.privacy.anonymousSharing = storedEntry.privacy.anonymousSharing ∧
      storedEntry.scrubbed ∈
        matchCohort (entryStore.putEntry storedEntry.scrubbed) (startDate marchEnv 30) :=
  have h := anonymize_keeps_anonymous_sharing marchEnv entryStore
    (entryStore.putEntry storedEntry.scrubbed) storedEntry storedEntry.scrubbed (by decide)
  ⟨h.2.2.2.1, h.2.2.2.2.2 (startDate marchEnv 30) ⟨storedEntry, by decide, rfl⟩ (by decide)⟩

/-! ### Recommendations -/

/-- The list `generateRecommendations` returns for a summary, rule by rule. -/
theorem generateRecommendations_some (a : Summary) :
    generateRecommendations (some a) =
      (if toNumber a.avgMood < 5 then [seekSupport] else [])
      ++ (if toNumber a.avgMood > 7 then [maintainHabits] else [])
      ++ (if toNumber a.avgStress > 7 then [stressManagement] else [])
      ++ (if a.totalEntries < 7 then [increaseFrequency] else []) := by
  unfold generateRecommendations
  by_cases h5 : toNumber a.avgMood < 5
  · have h7 : ¬ toNumber a.avgMood > 7 := by intro h; linarith
    simp [h5, h7]
  · simp [h5]

/-- Membership of the engagement item in the recommendations of a summary. -/
theorem increaseFrequency_mem (a : Summary) :
    increaseFrequency ∈ generateRecommendations (some a) ↔ a.totalEntries < 7 := by
  rw [generateRecommendations_some]
  have h1 : increaseFrequency ≠ seekSupport := by decide
  have h2 : increaseFrequency ≠ maintainHabits := by decide
  have h3 : increaseFrequency ≠ stressManagement := by decide
  simp only [List.mem_append]
  constructor
  · rintro (((h | h) | h) | h)
    · split at h <;> simp_all
    · split at h <;> simp_all
    · split at h <;> simp_all
    · split at h <;> simp_all
  · intro h
    right
    simp [h]

/-- C14. For a summary with mean mood `m`, mean stress `st` and `n` entries,
`generateRecommendations` returns exactly the applicable items in the order mood,
stress, engagement: the high-priority mood item iff `m < 5`, the low-priority mood
item iff `m > 7`, the high-priority stress item iff `st > 7`, the medium-priority
engagement item iff `n < 7`; for `m = 4`, `st = 8`, `n = 10` the result is the
high-priority mood item followed by the high-priority stress item. -/
theorem recommendations_by_rule (a : Summary) (m st : ℚ)
    (hm : a.avgMood = some m) (hs : a.avgStress = some st) :
    generateRecommendations (some a) =
      (if m < 5 then [seekSupport] else [])
      ++ (if m > 7 then [maintainHabits] else [])
      ++ (if st > 7 then [stressManagement] else [])
      ++ (if a.totalEntries < 7 then [increaseFrequency] else []) ∧
    (seekSupport ∈ generateRecommendations (some a) ↔ m < 5) ∧
    (maintainHabits ∈ generateRecommendations (some a) ↔ m > 7) ∧
    (stressManagement ∈ generateRecommendations (some a) ↔ st > 7) ∧
    (increaseFrequency ∈ generateRecommendations (some a) ↔ a.totalEntries < 7) ∧
    (m = 4 → st = 8 → a.totalEntries = 10 →
      generateRecommendations (some a) = [seekSupport, stressManagement]) ∧
    (seekSupport.type, seekSupport.priority) = ("mood", "high") ∧
    (maintainHabits.type, maintainHabits.priority) = ("mood", "low") ∧
    (stressManagement.type, stressManagement.priority) = ("stress", "high") ∧
    (increaseFrequency.type, increaseFrequency.priority) = ("engagement", "medium") := by
  have hlist := generateRecommendations_some a
  simp only [hm, hs, toNumber, Option.getD_some] at hlist
  have d12 : seekSupport ≠ maintainHabits := by decide
  have d13 : seekSupport ≠ stressManagement := by decide
  have d14 : seekSupport ≠ increaseFrequency := by decide
  have d23 : maintainHabits ≠ stressManagement := by decide
  have d24 : maintainHabits ≠ increaseFrequency := by decide
  have d34 : stressManagement ≠ increaseFrequency := by decide
  refine ⟨hlist, ?_, ?_, ?_, increaseFrequency_mem a, ?_, rfl, rfl, rfl, rfl⟩
  · rw [hlist]
    by_cases c1 : m < 5 <;> by_cases c2 : m > 7 <;> by_cases c3 : st > 7 <;>
      by_cases c4 : a.totalEntries < 7 <;> simp [c1, c2, c3, c4, d12, d13, d14]
  · rw [hlist]
    by_cases c1 : m < 5 <;> by_cases c2 : m > 7 <;> by_cases c3 : st > 7 <;>
      by_cases c4 : a.totalEntries < 7 <;> simp [c1, c2, c3, c4, d12.symm, d23, d24]
  · rw [hlist]
    by_cases c1 : m < 5 <;> by_cases c2 : m > 7 <;> by_cases c3 : st > 7 <;>
      by_cases c4 : a.totalEntries < 7 <;> simp [c1, c2, c3, c4, d13.symm, d23.symm, d34]
  · intro h4 h8 h10
    rw [hlist, h4, h8, h10]
    norm_num

/-- C14 on the summary with mean mood 4, mean stress 8 and 10 entries. -/
theorem recommendations_by_rule_witness :
    generateRecommendations (some lowMoodSummary) = [seekSupport, stressManagement] :=
  (recommendations_by_rule lowMoodSummary 4 8 rfl rfl).2.2.2.2.2.1 rfl rfl rfl

/-! ### Opt-in gating of the aggregations -/

/-- A request with a verified token of a stored user whose consent is at most 365
days old passes `auth` and `requireConsent` on a data-bearing route; the handler
then runs on the user document with `lastActive` refreshed. -/
theorem serve_past_gate {α : Type} (env : Env) (s : Store) (req : Request) (r : Route)
    (h : Handler α) (c : Claims) (u : User) (d : Int)
    (hr : r ∈ dataBearingRoutes) (htok : req.token = .ok c)
    (hu : User.findOne s c.sub = some u) (hd : u.consentDate = some d)
    (hfresh : env.now - d ≤ maxConsentAge)
    (hstored : env.rejectsUser { u with lastActive := env.now } = false) :
    serve env s req r h =
      h env (s.putUser { u with lastActive := env.now })
        { req with user := some (.doc { u with lastActive := env.now }) } := by
  have hchain := dataBearing_chain r hr
  have hauth : auth env s req.token =
      (.ok { u with lastActive := env.now }, s.putUser { u with lastActive := env.now }) := by
    simp [auth, htok, hu, User.updateLastActive, User.save, hstored]
  have hnot : ¬ env.now - d > maxConsentAge := by omega
  simp [serve, hchain, runChain, hauth, Request.doc?, requireConsent, hd, hnot]

/-- C16, as stated, fails for the dashboard: the user of `entryStore` has valid
consent and has not opted in, and asks for the dashboard with `timeframe=3`. The
reply is the validation error 400 naming `timeframe`, not the analytics-not-enabled
denial: the query validator is tested before the opt-in. -/
theorem dashboard_validates_before_opt_in :
    thirtyDayUser.privacySettings.analyticsOptIn = false ∧
    thirtyDayUser.schemaValid = true ∧
    requireConsent schemaEnv.now (some thirtyDayUser) = .next ∧
    (serve schemaEnv entryStore tokenRequest Route.analyticsDashboard
        (dashboardRoute (some "3"))).1 =
      .error { status := 400, message := "", requiresConsent := false,
               errors := ["timeframe"] } ∧
    (serve schemaEnv entryStore tokenRequest Route.analyticsDashboard
        (dashboardRoute (some "3"))).1 ≠
      .error (forbidden "Analytics not enabled. Please opt-in through privacy settings.") := by
  decide

/-- C16 (amended). A caller whose `analyticsOptIn` is false is answered 403 "analytics
not enabled" by the colour analytics and by the analytics export for every query,
and by the dashboard for a query that passes its validator; a `timeframe` the
validator refuses is answered 400 by the dashboard, opted in or not. The replies are
the same for every store, so no aggregation of entries enters them. Through the
middleware, for a stored user with consent at most 365 days old, these are the
replies of the three routes. -/
theorem analytics_denied_without_opt_in (timeframe : Option String) (env : Env) (s : Store)
    (reqUser : User) (hopt : reqUser.privacySettings.analyticsOptIn = false) :
    (dashboardErrors timeframe = [] →
      dashboardHandler timeframe env s reqUser =
        .error (forbidden "Analytics not enabled. Please opt-in through privacy settings.")) ∧
    (dashboardErrors timeframe ≠ [] →
      ∀ u : User, dashboardHandler timeframe env s u = .error (validationError ["timeframe"])) ∧
    moodColorsHandler timeframe env s reqUser = .error (forbidden "Analytics not enabled") ∧
    exportHandler timeframe env s reqUser = .error (forbidden "Analytics not enabled") ∧
    (∀ message, (forbidden message).status = 403) ∧
    (∀ (req : Request) (c : Claims) (d : Int),
      req.token = .ok c → User.findOne s c.sub = some reqUser →
      reqUser.consentDate = some d → env.now - d ≤ maxConsentAge →
      env.rejectsUser { reqUser with lastActive := env.now } = false →
      (dashboardErrors timeframe = [] →
        (serve env s req Route.analyticsDashboard (dashboardRoute timeframe)).1 =
          .error (forbidden "Analytics not enabled. Please opt-in through privacy settings.")) ∧
      (serve env s req Route.analyticsMoodColors (moodColorsRoute timeframe)).1 =
        .error (forbidden "Analytics not enabled") ∧
      (serve env s req Route.analyticsExport (exportRoute timeframe)).1 =
        .error (forbidden "Analytics not enabled")) := by
  have hdash : ∀ (s1 : Store) (u : User), u.privacySettings.analyticsOptIn = false →
      dashboardErrors timeframe = [] →
      dashboardHandler timeframe env s1 u =
        .error (forbidden "Analytics not enabled. Please opt-in through privacy settings.") := by
    intro s1 u ho hv
    simp [dashboardHandler, hv, ho]
  have hcol : ∀ (s1 : Store) (u : User), u.privacySettings.analyticsOptIn = false →
      moodColorsHandler timeframe env s1 u = .error (forbidden "Analytics not enabled") := by
    intro s1 u ho
    simp [moodColorsHandler, ho]
  have hexp : ∀ (s1 : Store) (u : User), u.privacySettings.analyticsOptIn = false →
      exportHandler timeframe env s1 u = .error (forbidden "Analytics not enabled") := by
    intro s1 u ho
    simp [exportHandler, ho]
  have hbad : dashboardErrors timeframe ≠ [] →
      ∀ u : User, dashboardHandler timeframe env s u
        = .error (validationError ["timeframe"]) := by
    intro hne u
    have herr : dashboardErrors timeframe = ["timeframe"] := by
      unfold dashboardErrors at hne ⊢
      split
      · split
        · next h1 => simp [h1] at hne
        · rfl
      · simp at hne
    simp [dashboardHandler, herr]
  refine ⟨hdash s reqUser hopt, hbad, hcol s reqUser hopt, hexp s reqUser hopt,
    fun _ => rfl, ?_⟩
  intro req c d htok hu hd hfresh hstored
  have ho : ({ reqUser with lastActive := env.now } : User).privacySettings.analyticsOptIn
      = false := hopt
  refine ⟨fun hv => ?_, ?_, ?_⟩
  · rw [serve_past_gate env s req _ _ c reqUser d (by decide) htok hu hd hfresh hstored]
    simp only [dashboardRoute, readDoc]
    rw [hdash _ _ ho hv]
  · rw [serve_past_gate env s req _ _ c reqUser d (by decide) htok hu hd hfresh hstored]
    simp only [moodColorsRoute, readDoc]
    rw [hcol _ _ ho]
  · rw [serve_past_gate env s req _ _ c reqUser d (by decide) htok hu hd hfresh hstored]
    simp only [exportRoute, readDoc]
    rw [hexp _ _ ho]

/-- C16 on `entryStore`, whose user has consented and not opted in: the three routes
deny, although the user has an entry. -/
theorem analytics_denied_without_opt_in_witness :
    (serve marchEnv entryStore tokenRequest Route.analyticsDashboard (dashboardRoute none)).1 =
        .error (forbidden "Analytics not enabled. Please opt-in through privacy settings.") ∧
      (serve marchEnv entryStore tokenRequest Route.analyticsMoodColors
          (moodColorsRoute none)).1 = .error (forbidden "Analytics not enabled") ∧
      (serve marchEnv entryStore tokenRequest Route.analyticsExport (exportRoute none)).1 =
        .error (forbidden "Analytics not enabled") :=
  have h := (analytics_denied_without_opt_in none marchEnv entryStore thirtyDayUser
    rfl).2.2.2.2.2 tokenRequest claimsA 1709985600000 rfl (by decide) rfl (by decide) rfl
  ⟨h.1 rfl, h.2.1, h.2.2⟩

/-- The reply of the mood statistics, in terms of the matched documents: with or
without a match, the count is their number, the means are `$avg` over them and the
trend has one point for each. -/
theorem moodStatsHandler_eq (days : Option String) (env : Env) (s : Store) (reqUser : User) :
    moodStatsHandler days env s reqUser =
      .ok { stats :=
              { avgMood :=
                  avg (moodScales (matchOwn s reqUser._id (startDate env (timeframeOr days 30))))
                avgStress :=
                  avg (stressLevels (matchOwn s reqUser._id (startDate env (timeframeOr days 30))))
                totalEntries :=
                  (matchOwn s reqUser._id (startDate env (timeframeOr days 30))).length
                moodTrend :=
                  (matchOwn s reqUser._id (startDate env (timeframeOr days 30))).map trendPoint }
            timeframe := timeframeOr days 30 } := by
  unfold moodStatsHandler moodStatsAggregate
  cases hdocs : matchOwn s reqUser._id (startDate env (timeframeOr days 30)) with
  | nil => simp [emptyMoodStats, avg, moodScales, stressLevels]
  | cons e es => simp

/-- C17 (as stated, refuted): the user of `entryStore` has consented and has not
opted in to analytics (the dashboard denies this same request, see C16); asking for
the journal mood statistics, the user is answered the statistics of the stored
entry. -/
theorem mood_statistics_served_without_opt_in :
    thirtyDayUser.privacySettings.analyticsOptIn = false ∧
      User.findOne entryStore claimsA.sub = some thirtyDayUser ∧
      (serve marchEnv entryStore tokenRequest Route.journalMoodStats (moodStatsRoute none)).1 =
        .ok { stats := { avgMood := some 3, avgStress := some 4, totalEntries := 1,
                         moodTrend := [{ date := 19791, mood := 3, stress := some 4 }] },
              timeframe := 30 } := by
  refine ⟨rfl, by decide, by with_unfolding_all rfl⟩

/-- C17 (amended): the journal mood statistics are gated by consent only. Past
`requireConsent` the handler never denies: it answers the count, the means and the
trend of the caller's entries of the window, and the answer is the same whatever
the caller's `analyticsOptIn` is; through the middleware, a stored user with consent
at most 365 days old is answered these statistics, opted in or not. -/
theorem mood_statistics_gated_by_consent_only (days : Option String) (env : Env) (s : Store)
    (reqUser : User) :
    (∃ r, moodStatsHandler days env s reqUser = .ok r ∧
      r.stats.totalEntries =
        (matchOwn s reqUser._id (startDate env (timeframeOr days 30))).length) ∧
    (∀ b : Bool,
      moodStatsHandler days env s
        { reqUser with
          privacySettings := { reqUser.privacySettings with analyticsOptIn := b } } =
      moodStatsHandler days env s reqUser) ∧
    (∀ (req : Request) (c : Claims) (d : Int),
      req.token = .ok c → User.findOne s c.sub = some reqUser →
      reqUser.consentDate = some d → env.now - d ≤ maxConsentAge →
      env.rejectsUser { reqUser with lastActive := env.now } = false →
      ∃ r, (serve env s req Route.journalMoodStats (moodStatsRoute days)).1 = .ok r ∧
        r.stats.totalEntries =
          (matchOwn (s.putUser { reqUser with lastActive := env.now }) reqUser._id
            (startDate env (timeframeOr days 30))).length) := by
  refine ⟨⟨_, moodStatsHandler_eq days env s reqUser, rfl⟩, fun _ => rfl, ?_⟩
  intro req c d htok hu hd hfresh hstored
  rw [serve_past_gate env s req _ _ c reqUser d (by decide) htok hu hd hfresh hstored]
  simp only [moodStatsRoute, readDoc]
  exact ⟨_, moodStatsHandler_eq days env _ _, rfl⟩

/-- C17 (amended) on `entryStore`: the user who has not opted in is answered
statistics that count the stored entry. -/
theorem mood_statistics_gated_by_consent_only_witness :
    ∃ r, (serve marchEnv entryStore tokenRequest Route.journalMoodStats
        (moodStatsRoute none)).1 = .ok r ∧
      r.stats.totalEntries =
        (matchOwn (entryStore.putUser { thirtyDayUser with lastActive := marchEnv.now })
          thirtyDayUser._id (startDate marchEnv (timeframeOr none 30))).length :=
  (mood_statistics_gated_by_consent_only none marchEnv entryStore thirtyDayUser).2.2
    tokenRequest claimsA 1709985600000 rfl (by decide) rfl (by decide) rfl

/-! ### The window a validated query asks for -/

theorem foldl_digits_none (cs : List Char) :
    cs.foldl (fun (acc : Option Nat) c =>
      match acc with
      | none => none
      | some n => if c.isDigit then some (10 * n + (c.toNat - 48)) else none) none = none := by
  induction cs with
  | nil => rfl
  | cons c cs ih => simpa using ih

theorem foldl_digits_some (cs : List Char) (acc m : Nat)
    (h : cs.foldl (fun (acc : Option Nat) c =>
      match acc with
      | none => none
      | some n => if c.isDigit then some (10 * n + (c.toNat - 48)) else none) (some acc)
        = some m) :
    (∀ c ∈ cs, c.isDigit = true) ∧
    (cs.map (fun c => c.toNat - 48)).foldl (fun a d => 10 * a + d) acc = m := by
  induction cs generalizing acc with
  | nil =>
    simp only [List.foldl_nil, Option.some.injEq] at h
    exact ⟨by simp, by simpa using h⟩
  | cons c cs ih =>
    simp only [List.foldl_cons] at h
    by_cases hc : c.isDigit = true
    · simp only [hc, if_true] at h
      obtain ⟨h1, h2⟩ := ih _ h
      refine ⟨?_, ?_⟩
      · intro x hx
        rcases List.mem_cons.mp hx with rfl | hx
        · exact hc
        · exact h1 x hx
      · simpa using h2
    · simp only [hc, Bool.false_eq_true, if_false] at h
      rw [foldl_digits_none] at h
      cases h

/-- A run of digits that `digitsValue?` reads is not empty, has digits only, and its
value is the one `parseInt` computes from its digit values. -/
theorem digitsValue_some {cs : List Char} {m : Nat} (h : digitsValue? cs = some m) :
    cs ≠ [] ∧ (∀ c ∈ cs, c.isDigit = true) ∧
    (cs.map (fun c => c.toNat - 48)).foldl (fun a d => 10 * a + d) 0 = m := by
  cases cs with
  | nil => simp [digitsValue?] at h
  | cons c cs =>
    have h1 : (c :: cs).foldl (fun (acc : Option Nat) c =>
        match acc with
        | none => none
        | some n => if c.isDigit then some (10 * n + (c.toNat - 48)) else none) (some 0)
        = some m := h
    obtain ⟨ha, hb⟩ := foldl_digits_some (c :: cs) 0 m h1
    exact ⟨by simp, ha, hb⟩

theorem leadingDigits_of_digits (cs : List Char) (h : ∀ c ∈ cs, c.isDigit = true) :
    leadingDigits 10 cs = cs.map (fun c => c.toNat - 48) := by
  induction cs with
  | nil => rfl
  | cons c cs ih =>
    have hc : c.isDigit = true := h c (List.mem_cons_self _ _)
    have hrest : ∀ x ∈ cs, x.isDigit = true := fun x hx => h x (List.mem_cons_of_mem _ hx)
    simp [leadingDigits, digitOf, hc, ih hrest]

theorem isDigit_not_special {c : Char} (h : c.isDigit = true) :
    isWhiteSpace c = false ∧ c ≠ '-' ∧ c ≠ '+' ∧ c ≠ 'x' ∧ c ≠ 'X' := by
  refine ⟨?_, ?_, ?_, ?_, ?_⟩
  · simp only [Char.isDigit, Bool.and_eq_true, decide_eq_true_eq] at h
    have h1 : 48 ≤ c.toNat := h.1
    have h2 : c.toNat ≤ 57 := h.2
    simp only [isWhiteSpace, List.mem_cons, List.mem_singleton, List.not_mem_nil,
      decide_eq_false_iff_not]
    rintro (hx | hx)
    · simp only [or_false] at hx
      omega
    · omega
  all_goals (rintro rfl; revert h; decide)

/-- On a run of digits, `parseInt` (after an optional `+`) reads the number the
validator `isInt` sees. -/
theorem parseInt_digits (cs : List Char) (m : Nat) (h : digitsValue? cs = some m) :
    parseInt (String.mk cs) = some (m : Int) ∧ parseInt (String.mk ('+' :: cs)) = some (m : Int) := by
  obtain ⟨hne, hdig, hval⟩ := digitsValue_some h
  obtain ⟨c, rest, rfl⟩ := List.exists_cons_of_ne_nil hne
  have hc : c.isDigit = true := hdig c (List.mem_cons_self _ _)
  obtain ⟨hw, hminus, hplus, -, -⟩ := isDigit_not_special hc
  have hbase : (match c :: rest with
      | '0' :: 'x' :: r => ((16 : Nat), r)
      | '0' :: 'X' :: r => (16, r)
      | r => (10, r)) = (10, c :: rest) := by
    split
    · next r heq =>
      cases heq
      have := (isDigit_not_special (hdig 'x' (by simp))).2.2.2.1
      exact absurd rfl this
    · next r heq =>
      cases heq
      have := (isDigit_not_special (hdig 'X' (by simp))).2.2.2.2
      exact absurd rfl this
    · rfl
  have hsign : (match c :: rest with
      | '-' :: r => ((-1 : Int), r)
      | '+' :: r => (1, r)
      | r => (1, r)) = (1, c :: rest) := by
    split
    · next r heq => cases heq; exact absurd rfl hminus
    · next r heq => cases heq; exact absurd rfl hplus
    · rfl
  have hlead := leadingDigits_of_digits (c :: rest) hdig
  constructor
  · unfold parseInt
    simp only [String.toList, List.dropWhile_cons, hw, Bool.false_eq_true, if_false, hsign, hbase, hlead]
    simp only [List.map_cons, List.isEmpty_cons, Bool.false_eq_true, if_false, one_mul]
    rw [← hval]
    rfl
  · unfold parseInt
    have hwp : isWhiteSpace '+' = false := by decide
    simp only [String.toList, List.dropWhile_cons, hwp, Bool.false_eq_true, if_false, hbase, hlead]
    simp only [List.map_cons, List.isEmpty_cons, Bool.false_eq_true, if_false, one_mul]
    rw [← hval]
    rfl
/-- A `timeframe` that passes the validator of the dashboard is a numeral between 7
and 365, and the window the handler computes from it is that number of days. Without
the parameter the window is 30 days. -/
theorem validated_timeframe (t : String) (h : isInt 7 365 (.str t) = true) :
    ∃ n : Int, plainInt? t = some n ∧ 7 ≤ n ∧ n ≤ 365 ∧ timeframeOr (some t) 30 = n := by
  unfold isInt at h
  simp only [JsVal.asInt?] at h
  cases hp : plainInt? t with
  | none => simp [hp] at h
  | some n =>
    simp only [hp, Bool.and_eq_true, decide_eq_true_eq] at h
    refine ⟨n, rfl, h.1, h.2, ?_⟩
    have hparse : parseInt t = some n := by
      have ht : t = String.mk t.toList := rfl
      unfold plainInt? plainNat? at hp
      split at hp
      · next cs hcs =>
        cases hd : digitsValue? cs with
        | none => simp [hd] at hp
        | some m =>
          simp [hd] at hp
          omega
      · next cs hcs =>
        cases hd : digitsValue? cs with
        | none => simp [hd] at hp
        | some m =>
          simp [hd] at hp
          rw [ht, hcs, ← hp]
          exact (parseInt_digits cs m hd).2
      · next cs _ _ =>
        cases hd : digitsValue? t.data with
        | none => simp [hd] at hp
        | some m =>
          simp [hd] at hp
          rw [ht, ← hp]
          exact (parseInt_digits t.data m hd).1
    have hne : n ≠ 0 := by omega
    simp [timeframeOr, hparse, hne]

/-! ### What the aggregations report -/

/-- The caller has no entry inside the window exactly when the stage `$match`
selects nothing. -/
theorem matchOwn_eq_nil {s : Store} {userId : Nat} {start : Int}
    (hnone : ∀ e ∈ s.entries, e.userId = userId → e.createdAt < start) :
    matchOwn s userId start = [] := by
  unfold matchOwn
  rw [List.filter_eq_nil_iff]
  intro e he
  have := hnone e he
  simp only [decide_eq_true_eq, not_and, not_le]
  exact this

/-- C18. When the caller has no entry inside the window, the journal mood statistics
report `totalEntries = 0`, `avgMood = null`, `avgStress = null` and an empty trend,
and the dashboard (for an opted-in caller and a query that passes its validator)
reports the summary with `totalEntries = 0` and the three means `null`, empty
frequency tables, an empty trend and no recommendation. -/
theorem empty_window_statistics (q : Option String) (env : Env) (s : Store) (reqUser : User)
    (hnone : ∀ e ∈ s.entries, e.userId = reqUser._id →
      e.createdAt < startDate env (timeframeOr q 30)) :
    moodStatsHandler q env s reqUser =
      .ok { stats := { avgMood := none, avgStress := none, totalEntries := 0, moodTrend := [] }
            timeframe := timeframeOr q 30 } ∧
    (dashboardErrors q = [] → reqUser.privacySettings.analyticsOptIn = true →
      dashboardHandler q env s reqUser =
        .ok { timeframe := timeframeOr q 30
              summary := emptySummary
              insights := { moodTagFrequency := [], locationFrequency := [],
                            timePatterns := [], moodTrend := [] }
              recommendations := [] }) ∧
    emptySummary.totalEntries = 0 ∧ emptySummary.avgMood = none ∧
    emptySummary.avgStress = none ∧ emptySummary.avgReadTime = none := by
  have hdocs := matchOwn_eq_nil hnone
  refine ⟨?_, ?_, rfl, rfl, rfl, rfl⟩
  · rw [moodStatsHandler_eq, hdocs]
    rfl
  · intro hv ho
    simp only [dashboardHandler, hv, ho, dashboardAggregate, hdocs]
    rfl

/-- C18 on `optedInStore` forty days after its entry was written: the entry is
outside the 30-day window. -/
theorem empty_window_statistics_witness :
    moodStatsHandler none aprilEnv optedInStore optedInUser =
        .ok { stats := { avgMood := none, avgStress := none, totalEntries := 0, moodTrend := [] }
              timeframe := 30 } ∧
      dashboardHandler none aprilEnv optedInStore optedInUser =
        .ok { timeframe := 30
              summary := emptySummary
              insights := { moodTagFrequency := [], locationFrequency := [],
                            timePatterns := [], moodTrend := [] }
              recommendations := [] } :=
  have h := empty_window_statistics none aprilEnv optedInStore optedInUser (by decide)
  ⟨h.1, h.2.1 rfl rfl⟩

/-- The rounding of `$round` to an integer is off by at most one half. -/
theorem roundHalfEven_near (x : ℚ) : |(roundHalfEven x : ℚ) - x| ≤ 1 / 2 := by
  have h1 := Int.floor_le x
  have h2 := Int.lt_floor_add_one x
  unfold roundHalfEven
  simp only
  split_ifs with a b c
  · rw [abs_le]; constructor <;> linarith
  · rw [abs_le]; push_cast; constructor <;> linarith
  · rw [abs_le]; constructor <;> linarith
  · rw [abs_le]; push_cast; constructor <;> linarith

/-- The power of `scalePow` is the integer power of the base. -/
theorem scalePow_eq_zpow (base : Nat) (e : Int) : scalePow base e = (base : ℚ) ^ e := by
  unfold scalePow
  split_ifs with h
  · obtain ⟨n, rfl⟩ := Int.eq_ofNat_of_zero_le h
    simp
  · push_neg at h
    obtain ⟨n, hn⟩ := Int.exists_eq_neg_ofNat (le_of_lt h)
    subst hn
    simp

/-- A power of a positive base is positive. -/
theorem scalePow_pos (base : Nat) (hb : 0 < base) (e : Int) : 0 < scalePow base e := by
  rw [scalePow_eq_zpow]
  exact zpow_pos (by exact_mod_cast hb) e

/-- The absolute value of a rational, by numerator and denominator. -/
theorem rat_abs_eq (x : ℚ) : |x| = (x.num.natAbs : ℚ) / (x.den : ℚ) := by
  conv_lhs => rw [← Rat.num_div_den x]
  have h : |(x.num : ℚ)| = (x.num.natAbs : ℚ) := by
    rw [Nat.cast_natAbs, Int.cast_abs]
  rw [abs_div, Nat.abs_cast, h]

/-- The loop of `digitLength` adds the number of digits of `n`, given fuel enough. -/
theorem digitLengthAux_spec (base : Nat) (hb : 2 ≤ base) (fuel : Nat) :
    ∀ n acc, 0 < n → n < 2 ^ fuel →
      ∃ k, digitLengthAux base fuel n acc = acc + k ∧ 1 ≤ k ∧
        base ^ (k - 1) ≤ n ∧ n < base ^ k := by
  induction fuel with
  | zero => intro n acc h0 h1; simp at h1; omega
  | succ f ih =>
    intro n acc h0 h1
    unfold digitLengthAux
    split
    next h10 =>
      have : n < base := by
        by_contra hc
        have : 0 < n / base := Nat.div_pos (by omega) (by omega)
        omega
      exact ⟨1, rfl, le_refl 1, by simp; omega, by simpa using this⟩
    next m h10 =>
      have hq : 0 < n / base := by omega
      have hlt : n / base < 2 ^ f := by
        rw [Nat.div_lt_iff_lt_mul (by omega)]
        rw [pow_succ] at h1
        calc n < 2 ^ f * 2 := h1
          _ ≤ 2 ^ f * base := Nat.mul_le_mul_left _ hb
      have hm : m + 1 = n / base := by omega
      rw [hm]
      obtain ⟨k, hk, hk1, hlo, hhi⟩ := ih (n / base) (acc + 1) hq hlt
      refine ⟨k + 1, by rw [hk]; ring, by omega, ?_, ?_⟩
      · have : k + 1 - 1 = (k - 1) + 1 := by omega
        rw [this, pow_succ]
        calc base ^ (k - 1) * base ≤ n / base * base := Nat.mul_le_mul_right _ hlo
          _ ≤ n := Nat.div_mul_le_self n base
      · rw [pow_succ]
        exact Nat.lt_mul_of_div_lt hhi (by omega)

/-- A positive `n` of `k` digits lies between `base ^ (k - 1)` and `base ^ k`. -/
theorem digitLength_spec (base : Nat) (hb : 2 ≤ base) (n : Nat) (h0 : 0 < n) :
    1 ≤ digitLength base n ∧ base ^ (digitLength base n - 1) ≤ n ∧
      n < base ^ digitLength base n := by
  obtain ⟨k, hk, h1, h2, h3⟩ := digitLengthAux_spec base hb n n 0 h0 (Nat.lt_two_pow n)
  have : digitLength base n = k := by unfold digitLength; rw [hk]; simp
  rw [this]
  exact ⟨h1, h2, h3⟩

/-- The exponent of `x` is not too large: `base ^ e ≤ |x|`. -/
theorem exponentOf_le (base : Nat) (hb : 2 ≤ base) (x : ℚ) (hx : x ≠ 0) :
    scalePow base (exponentOf base x) ≤ |x| := by
  unfold exponentOf
  simp only
  split_ifs with h
  · exact h
  · have ha : 0 < x.num.natAbs := by
      have : x.num.natAbs ≠ 0 := by simpa using hx
      omega
    obtain ⟨hk, h1, -⟩ := digitLength_spec base hb x.num.natAbs ha
    obtain ⟨-, -, h2⟩ := digitLength_spec base hb x.den x.den_pos
    have h1q : (base : ℚ) ^ (digitLength base x.num.natAbs - 1) ≤ (x.num.natAbs : ℚ) := by
      exact_mod_cast h1
    have h2q : (x.den : ℚ) ≤ (base : ℚ) ^ digitLength base x.den := by exact_mod_cast h2.le
    have hd : (0 : ℚ) < x.den := by exact_mod_cast x.den_pos
    have hne : (base : ℚ) ≠ 0 := by
      have : 0 < base := by omega
      exact_mod_cast this.ne'
    rw [scalePow_eq_zpow, rat_abs_eq]
    have : (base : ℚ) ^ ((digitLength base x.num.natAbs : Int)
          - (digitLength base x.den : Int) - 1)
        = (base : ℚ) ^ (digitLength base x.num.natAbs - 1)
            / (base : ℚ) ^ digitLength base x.den := by
      rw [show ((digitLength base x.num.natAbs : Int) - (digitLength base x.den : Int) - 1)
          = ((digitLength base x.num.natAbs - 1 : Nat) : Int)
              - (digitLength base x.den : Int) by
        push_cast [Nat.cast_sub hk]; ring]
      rw [zpow_sub₀ hne, zpow_natCast, zpow_natCast]
    rw [this]
    exact div_le_div₀ (by positivity) h1q hd h2q

/-- The exponent of `x` is not too small: `|x| < base ^ (e + 1)`. -/
theorem lt_exponentOf (base : Nat) (hb : 2 ≤ base) (x : ℚ) (hx : x ≠ 0) :
    |x| < scalePow base (exponentOf base x + 1) := by
  unfold exponentOf
  simp only
  have hne : (base : ℚ) ≠ 0 := by
    have : 0 < base := by omega
    exact_mod_cast this.ne'
  have hpos : (0 : ℚ) < base := by
    have : 0 < base := by omega
    exact_mod_cast this
  split_ifs with h
  · have ha : 0 < x.num.natAbs := by
      have : x.num.natAbs ≠ 0 := by simpa using hx
      omega
    obtain ⟨-, -, h1⟩ := digitLength_spec base hb x.num.natAbs ha
    obtain ⟨hk, h2, -⟩ := digitLength_spec base hb x.den x.den_pos
    have h1q : (x.num.natAbs : ℚ) < (base : ℚ) ^ digitLength base x.num.natAbs := by
      exact_mod_cast h1
    have h2q : (base : ℚ) ^ (digitLength base x.den - 1) ≤ (x.den : ℚ) := by
      exact_mod_cast h2
    rw [scalePow_eq_zpow, rat_abs_eq]
    have : (base : ℚ) ^ ((digitLength base x.num.natAbs : Int)
          - (digitLength base x.den : Int) + 1)
        = (base : ℚ) ^ digitLength base x.num.natAbs
            / (base : ℚ) ^ (digitLength base x.den - 1) := by
      rw [show ((digitLength base x.num.natAbs : Int) - (digitLength base x.den : Int) + 1)
          = (digitLength base x.num.natAbs : Int)
              - ((digitLength base x.den - 1 : Nat) : Int) by
        push_cast [Nat.cast_sub hk]; ring]
      rw [zpow_sub₀ hne, zpow_natCast, zpow_natCast]
    rw [this]
    exact div_lt_div₀ h1q h2q (by positivity) (by positivity)
  · push_neg at h
    simpa using h

/-- Rounding to `digits` significant digits moves a number by at most half a unit of
its last digit. -/
theorem roundSignificant_near (base digits : Nat) (hb : 2 ≤ base) (x : ℚ) :
    |roundSignificant base digits x - x| ≤ |x| / (2 * (base : ℚ) ^ (digits - 1)) := by
  unfold roundSignificant
  have hpos : (0 : ℚ) < base := by
    have : 0 < base := by omega
    exact_mod_cast this
  split_ifs with h0
  · simp [h0]
  · have hu := scalePow_pos base (by omega) (exponentOf base x - (digits - 1 : Nat))
    have hr := roundHalfEven_near (x / scalePow base (exponentOf base x - (digits - 1 : Nat)))
    have hb2 := exponentOf_le base hb x h0
    have hsplit : scalePow base (exponentOf base x)
        = scalePow base (exponentOf base x - (digits - 1 : Nat)) * (base : ℚ) ^ (digits - 1) := by
      rw [scalePow_eq_zpow, scalePow_eq_zpow, ← zpow_natCast, ← zpow_add₀ hpos.ne']
      congr 1
      ring
    set u := scalePow base (exponentOf base x - (digits - 1 : Nat)) with hudef
    have hpp : (0 : ℚ) < (base : ℚ) ^ (digits - 1) := by positivity
    have : |(roundHalfEven (x / u) : ℚ) * u - x| = |(roundHalfEven (x / u) : ℚ) - x / u| * u := by
      rw [← abs_of_pos hu, ← abs_mul, abs_of_pos hu]
      congr 1
      field_simp
    rw [this]
    have h1 : |(roundHalfEven (x / u) : ℚ) - x / u| * u ≤ 1 / 2 * u :=
      mul_le_mul_of_nonneg_right hr hu.le
    have h2 : u * (base : ℚ) ^ (digits - 1) ≤ |x| := by rw [← hsplit]; exact hb2
    have h3 : (1 : ℚ) / 2 * u
        = (u * (base : ℚ) ^ (digits - 1)) / (2 * (base : ℚ) ^ (digits - 1)) := by
      field_simp
      ring
    calc |(roundHalfEven (x / u) : ℚ) - x / u| * u ≤ 1 / 2 * u := h1
      _ = (u * (base : ℚ) ^ (digits - 1)) / (2 * (base : ℚ) ^ (digits - 1)) := h3
      _ ≤ |x| / (2 * (base : ℚ) ^ (digits - 1)) := by
          apply div_le_div_of_nonneg_right h2 (by positivity)

/-- The double nearest to `x` is within the relative error `2 ^ -53`. -/
theorem toDouble_near (x : ℚ) : |toDouble x - x| ≤ |x| / 2 ^ 53 := by
  have h := roundSignificant_near 2 53 (le_refl 2) x
  have e : (2 : ℚ) * ((2 : Nat) : ℚ) ^ (53 - 1) = 2 ^ 53 := by norm_num
  rw [e] at h
  exact h

/-- An integer is its own rounding. -/
theorem roundHalfEven_intCast (z : Int) : roundHalfEven (z : ℚ) = z := by
  unfold roundHalfEven
  simp

/-- An integer of magnitude below `2 ^ 53` is a double: the double nearest to it is the
integer itself. -/
theorem toDouble_int (n : Int) (h : |n| < 2 ^ 53) : toDouble (n : ℚ) = n := by
  unfold toDouble roundSignificant
  split_ifs with h0
  · exact h0.symm
  · have hle := exponentOf_le 2 (le_refl 2) (n : ℚ) h0
    have hlt : |(n : ℚ)| < 2 ^ 53 := by
      have : ((|n| : Int) : ℚ) < ((2 ^ 53 : Int) : ℚ) := by exact_mod_cast h
      simpa using this
    have he : exponentOf 2 (n : ℚ) < 53 := by
      rw [scalePow_eq_zpow] at hle
      have h2 : ((2 : Nat) : ℚ) ^ exponentOf 2 (n : ℚ) < ((2 : Nat) : ℚ) ^ (53 : Int) := by
        calc ((2 : Nat) : ℚ) ^ exponentOf 2 (n : ℚ) ≤ |(n : ℚ)| := hle
          _ < 2 ^ 53 := hlt
          _ = ((2 : Nat) : ℚ) ^ (53 : Int) := by norm_num
      exact (zpow_lt_zpow_iff_right₀ (by norm_num)).mp h2
    obtain ⟨k, hk⟩ : ∃ k : Nat, exponentOf 2 (n : ℚ) - ((53 - 1 : Nat) : Int) = -(k : Int) :=
      ⟨(52 - exponentOf 2 (n : ℚ)).toNat, by
        rw [Int.toNat_of_nonneg (by omega)]
        push_cast
        ring⟩
    rw [hk]
    have hu : scalePow 2 (-(k : Int)) = 1 / (2 : ℚ) ^ k := by
      rw [scalePow_eq_zpow]
      simp [zpow_neg]
    rw [hu]
    have hx : (n : ℚ) / (1 / (2 : ℚ) ^ k) = ((n * 2 ^ k : Int) : ℚ) := by
      push_cast
      field_simp
    rw [hx, roundHalfEven_intCast]
    push_cast
    field_simp

/-- The 34-digit decimal of `x` is within the relative error `10 ^ -33 / 2`. -/
theorem toDecimal34_near (x : ℚ) : |toDecimal34 x - x| ≤ |x| / (2 * 10 ^ 33) := by
  have h := roundSignificant_near 10 34 (by norm_num) x
  have e : (2 : ℚ) * ((10 : Nat) : ℚ) ^ (34 - 1) = 2 * 10 ^ 33 := by norm_num
  rw [e] at h
  exact h

/-- Rounding to two places gives the double of a whole number of hundredths that is
at most half a hundredth from the 34-digit decimal of the argument. -/
theorem roundTo_two_hundredths (x : ℚ) :
    ∃ k : Int, roundTo 2 x = toDouble ((k : ℚ) / 100) ∧
      |(k : ℚ) / 100 - toDecimal34 x| ≤ 1 / 200 := by
  refine ⟨roundHalfEven (toDecimal34 x * 10 ^ 2), by unfold roundTo; norm_num, ?_⟩
  have h := roundHalfEven_near (toDecimal34 x * 10 ^ 2)
  rw [abs_le] at h ⊢
  obtain ⟨h1, h2⟩ := h
  norm_num at h1 h2 ⊢
  constructor <;> linarith

/-- Rounding to two places moves a number by at most half a hundredth and the
representation error of a double. -/
theorem roundTo_two_near (x : ℚ) : |roundTo 2 x - x| ≤ 1 / 200 + (|x| + 1) / 2 ^ 52 := by
  obtain ⟨k, hk, hnear⟩ := roundTo_two_hundredths x
  have hd := toDouble_near ((k : ℚ) / 100)
  have hy := toDecimal34_near x
  rw [hk]
  have hx0 := abs_nonneg x
  have hdec : |toDecimal34 x| ≤ |x| + |x| / (2 * 10 ^ 33) := by
    have := abs_sub_abs_le_abs_sub (toDecimal34 x) x
    linarith
  have hkabs : |(k : ℚ) / 100| ≤ |x| + |x| / (2 * 10 ^ 33) + 1 / 200 := by
    have := abs_sub_abs_le_abs_sub ((k : ℚ) / 100) (toDecimal34 x)
    linarith
  have htri : |toDouble ((k : ℚ) / 100) - x| ≤
      |toDouble ((k : ℚ) / 100) - (k : ℚ) / 100| + |(k : ℚ) / 100 - toDecimal34 x|
        + |toDecimal34 x - x| := by
    have h1 := abs_sub_le (toDouble ((k : ℚ) / 100)) ((k : ℚ) / 100) x
    have h2 := abs_sub_le ((k : ℚ) / 100) (toDecimal34 x) x
    linarith
  have e1 : |x| / (2 * 10 ^ 33) ≤ |x| / 2 ^ 54 := by
    apply div_le_div_of_nonneg_left hx0 (by positivity) (by norm_num)
  have e2 : |(k : ℚ) / 100| / 2 ^ 53 ≤ (|x| + |x| / 2 ^ 54 + 1 / 200) / 2 ^ 53 := by
    apply div_le_div_of_nonneg_right _ (by positivity)
    linarith
  have e3 : (|x| + |x| / 2 ^ 54 + 1 / 200) / 2 ^ 53 + |x| / 2 ^ 54 ≤ (|x| + 1) / 2 ^ 52 := by
    have : |x| / 2 ^ 54 ≤ |x| := div_le_self hx0 (by norm_num)
    field_simp
    rw [div_le_div_iff₀ (by positivity) (by positivity)]
    nlinarith
  linarith

/-- The mean `$avg` computes is the exact mean up to the relative error `2 ^ -51`. -/
theorem avg_near (xs : List ℚ) (a : ℚ) (h : avg xs = some a) :
    xs ≠ [] ∧ |a - xs.sum / xs.length| ≤ |xs.sum / xs.length| / 2 ^ 51 := by
  unfold avg at h
  split_ifs at h with he
  have hne : xs ≠ [] := by simpa using he
  refine ⟨hne, ?_⟩
  simp only [Option.some.injEq] at h
  subst h
  have hn : (0 : ℚ) < xs.length := by
    have : 0 < xs.length := List.length_pos.mpr hne
    exact_mod_cast this
  have h1 := toDouble_near xs.sum
  have h2 := toDouble_near (toDouble xs.sum / xs.length)
  set S := xs.sum
  set n : ℚ := (xs.length : ℚ)
  have hdiv : |toDouble S / n - S / n| ≤ |S / n| / 2 ^ 53 := by
    rw [← sub_div, abs_div, abs_div, abs_of_pos hn, div_div, mul_comm, ← div_div]
    exact div_le_div_of_nonneg_right h1 hn.le
  have habs : |toDouble S / n| ≤ |S / n| + |S / n| / 2 ^ 53 := by
    have := abs_sub_abs_le_abs_sub (toDouble S / n) (S / n)
    linarith
  have htri := abs_sub_le (toDouble (toDouble S / n)) (toDouble S / n) (S / n)
  have hm := abs_nonneg (S / n)
  have e2 : |toDouble S / n| / 2 ^ 53 ≤ (|S / n| + |S / n| / 2 ^ 53) / 2 ^ 53 :=
    div_le_div_of_nonneg_right habs (by positivity)
  have e3 : (|S / n| + |S / n| / 2 ^ 53) / 2 ^ 53 + |S / n| / 2 ^ 53 ≤ |S / n| / 2 ^ 51 := by
    have : |S / n| / 2 ^ 53 ≤ |S / n| := div_le_self hm (by norm_num)
    field_simp
    rw [div_le_div_iff₀ (by positivity) (by positivity)]
    nlinarith
  linarith

/-- The success reply of the dashboard, for a caller who has opted in and a query
that passes the validator. -/
theorem dashboardHandler_ok (q : Option String) (env : Env) (s : Store) (reqUser : User)
    (hv : dashboardErrors q = []) (ho : reqUser.privacySettings.analyticsOptIn = true) :
    dashboardHandler q env s reqUser =
      .ok (dashboardResult (timeframeOr q 30)
        (dashboardAggregate s reqUser._id (startDate env (timeframeOr q 30)))) := by
  simp [dashboardHandler, hv, ho]

/-- The summary and the recommendations of the dashboard reply, in terms of the
matched documents. -/
theorem dashboardResult_summary (w : Int) (s : Store) (userId : Nat) (start : Int) :
    (dashboardResult w (dashboardAggregate s userId start)).summary.totalEntries
      = (matchOwn s userId start).length ∧
    (dashboardResult w (dashboardAggregate s userId start)).summary.avgMood
      = roundAvg 2 (avg (moodScales (matchOwn s userId start))) ∧
    (dashboardResult w (dashboardAggregate s userId start)).summary.avgStress
      = roundAvg 2 (avg (stressLevels (matchOwn s userId start))) ∧
    (dashboardResult w (dashboardAggregate s userId start)).insights.moodTrend
      = (matchOwn s userId start).map trendPoint ∧
    (dashboardResult w (dashboardAggregate s userId start)).recommendations
      = if (matchOwn s userId start).isEmpty then []
        else generateRecommendations
          (some (dashboardResult w (dashboardAggregate s userId start)).summary) := by
  unfold dashboardAggregate dashboardGroup
  cases hdocs : matchOwn s userId start with
  | nil =>
    simp [dashboardResult, emptySummary, avg, roundAvg, moodScales, stressLevels,
      generateRecommendations]
  | cons e es =>
    simp [dashboardResult, dashboardProject]

/-- C15 (as stated, refuted): an opted-in user without any entry asks for the
dashboard; the window has 0 entries (fewer than 7) and the recommendation list is
empty, so it does not contain the engagement item. -/
theorem empty_window_has_no_recommendation :
    ∃ d, (serve marchEnv optedInEmpty tokenRequest Route.analyticsDashboard
        (dashboardRoute none)).1 = .ok d ∧
      d.summary.totalEntries = 0 ∧ d.recommendations = [] ∧
      increaseFrequency ∉ d.recommendations :=
  ⟨_, by with_unfolding_all rfl, rfl, rfl, by decide⟩

/-- C15 (amended): for an opted-in caller and a query that passes the validator, the
dashboard counts the caller's entries of the window; when that count is at least 1
and below 7 the recommendation list contains the medium-priority engagement item
(`increase_frequency`), when it is 7 or more the list does not contain it, and when
the window has no entry the list is empty. -/
theorem sparse_window_recommendation (q : Option String) (env : Env) (s : Store)
    (reqUser : User) (hv : dashboardErrors q = [])
    (ho : reqUser.privacySettings.analyticsOptIn = true) :
    ∃ d, dashboardHandler q env s reqUser = .ok d ∧
      d.summary.totalEntries =
        (matchOwn s reqUser._id (startDate env (timeframeOr q 30))).length ∧
      (0 < d.summary.totalEntries → d.summary.totalEntries < 7 →
        increaseFrequency ∈ d.recommendations) ∧
      (7 ≤ d.summary.totalEntries → increaseFrequency ∉ d.recommendations) ∧
      (d.summary.totalEntries = 0 → d.recommendations = []) ∧
      increaseFrequency.priority = "medium" ∧
      increaseFrequency.action = "increase_frequency" := by
  refine ⟨_, dashboardHandler_ok q env s reqUser hv ho, ?_⟩
  obtain ⟨htot, -, -, -, hrec⟩ :=
    dashboardResult_summary (timeframeOr q 30) s reqUser._id (startDate env (timeframeOr q 30))
  refine ⟨htot, ?_, ?_, ?_, rfl, rfl⟩
  · intro hpos hlt
    have hne : (matchOwn s reqUser._id (startDate env (timeframeOr q 30))).isEmpty = false := by
      cases hdocs : matchOwn s reqUser._id (startDate env (timeframeOr q 30)) with
      | nil => rw [htot, hdocs] at hpos; simp at hpos
      | cons e es => rfl
    rw [hrec, hne]
    simp only [Bool.false_eq_true, if_false]
    exact (increaseFrequency_mem _).mpr hlt
  · intro hge
    rw [hrec]
    split
    · simp
    · rw [increaseFrequency_mem]
      omega
  · intro hzero
    have he : (matchOwn s reqUser._id (startDate env (timeframeOr q 30))).isEmpty = true := by
      rw [htot] at hzero
      rw [List.length_eq_zero] at hzero
      rw [hzero]; rfl
    rw [hrec, he]
    rfl

/-- C15 (amended) on `optedInStore`: one entry within the window, and the engagement
item is recommended. -/
theorem sparse_window_recommendation_witness :
    ∃ d, dashboardHandler (some "7") marchEnv optedInStore optedInUser = .ok d ∧
      d.summary.totalEntries = 1 ∧ increaseFrequency ∈ d.recommendations := by
  obtain ⟨d, hd, htot, hmem, -⟩ :=
    sparse_window_recommendation (some "7") marchEnv optedInStore optedInUser
      (by decide) rfl
  have h1 : d.summary.totalEntries = 1 := by rw [htot]; decide
  exact ⟨d, hd, h1, hmem (by omega) (by omega)⟩

/-- A mean that `$avg` computes and `$round` rounds to two places is within half a
hundredth, and the representation error of doubles, of the exact mean. -/
theorem rounded_mean_near (xs : List ℚ) (r : ℚ) (h : (avg xs).map (roundTo 2) = some r) :
    xs ≠ [] ∧
      |r - xs.sum / xs.length| ≤ 1 / 200 + (|xs.sum / xs.length| + 1) / 2 ^ 50 := by
  cases ha : avg xs with
  | none => rw [ha] at h; cases h
  | some a =>
    rw [ha] at h
    simp only [Option.map_some', Option.some.injEq] at h
    subst h
    obtain ⟨hne, h1⟩ := avg_near xs a ha
    refine ⟨hne, ?_⟩
    have h2 := roundTo_two_near a
    set m := xs.sum / (xs.length : ℚ) with hm
    have hm0 := abs_nonneg m
    have habs : |a| ≤ |m| + |m| / 2 ^ 51 := by
      have := abs_sub_abs_le_abs_sub a m
      linarith
    have htri := abs_sub_le (roundTo 2 a) a m
    have e1 : (|a| + 1) / 2 ^ 52 ≤ (|m| + |m| / 2 ^ 51 + 1) / 2 ^ 52 :=
      div_le_div_of_nonneg_right (by linarith) (by positivity)
    have e2 : (|m| + |m| / 2 ^ 51 + 1) / 2 ^ 52 + |m| / 2 ^ 51 ≤ (|m| + 1) / 2 ^ 50 := by
      have : |m| / 2 ^ 51 ≤ |m| := div_le_self hm0 (by norm_num)
      field_simp
      rw [div_le_div_iff₀ (by positivity) (by positivity)]
      nlinarith
    linarith

/-- C19, as stated, fails: on a server whose zone moved its clocks forward the day
before, `optedInUser` asks for the dashboard over 7 days. The entry of
`dstWindowStore` was created 6 days, 23 hours and 30 minutes earlier, so its
`createdAt` is at or after `now - 7` days, yet the summary counts no entry: the
window start is the same local time of day 7 calendar days back, which is one hour
later than `now - 7` days. -/
theorem dashboard_window_shorter_across_dst :
    optedInUser.privacySettings.analyticsOptIn = true ∧
    requireConsent afterSwitchEnv.now (some optedInUser) = .next ∧
    (dstWindowStore.entries.filter (fun e =>
      e.userId = optedInUser._id ∧ afterSwitchEnv.now - 7 * msPerDay ≤ e.createdAt)).length
        = 1 ∧
    startDate afterSwitchEnv 7 = afterSwitchEnv.now - 7 * msPerDay + 3600000 ∧
    dashboardHandler (some "7") afterSwitchEnv dstWindowStore optedInUser =
      .ok { timeframe := 7, summary := emptySummary,
            insights := { moodTagFrequency := [], locationFrequency := [],
                          timePatterns := [], moodTrend := [] },
            recommendations := [] } ∧
    emptySummary.totalEntries = 0 ∧ emptySummary.avgMood = none := by
  refine ⟨rfl, by decide, by decide, by decide, ?_, rfl, rfl⟩
  with_unfolding_all rfl

/-- C19 (amended). For a caller who has opted in (and a query that passes the
validator), the dashboard summary over the window of `W` days (the number between 7
and 365 that the parameter `timeframe` writes, 30 without the parameter) reports as
`totalEntries` the number of the caller's entries created at or after the window
start, as `avgMood` the mean of their mood scales and as `avgStress` the mean of the
stress levels present among them, `null` when none has one; each mean is computed in
double precision and rounded to two places by `$round`, which leaves it within half
a hundredth (and the representation error of doubles) of the exact mean. The window
start is the clock reading moved back `W` calendar days by `setDate`, which is
`now - W` days of 24 hours when the server zone keeps its offset. With a single
entry in the window, of mood scale 3, the summary has `avgMood = 3` and
`totalEntries = 1`, and the recommendations contain the seek-support item. -/
theorem dashboard_summary_of_window (q : Option String) (env : Env) (s : Store)
    (reqUser : User) (hv : dashboardErrors q = [])
    (ho : reqUser.privacySettings.analyticsOptIn = true) :
    ∃ d, dashboardHandler q env s reqUser = .ok d ∧
      d.timeframe = timeframeOr q 30 ∧
      (∀ t, q = some t →
        ∃ n : Int, plainInt? t = some n ∧ 7 ≤ n ∧ n ≤ 365 ∧ d.timeframe = n) ∧
      (q = none → d.timeframe = 30) ∧
      startDate env d.timeframe = env.zone.setDatePlus env.now (-d.timeframe) ∧
      (∀ off, env.zone = Zone.fixed off →
        startDate env d.timeframe = env.now - d.timeframe * msPerDay) ∧
      d.summary.totalEntries =
        (s.entries.filter (fun e =>
          e.userId = reqUser._id ∧ startDate env d.timeframe ≤ e.createdAt)).length ∧
      d.summary.avgMood =
        (avg ((s.entries.filter (fun e =>
            e.userId = reqUser._id ∧ startDate env d.timeframe ≤ e.createdAt)).map
          (fun e => (e.entry.mood.scale : ℚ)))).map (roundTo 2) ∧
      d.summary.avgStress =
        (avg ((s.entries.filter (fun e =>
            e.userId = reqUser._id ∧ startDate env d.timeframe ≤ e.createdAt)).filterMap
          (fun e => e.entry.context.stressLevel.map (fun n => (n : ℚ))))).map (roundTo 2) ∧
      ((∀ e ∈ s.entries, e.userId = reqUser._id → startDate env d.timeframe ≤ e.createdAt →
          e.entry.context.stressLevel = none) → d.summary.avgStress = none) ∧
      (∀ m, d.summary.avgMood = some m →
        |m - ((s.entries.filter (fun e =>
              e.userId = reqUser._id ∧ startDate env d.timeframe ≤ e.createdAt)).map
            (fun e => (e.entry.mood.scale : ℚ))).sum /
            (s.entries.filter (fun e =>
              e.userId = reqUser._id ∧ startDate env d.timeframe ≤ e.createdAt)).length|
          ≤ 1 / 200 + (|((s.entries.filter (fun e =>
              e.userId = reqUser._id ∧ startDate env d.timeframe ≤ e.createdAt)).map
            (fun e => (e.entry.mood.scale : ℚ))).sum /
            (s.entries.filter (fun e =>
              e.userId = reqUser._id ∧ startDate env d.timeframe ≤ e.createdAt)).length| + 1)
              / 2 ^ 50) ∧
      (∀ e, s.entries.filter (fun e =>
          e.userId = reqUser._id ∧ startDate env d.timeframe ≤ e.createdAt) = [e] →
        e.entry.mood.scale = 3 →
        d.summary.avgMood = some 3 ∧ d.summary.totalEntries = 1 ∧
        seekSupport ∈ d.recommendations) := by
  refine ⟨_, dashboardHandler_ok q env s reqUser hv ho, rfl, ?_⟩
  obtain ⟨htot, hmood, hstress, -, hrec⟩ :=
    dashboardResult_summary (timeframeOr q 30) s reqUser._id (startDate env (timeframeOr q 30))
  have htf : (dashboardResult (timeframeOr q 30)
      (dashboardAggregate s reqUser._id (startDate env (timeframeOr q 30)))).timeframe
      = timeframeOr q 30 := rfl
  rw [htf]
  refine ⟨?_, ?_, rfl, ?_, htot, hmood, hstress, ?_, ?_, ?_⟩
  · intro t hq
    subst hq
    have hint : isInt 7 365 (.str t) = true := by
      by_contra hne
      simp [dashboardErrors, hne] at hv
    obtain ⟨n, hn, h7, h365, hw⟩ := validated_timeframe t hint
    exact ⟨n, hn, h7, h365, hw⟩
  · intro hq
    subst hq
    rfl
  · intro off hz
    unfold startDate
    rw [hz, setDatePlus_fixed]
    ring
  · intro hnone
    rw [hstress]
    have hnil : stressLevels (matchOwn s reqUser._id (startDate env (timeframeOr q 30)))
        = [] := by
      unfold stressLevels matchOwn
      rw [List.filterMap_eq_nil_iff]
      intro e he
      obtain ⟨hmem, hp⟩ := List.mem_filter.mp he
      simp only [decide_eq_true_eq] at hp
      rw [hnone e hmem hp.1 hp.2]
      rfl
    rw [hnil]
    rfl
  · intro m hm
    rw [hmood] at hm
    have h := (rounded_mean_near _ m hm).2
    simpa [moodScales, matchOwn] using h
  · intro e hdocs hscale
    have hdocs1 : matchOwn s reqUser._id (startDate env (timeframeOr q 30)) = [e] := hdocs
    have hm : (dashboardResult (timeframeOr q 30)
        (dashboardAggregate s reqUser._id (startDate env (timeframeOr q 30)))).summary.avgMood
        = some 3 := by
      rw [hmood, hdocs1]
      simp only [moodScales, List.map_cons, List.map_nil, hscale]
      with_unfolding_all rfl
    refine ⟨hm, by rw [htot, hdocs1]; rfl, ?_⟩
    rw [hrec, hdocs1]
    simp only [List.isEmpty_cons, Bool.false_eq_true, if_false]
    rw [generateRecommendations_some]
    simp [hm, toNumber]
    norm_num

/-- C19 on `optedInStore`: the entry of mood scale 3 was written at the clock reading
of the request, the window is 7 days. -/
theorem dashboard_summary_of_window_witness :
    ∃ d, dashboardHandler (some "7") marchEnv optedInStore optedInUser = .ok d ∧
      d.timeframe = 7 ∧ d.summary.avgMood = some 3 ∧ d.summary.totalEntries = 1 ∧
      seekSupport ∈ d.recommendations := by
  obtain ⟨d, hd, htf, -, -, -, -, -, -, -, -, -, hone⟩ :=
    dashboard_summary_of_window (some "7") marchEnv optedInStore optedInUser (by decide) rfl
  have h7 : d.timeframe = 7 := by rw [htf]; decide
  have hdocs : optedInStore.entries.filter (fun e =>
      e.userId = optedInUser._id ∧ startDate marchEnv d.timeframe ≤ e.createdAt)
      = [storedEntry] := by rw [h7]; decide
  obtain ⟨h1, h2, h3⟩ := hone storedEntry hdocs rfl
  exact ⟨d, hd, h7, h1, h2, h3⟩

/-- The means of every document of the cohort statistics are the means of the
matched documents rounded to two places. -/
theorem cohort_means (env : Env) (s : Store) (w : Int) :
    ∀ c ∈ JournalEntry.getAnonymizedStats env s w,
      c.avgMood = roundAvg 2 (avg (moodScales (matchCohort s (startDate env w)))) ∧
      c.avgStress = roundAvg 2 (avg (stressLevels (matchCohort s (startDate env w)))) := by
  intro c hc
  unfold JournalEntry.getAnonymizedStats at hc
  simp only at hc
  split at hc
  · simp at hc
  · simp only [List.mem_singleton] at hc
    subst hc
    exact ⟨rfl, rfl⟩

/-- The means of every document of the colour analytics are the means over the
unwound rows of its colour, rounded to two places. -/
theorem color_means (s : Store) (userId : Nat) (start : Int) :
    ∀ c ∈ colorAggregate s userId start,
      c.avgIntensity = roundAvg 2 (avg
        (((unwindColors (matchColored s userId start)).filter
          (fun r => r.1.color = c.color)).filterMap (fun r => r.1.intensity))) ∧
      c.avgMoodWhenUsed = roundAvg 2 (avg
        (((unwindColors (matchColored s userId start)).filter
          (fun r => r.1.color = c.color)).map (fun r => (r.2 : ℚ)))) := by
  intro c hc
  unfold colorAggregate at hc
  obtain ⟨g, hg, rfl⟩ := List.mem_map.mp hc
  unfold sortByFrequency at hg
  rw [(List.perm_insertionSort _ _).mem_iff] at hg
  unfold groupColors at hg
  obtain ⟨key, -, rfl⟩ := List.mem_map.mp hg
  exact ⟨rfl, rfl⟩

/-- C20, as stated, fails. A user with three entries of mood scales 1, 1 and 2 asks
for the journal mood statistics and is answered as `avgMood` the double nearest to
4/3, which is not its rounding to two places, the double nearest to 1.33. And where
the mean is rounded it is the mean in double precision that is: the 40 entries of
`tieStore` have the exact mean 43/40 = 1.075, which rounds to 1.08, while the
dashboard reports the double nearest to 1.07, because the double nearest to 1.075
lies below it. -/
theorem mood_statistics_mean_unrounded :
    ((serve marchEnv thirdsStore tokenRequest Route.journalMoodStats
        (moodStatsRoute none)).1 =
        .ok { stats :=
                { avgMood := some (toDouble (4 / 3)), avgStress := none, totalEntries := 3,
                  moodTrend := [{ date := 19791, mood := 1, stress := none },
                                { date := 19791, mood := 1, stress := none },
                                { date := 19791, mood := 2, stress := none }] },
              timeframe := 30 } ∧
      roundTo 2 (toDouble (4 / 3)) = toDouble (133 / 100) ∧
      toDouble (4 / 3) ≠ toDouble (133 / 100)) ∧
    ((tieStore.entries.map (fun e => (e.entry.mood.scale : ℚ))).sum /
        tieStore.entries.length = 43 / 40 ∧
      roundHalfEven ((43 / 40 : ℚ) * 10 ^ 2) = 108 ∧
      (∃ d, dashboardHandler none marchEnv tieStore optedInUser = .ok d ∧
        d.summary.totalEntries = 40 ∧
        d.summary.avgMood = some (toDouble (107 / 100))) ∧
      roundHalfEven (toDouble (107 / 100) * 10 ^ 2) = 107) := by
  refine ⟨⟨by with_unfolding_all rfl, by with_unfolding_all rfl,
    by with_unfolding_all decide⟩, ?_, by with_unfolding_all rfl, ⟨_, rfl, ?_, ?_⟩,
    by with_unfolding_all rfl⟩
  · set_option maxRecDepth 20000 in with_unfolding_all rfl
  · set_option maxRecDepth 20000 in with_unfolding_all rfl
  · set_option maxRecDepth 20000 in with_unfolding_all rfl

/-- C20 (amended): `avgMood` and `avgStress` of the dashboard and of the cohort
statistics, and `avgIntensity` and `avgMoodWhenUsed` of the colour analytics, are the
means that `$avg` computes in double precision, rounded to two places by `$round`:
each is the double of a whole number of hundredths and lies within half a hundredth
(and the representation error of doubles) of the exact mean. `avgMood` and
`avgStress` of the journal mood statistics are the double-precision means
themselves, not rounded (for a window parameter within the range of doubles and
dates). -/
theorem averaged_fields_rounding (q : Option String) (env : Env) (s : Store)
    (reqUser : User) :
    (dashboardErrors q = [] → reqUser.privacySettings.analyticsOptIn = true →
      ∃ d, dashboardHandler q env s reqUser = .ok d ∧
        d.summary.avgMood =
          (avg ((s.entries.filter (fun e =>
              e.userId = reqUser._id ∧ startDate env (timeframeOr q 30) ≤ e.createdAt)).map
            (fun e => (e.entry.mood.scale : ℚ)))).map (roundTo 2) ∧
        d.summary.avgStress =
          (avg ((s.entries.filter (fun e =>
              e.userId = reqUser._id ∧
                startDate env (timeframeOr q 30) ≤ e.createdAt)).filterMap
            (fun e => e.entry.context.stressLevel.map (fun n => (n : ℚ))))).map
            (roundTo 2)) ∧
    (∀ w, ∀ c ∈ JournalEntry.getAnonymizedStats env s w,
      c.avgMood =
        (avg ((s.entries.filter (fun e =>
            decide (startDate env w ≤ e.createdAt) && e.privacy.anonymousSharing)).map
          (fun e => (e.entry.mood.scale : ℚ)))).map (roundTo 2) ∧
      c.avgStress =
        (avg ((s.entries.filter (fun e =>
            decide (startDate env w ≤ e.createdAt) && e.privacy.anonymousSharing)).filterMap
          (fun e => e.entry.context.stressLevel.map (fun n => (n : ℚ))))).map
          (roundTo 2)) ∧
    (∀ start, ∀ c ∈ colorAggregate s reqUser._id start,
      c.avgIntensity = (avg
        ((((s.entries.filter (fun e =>
              (e.userId = reqUser._id ∧ start ≤ e.createdAt) ∧ e.entry.mood.colors ≠ [])).flatMap
            (fun e => e.entry.mood.colors.map (fun k => (k, e.entry.mood.scale)))).filter
          (fun r => r.1.color = c.color)).filterMap (fun r => r.1.intensity))).map
        (roundTo 2) ∧
      c.avgMoodWhenUsed = (avg
        ((((s.entries.filter (fun e =>
              (e.userId = reqUser._id ∧ start ≤ e.createdAt) ∧ e.entry.mood.colors ≠ [])).flatMap
            (fun e => e.entry.mood.colors.map (fun k => (k, e.entry.mood.scale)))).filter
          (fun r => r.1.color = c.color)).map (fun r => (r.2 : ℚ)))).map (roundTo 2)) ∧
    (∀ start, ∀ e ∈ s.entries, e.userId = reqUser._id → start ≤ e.createdAt →
      ∀ k ∈ e.entry.mood.colors, ∃ c ∈ colorAggregate s reqUser._id start, c.color = k.color) ∧
    (WindowReadable env q →
      ∃ r, moodStatsHandler q env s reqUser = .ok r ∧
      r.stats.avgMood =
        avg ((s.entries.filter (fun e =>
            e.userId = reqUser._id ∧ startDate env (timeframeOr q 30) ≤ e.createdAt)).map
          (fun e => (e.entry.mood.scale : ℚ))) ∧
      r.stats.avgStress =
        avg ((s.entries.filter (fun e =>
            e.userId = reqUser._id ∧ startDate env (timeframeOr q 30) ≤ e.createdAt)).filterMap
          (fun e => e.entry.context.stressLevel.map (fun n => (n : ℚ))))) ∧
    (∀ (xs : List ℚ) (r : ℚ), (avg xs).map (roundTo 2) = some r →
      xs ≠ [] ∧ (∃ k : Int, r = toDouble ((k : ℚ) / 100)) ∧
      |r - xs.sum / xs.length| ≤ 1 / 200 + (|xs.sum / xs.length| + 1) / 2 ^ 50) ∧
    (∀ (xs : List ℚ) (a : ℚ), avg xs = some a →
      xs ≠ [] ∧ a = toDouble (toDouble xs.sum / xs.length) ∧
      |a - xs.sum / xs.length| ≤ |xs.sum / xs.length| / 2 ^ 51) ∧
    (∀ xs : List ℚ, avg xs = none ↔ xs = []) := by
  refine ⟨?_, fun w => cohort_means env s w, ?_, ?_,
    fun _ => ⟨_, moodStatsHandler_eq q env s reqUser, rfl, rfl⟩, ?_, ?_, ?_⟩
  · intro hv ho
    obtain ⟨-, hmood, hstress, -, -⟩ :=
      dashboardResult_summary (timeframeOr q 30) s reqUser._id
        (startDate env (timeframeOr q 30))
    exact ⟨_, dashboardHandler_ok q env s reqUser hv ho, hmood, hstress⟩
  · intro start c hc
    have h := color_means s reqUser._id start c hc
    simpa only [unwindColors, matchColored, matchOwn, List.filter_filter,
      Bool.decide_and, Bool.and_comm] using h
  · intro start e he huid hstart k hk
    have hrow : (k, e.entry.mood.scale) ∈ unwindColors (matchColored s reqUser._id start) := by
      unfold unwindColors matchColored matchOwn
      rw [List.mem_flatMap]
      refine ⟨e, ?_, List.mem_map.mpr ⟨k, hk, rfl⟩⟩
      rw [List.mem_filter, List.mem_filter]
      refine ⟨⟨he, by simp [huid, hstart]⟩, ?_⟩
      simp only [decide_eq_true_eq]
      exact List.ne_nil_of_mem hk
    have hkey : k.color ∈
        ((unwindColors (matchColored s reqUser._id start)).map (fun r => r.1.color)).dedup :=
      List.mem_dedup.mpr (List.mem_map.mpr ⟨_, hrow, rfl⟩)
    obtain ⟨g, hg, hgc⟩ : ∃ g ∈ groupColors (unwindColors (matchColored s reqUser._id start)),
        g.color = k.color := by
      unfold groupColors
      exact ⟨_, List.mem_map.mpr ⟨k.color, hkey, rfl⟩, rfl⟩
    refine ⟨colorProject g, ?_, hgc⟩
    unfold colorAggregate sortByFrequency
    exact List.mem_map.mpr ⟨g, (List.perm_insertionSort _ _).mem_iff.mpr hg, rfl⟩
  · intro xs r h
    obtain ⟨hne, hnear⟩ := rounded_mean_near xs r h
    refine ⟨hne, ?_, hnear⟩
    cases ha : avg xs with
    | none => rw [ha] at h; cases h
    | some a =>
      rw [ha] at h
      simp only [Option.map_some', Option.some.injEq] at h
      obtain ⟨k, hk, -⟩ := roundTo_two_hundredths a
      exact ⟨k, by rw [← h, hk]⟩
  · intro xs a h
    obtain ⟨hne, hnear⟩ := avg_near xs a h
    refine ⟨hne, ?_, hnear⟩
    unfold avg at h
    split_ifs at h with he
    simpa using h.symm
  · intro xs
    unfold avg
    cases xs <;> simp

/-- C20 (amended) on `thirdsStore` with its user opted in: the dashboard reports the
mean mood of the scales 1, 1 and 2 as the double nearest to 1.33. -/
theorem averaged_fields_rounding_witness :
    ∃ d, dashboardHandler none marchEnv thirdsStore optedInUser = .ok d ∧
      d.summary.avgMood = some (toDouble (133 / 100)) := by
  obtain ⟨d, hd, hmood, -⟩ :=
    (averaged_fields_rounding none marchEnv thirdsStore optedInUser).1 rfl rfl
  refine ⟨d, hd, ?_⟩
  rw [hmood]
  with_unfolding_all rfl

/-! ### The consent gate and the account status -/

/-- C30. The decision of the consent gate depends on the user's `consentDate` and the
clock reading only: two users with the same `consentDate` get the same decision,
whatever their `accountStatus` (and every other field). So a stored user whose
account is `deleted` or `suspended` and whose consent is at most 365 days old passes
`auth` and `requireConsent` on every data-bearing route, and the route's handler
runs on that user's document. -/
theorem consent_gate_ignores_account_status (now : Int) (u1 u2 : User)
    (hdate : u1.consentDate = u2.consentDate) :
    requireConsent now (some u1) = requireConsent now (some u2) ∧
    (∀ st : AccountStatus,
      requireConsent now (some { u1 with accountStatus := st }) =
        requireConsent now (some u1)) ∧
    (∀ (α : Type) (env : Env) (s : Store) (req : Request) (r : Route) (h : Handler α)
      (c : Claims) (u : User) (d : Int),
      u.accountStatus ≠ AccountStatus.active →
      r ∈ dataBearingRoutes → req.token = .ok c → User.findOne s c.sub = some u →
      u.consentDate = some d → env.now - d ≤ maxConsentAge →
      env.rejectsUser { u with lastActive := env.now } = false →
      serve env s req r h =
        h env (s.putUser { u with lastActive := env.now })
          { req with user := some (.doc { u with lastActive := env.now }) }) := by
  refine ⟨?_, fun _ => rfl, ?_⟩
  · simp only [requireConsent, hdate]
  · intro α env s req r h c u d _ hr htok hu hd hfresh hstored
    exact serve_past_gate env s req r h c u d hr htok hu hd hfresh hstored

/-- C30 on `deletedStore`: the anonymized account, whose consent is of the same day,
is answered its mood statistics. -/
theorem consent_gate_ignores_account_status_witness :
    requireConsent marchEnv.now (some deletedUser) =
        requireConsent marchEnv.now (some thirtyDayUser) ∧
      requireConsent marchEnv.now (some deletedUser) = Gate.next ∧
      serve marchEnv deletedStore tokenRequest Route.journalMoodStats (moodStatsRoute none) =
        moodStatsRoute none marchEnv
          (deletedStore.putUser { deletedUser with lastActive := marchEnv.now })
          { tokenRequest with
            user := some (.doc { deletedUser with lastActive := marchEnv.now }) } :=
  have h := consent_gate_ignores_account_status marchEnv.now deletedUser thirtyDayUser rfl
  ⟨h.1, by decide,
   h.2.2 MoodStatsReply marchEnv deletedStore tokenRequest Route.journalMoodStats
     (moodStatsRoute none) claimsA deletedUser 1709985600000 (by decide) (by decide) rfl
     (by decide) rfl (by decide) rfl⟩

/-! ### The cohort statistics -/

/-- The stage `$match` of the cohort aggregation selects the entries that are shared
anonymously and were created at or after the window start. -/
theorem matchCohort_eq (s : Store) (start : Int) :
    matchCohort s start =
      s.entries.filter (fun e => e.privacy.anonymousSharing = true ∧ start ≤ e.createdAt) := by
  unfold matchCohort cohortMatches
  apply List.filter_congr
  intro e _
  by_cases h1 : start ≤ e.createdAt <;> cases h2 : e.privacy.anonymousSharing <;> simp [h1, h2]

/-- Everything the cohort aggregation computes from the matched documents is
computed from their triples. -/
theorem cohort_reads_triples (d1 d2 : List JournalEntry)
    (h : d1.map cohortTriple = d2.map cohortTriple) :
    moodScales d1 = moodScales d2 ∧ stressLevels d1 = stressLevels d2 ∧
    d1.map (fun e => ({ date := e.createdAt, mood := e.entry.mood.scale,
                        stress := e.entry.context.stressLevel } : CohortPoint)) =
      d2.map (fun e => ({ date := e.createdAt, mood := e.entry.mood.scale,
                          stress := e.entry.context.stressLevel } : CohortPoint)) ∧
    d1.length = d2.length ∧ d1.isEmpty = d2.isEmpty := by
  have hlen : d1.length = d2.length := by
    have := congrArg List.length h
    simpa using this
  have hmood : moodScales d1 = moodScales d2 := by
    have := congrArg (List.map (fun t : Int × Int × Option Int => (t.2.1 : ℚ))) h
    simpa [moodScales, List.map_map, Function.comp, cohortTriple] using this
  have hstress : stressLevels d1 = stressLevels d2 := by
    have := congrArg
      (List.filterMap (fun t : Int × Int × Option Int => t.2.2.map (fun n => (n : ℚ)))) h
    simpa [stressLevels, List.filterMap_map, Function.comp, cohortTriple] using this
  have htrend := congrArg
    (List.map (fun t : Int × Int × Option Int =>
      ({ date := t.1, mood := t.2.1, stress := t.2.2 } : CohortPoint))) h
  simp only [List.map_map, Function.comp, cohortTriple] at htrend
  refine ⟨hmood, hstress, htrend, hlen, ?_⟩
  cases d1 <;> cases d2 <;> simp_all

/-- The result of `getAnonymizedStats`, in terms of the matched documents. -/
theorem getAnonymizedStats_eq (env : Env) (s : Store) (w : Int) :
    JournalEntry.getAnonymizedStats env s w =
      if (matchCohort s (startDate env w)).isEmpty then []
      else
        [ { avgMood := roundAvg 2 (avg (moodScales (matchCohort s (startDate env w))))
            avgStress := roundAvg 2 (avg (stressLevels (matchCohort s (startDate env w))))
            totalEntries := (matchCohort s (startDate env w)).length
            moodTrends := (matchCohort s (startDate env w)).map (fun e =>
              { date := e.createdAt, mood := e.entry.mood.scale,
                stress := e.entry.context.stressLevel }) } ] := rfl

/-- Two stores whose matched documents have the same triples get the same cohort
statistics. -/
theorem cohort_stats_of_triples (env1 env2 : Env) (s1 s2 : Store) (w1 w2 : Int)
    (h : (matchCohort s1 (startDate env1 w1)).map cohortTriple =
      (matchCohort s2 (startDate env2 w2)).map cohortTriple) :
    JournalEntry.getAnonymizedStats env1 s1 w1 = JournalEntry.getAnonymizedStats env2 s2 w2 := by
  obtain ⟨h1, h2, h3, h4, h5⟩ := cohort_reads_triples _ _ h
  rw [getAnonymizedStats_eq, getAnonymizedStats_eq, h1, h2, h3, h4, h5]

/-- C21. The cohort aggregation over a window draws from exactly the entries with
`privacy.anonymousSharing = true` created at or after the window start: the result
is the same for every collection of users and is unchanged when `shareWithCounselor`
(or `isPrivate`) of any entry changes; `totalEntries` is the number of those entries
and the means are taken over them (in double precision, rounded to two places, so
within half a hundredth and the representation error of doubles of their exact
means). When no entry qualifies the reply is the no-data result (the message, with
`stats: null`), neither an error nor a summary filled with zeroes. The window
parameter is one within the range of doubles and dates. -/
theorem cohort_draws_from_shared_entries (timeframe : Option String) (env : Env) (s : Store)
    (_hwindow : WindowReadable env timeframe) :
    matchCohort s (startDate env (timeframeOr timeframe 30)) =
      s.entries.filter (fun e =>
        e.privacy.anonymousSharing = true ∧
          startDate env (timeframeOr timeframe 30) ≤ e.createdAt) ∧
    (∀ users, anonymousHandler timeframe env { s with users := users } =
      anonymousHandler timeframe env s) ∧
    (∀ f g : JournalEntry → Bool,
      anonymousHandler timeframe env
        { s with entries := s.entries.map (fun e =>
            { e with privacy := { e.privacy with shareWithCounselor := f e,
                                                  isPrivate := g e } }) } =
      anonymousHandler timeframe env s) ∧
    (s.entries.filter (fun e =>
        e.privacy.anonymousSharing = true ∧
          startDate env (timeframeOr timeframe 30) ≤ e.createdAt) = [] →
      anonymousHandler timeframe env s =
        { message := some "No anonymized data available", campusStats := none,
          timeframe := timeframeOr timeframe 30, disclaimer := none }) ∧
    (s.entries.filter (fun e =>
        e.privacy.anonymousSharing = true ∧
          startDate env (timeframeOr timeframe 30) ≤ e.createdAt) ≠ [] →
      ∃ stats, (anonymousHandler timeframe env s).campusStats = some stats ∧
        (anonymousHandler timeframe env s).message = none ∧
        stats.totalEntries =
          (s.entries.filter (fun e =>
            e.privacy.anonymousSharing = true ∧
              startDate env (timeframeOr timeframe 30) ≤ e.createdAt)).length ∧
        0 < stats.totalEntries ∧
        stats.avgMood =
          (avg ((s.entries.filter (fun e =>
              e.privacy.anonymousSharing = true ∧
                startDate env (timeframeOr timeframe 30) ≤ e.createdAt)).map
            (fun e => (e.entry.mood.scale : ℚ)))).map (roundTo 2) ∧
        stats.avgStress =
          (avg ((s.entries.filter (fun e =>
              e.privacy.anonymousSharing = true ∧
                startDate env (timeframeOr timeframe 30) ≤ e.createdAt)).filterMap
            (fun e => e.entry.context.stressLevel.map (fun n => (n : ℚ))))).map
            (roundTo 2) ∧
        (∃ m, stats.avgMood = some m ∧
          |m - ((s.entries.filter (fun e =>
                e.privacy.anonymousSharing = true ∧
                  startDate env (timeframeOr timeframe 30) ≤ e.createdAt)).map
              (fun e => (e.entry.mood.scale : ℚ))).sum /
              (s.entries.filter (fun e =>
                e.privacy.anonymousSharing = true ∧
                  startDate env (timeframeOr timeframe 30) ≤ e.createdAt)).length|
            ≤ 1 / 200 + (|((s.entries.filter (fun e =>
                e.privacy.anonymousSharing = true ∧
                  startDate env (timeframeOr timeframe 30) ≤ e.createdAt)).map
              (fun e => (e.entry.mood.scale : ℚ))).sum /
              (s.entries.filter (fun e =>
                e.privacy.anonymousSharing = true ∧
                  startDate env (timeframeOr timeframe 30) ≤ e.createdAt)).length| + 1)
                / 2 ^ 50)) ∧
    (anonymousRoute timeframe env s { token := .error "", user := none }).1 =
      .ok (anonymousHandler timeframe env s) := by
  rw [← matchCohort_eq s (startDate env (timeframeOr timeframe 30))]
  refine ⟨rfl, fun _ => rfl, ?_, ?_, ?_, rfl⟩
  · intro f g
    have hstats : JournalEntry.getAnonymizedStats env
        { s with entries := s.entries.map (fun e =>
            { e with privacy := { e.privacy with shareWithCounselor := f e,
                                                  isPrivate := g e } }) }
        (timeframeOr timeframe 30) =
        JournalEntry.getAnonymizedStats env s (timeframeOr timeframe 30) := by
      apply cohort_stats_of_triples
      simp only [matchCohort, List.filter_map, List.map_map]
      rfl
    unfold anonymousHandler
    rw [hstats]
  · intro hnil
    unfold anonymousHandler
    rw [getAnonymizedStats_eq, hnil]
    rfl
  · intro hne
    obtain ⟨e, es, hdocs⟩ := List.exists_cons_of_ne_nil hne
    unfold anonymousHandler
    rw [getAnonymizedStats_eq, hdocs]
    refine ⟨_, rfl, rfl, rfl, by simp, rfl, rfl, ?_⟩
    cases hm : (avg (moodScales (e :: es))).map (roundTo 2) with
    | none =>
      exfalso
      simp [avg, moodScales] at hm
    | some m =>
      refine ⟨m, hm, ?_⟩
      have h := (rounded_mean_near _ m hm).2
      simpa [moodScales] using h

/-- C21 on two stores: `entryStore`, whose entry (mood scale 3, stress level 4) is
shared anonymously by a user who has opted in to nothing, is counted; the store
without entries gets the no-data result. -/
theorem cohort_draws_from_shared_entries_witness :
    (∃ stats, (anonymousHandler none marchEnv entryStore).campusStats = some stats ∧
        (anonymousHandler none marchEnv entryStore).message = none ∧
        stats.totalEntries = 1 ∧ stats.avgMood = some 3 ∧ stats.avgStress = some 4) ∧
      anonymousHandler none marchEnv thirtyDayStore =
        { message := some "No anonymized data available", campusStats := none,
          timeframe := 30, disclaimer := none } := by
  obtain ⟨stats, h1, h2, h3, -, h5, h6, -⟩ :=
    (cohort_draws_from_shared_entries none marchEnv entryStore
      (fun _ _ h => nomatch h)).2.2.2.2.1 (by decide)
  refine ⟨⟨stats, h1, h2, ?_, ?_, ?_⟩,
    (cohort_draws_from_shared_entries none marchEnv thirtyDayStore
      (fun _ _ h => nomatch h)).2.2.2.1 (by decide)⟩
  · rw [h3]; decide
  · rw [h5]; with_unfolding_all rfl
  · rw [h6]; with_unfolding_all rfl

/-- C22. The cohort statistics expose nothing of an entry beyond `createdAt`, the mood
scale and the stress level: two stores whose anonymously shared entries of the window
have the same list of such triples get the same result of `getAnonymizedStats` and
the same reply of the cohort route, however those entries differ in owner, content,
tags, colours, location, prompts or the other privacy flags, however the entries
that are not shared differ, and whoever the users are. -/
theorem cohort_exposes_triples_only (timeframe : Option String) (env : Env) (s1 s2 : Store)
    (h : cohortTriples s1 (startDate env (timeframeOr timeframe 30)) =
      cohortTriples s2 (startDate env (timeframeOr timeframe 30))) :
    JournalEntry.getAnonymizedStats env s1 (timeframeOr timeframe 30) =
      JournalEntry.getAnonymizedStats env s2 (timeframeOr timeframe 30) ∧
    anonymousHandler timeframe env s1 = anonymousHandler timeframe env s2 ∧
    (∀ req1 req2 : Request,
      (anonymousRoute timeframe env s1 req1).1 = (anonymousRoute timeframe env s2 req2).1) := by
  have hstats : JournalEntry.getAnonymizedStats env s1 (timeframeOr timeframe 30) =
      JournalEntry.getAnonymizedStats env s2 (timeframeOr timeframe 30) := by
    apply cohort_stats_of_triples
    rw [matchCohort_eq, matchCohort_eq]
    exact h
  have hreply : anonymousHandler timeframe env s1 = anonymousHandler timeframe env s2 := by
    unfold anonymousHandler
    rw [hstats]
  refine ⟨hstats, hreply, ?_⟩
  intro req1 req2
  simp only [anonymousRoute, hreply]

/-- C22 on `entryStore` and `disguisedStore`, which share the one triple
(2024-03-09 12:00, 3, 4). -/
theorem cohort_exposes_triples_only_witness :
    cohortTriples entryStore (startDate marchEnv 30) = [(1709985600000, 3, some 4)] ∧
      cohortTriples disguisedStore (startDate marchEnv 30) = [(1709985600000, 3, some 4)] ∧
      anonymousHandler none marchEnv entryStore = anonymousHandler none marchEnv disguisedStore :=
  ⟨by decide, by decide,
   (cohort_exposes_triples_only none marchEnv entryStore disguisedStore (by decide)).2.1⟩

/-! ### The window of the personal statistics -/

/-- C23 (as stated, refuted): the journal mood statistics accept a window of 3 days
and one of 1000 days and use them as given, and answer a window that is not a number
with the 30-day statistics instead of a validation error. -/
theorem mood_statistics_window_unbounded :
    (serve marchEnv entryStore tokenRequest Route.journalMoodStats
        (moodStatsRoute (some "3"))).1 =
      .ok { stats := { avgMood := some 3, avgStress := some 4, totalEntries := 1,
                       moodTrend := [{ date := 19791, mood := 3, stress := some 4 }] },
            timeframe := 3 } ∧
    (serve marchEnv entryStore tokenRequest Route.journalMoodStats
        (moodStatsRoute (some "1000"))).1 =
      .ok { stats := { avgMood := some 3, avgStress := some 4, totalEntries := 1,
                       moodTrend := [{ date := 19791, mood := 3, stress := some 4 }] },
            timeframe := 1000 } ∧
    (serve marchEnv entryStore tokenRequest Route.journalMoodStats
        (moodStatsRoute (some "week"))).1 =
      .ok { stats := { avgMood := some 3, avgStress := some 4, totalEntries := 1,
                       moodTrend := [{ date := 19791, mood := 3, stress := some 4 }] },
            timeframe := 30 } := by
  refine ⟨by with_unfolding_all rfl, by with_unfolding_all rfl, by with_unfolding_all rfl⟩

/-- C23 (amended): the window of the dashboard is 30 days when `timeframe` is absent
and is bounded to [7, 365]: a `timeframe` that is not an integer numeral between 7
and 365 is answered the validation error (status 400) whatever the store holds, and
an accepted one is the window used. The journal mood statistics have no validator:
`days` is read by `parseInt`, absent, not a number or 0 gives the statistics of 30
days, and any other integer, below 7, above 365 or negative, is the window used and
echoed, as far as its magnitude is below `2 ^ 53` (where the double that `parseInt`
returns is the integer read) and the window start it gives is a time value of a
`Date` (at most 8.64e15 ms from the epoch); in none of these cases is the reply an
error. -/
theorem statistics_window_bounds (q : Option String) (env : Env) (s : Store) (reqUser : User) :
    (q = none → reqUser.privacySettings.analyticsOptIn = true →
      ∃ d, dashboardHandler q env s reqUser = .ok d ∧ d.timeframe = 30) ∧
    (∀ t, q = some t → (¬ ∃ n : Int, plainInt? t = some n ∧ 7 ≤ n ∧ n ≤ 365) →
      dashboardHandler q env s reqUser = .error (validationError ["timeframe"]) ∧
      (validationError ["timeframe"]).status = 400) ∧
    (∀ t (n : Int), q = some t → plainInt? t = some n → 7 ≤ n → n ≤ 365 →
      reqUser.privacySettings.analyticsOptIn = true →
      ∃ d, dashboardHandler q env s reqUser = .ok d ∧ d.timeframe = n) ∧
    (q = none ∨ (∃ t, q = some t ∧ (parseInt t = none ∨ parseInt t = some 0)) →
      ∃ r, moodStatsHandler q env s reqUser = .ok r ∧ r.timeframe = 30 ∧
        r.stats.totalEntries =
          (s.entries.filter (fun e =>
            e.userId = reqUser._id ∧ startDate env 30 ≤ e.createdAt)).length) ∧
    (∀ t (n : Int), q = some t → parseInt t = some n → n ≠ 0 → |n| < 2 ^ 53 →
      |startDate env n| ≤ 8640000000000000 →
      toDouble (n : ℚ) = n ∧
      ∃ r, moodStatsHandler q env s reqUser = .ok r ∧ r.timeframe = n ∧
        r.stats.totalEntries =
          (s.entries.filter (fun e =>
            e.userId = reqUser._id ∧ startDate env n ≤ e.createdAt)).length) := by
  refine ⟨?_, ?_, ?_, ?_, ?_⟩
  · intro hq ho
    subst hq
    exact ⟨_, dashboardHandler_ok none env s reqUser rfl ho, rfl⟩
  · intro t hq hbad
    subst hq
    have hfalse : isInt 7 365 (.str t) = false := (isInt_false_iff 7 365 (.str t)).mpr hbad
    refine ⟨?_, rfl⟩
    simp [dashboardHandler, dashboardErrors, hfalse]
  · intro t n hq hn h7 h365 ho
    subst hq
    have htrue : isInt 7 365 (.str t) = true := by
      simp [isInt, JsVal.asInt?, hn, h7, h365]
    have hv : dashboardErrors (some t) = [] := by simp [dashboardErrors, htrue]
    obtain ⟨m, hm, -, -, hw⟩ := validated_timeframe t htrue
    rw [hn] at hm
    cases hm
    exact ⟨_, dashboardHandler_ok (some t) env s reqUser hv ho, hw⟩
  · intro hq
    have h30 : timeframeOr q 30 = 30 := by
      rcases hq with hq | ⟨t, hq, hp | hp⟩
      · subst hq; rfl
      · subst hq; simp [timeframeOr, hp]
      · subst hq; simp [timeframeOr, hp]
    refine ⟨_, moodStatsHandler_eq q env s reqUser, h30, ?_⟩
    show (matchOwn s reqUser._id (startDate env (timeframeOr q 30))).length = _
    rw [h30]
    rfl
  · intro t n hq hp hn hb _
    subst hq
    have hw : timeframeOr (some t) 30 = n := by simp [timeframeOr, hp, hn]
    refine ⟨toDouble_int n hb, _, moodStatsHandler_eq (some t) env s reqUser, hw, ?_⟩
    show (matchOwn s reqUser._id (startDate env (timeframeOr (some t) 30))).length = _
    rw [hw]
    rfl

/-- C23 (amended) on concrete queries: the dashboard rejects `timeframe=3` and uses
`timeframe=90`; the mood statistics use `days=3`. -/
theorem statistics_window_bounds_witness :
    dashboardHandler (some "3") marchEnv optedInStore optedInUser =
        .error (validationError ["timeframe"]) ∧
      (∃ d, dashboardHandler (some "90") marchEnv optedInStore optedInUser = .ok d ∧
        d.timeframe = 90) ∧
      (∃ r, moodStatsHandler (some "3") marchEnv optedInStore optedInUser = .ok r ∧
        r.timeframe = 3) := by
  refine ⟨?_, ?_, ?_⟩
  · have hbad : ¬ ∃ n : Int, plainInt? "3" = some n ∧ 7 ≤ n ∧ n ≤ 365 := by
      rintro ⟨n, hn, h7, -⟩
      have h3 : plainInt? "3" = some 3 := by decide
      rw [h3] at hn
      cases hn
      omega
    exact ((statistics_window_bounds (some "3") marchEnv optedInStore optedInUser).2.1 "3" rfl
      hbad).1
  · exact (statistics_window_bounds (some "90") marchEnv optedInStore optedInUser).2.2.1
      "90" 90 rfl (by decide) (by decide) (by decide) rfl
  · obtain ⟨-, r, hr, htf, -⟩ :=
      (statistics_window_bounds (some "3") marchEnv optedInStore optedInUser).2.2.2.2
        "3" 3 rfl (by decide) (by decide) (by decide) (by decide)
    exact ⟨r, hr, htf⟩

/-! ### Creating and updating entries -/

/-- The expiry hook changes `expiresAt` only. -/
theorem preSave_fields (env : Env) (s : Store) (isNew : Bool) (e : JournalEntry) :
    (JournalEntry.preSave env s isNew e).privacy = e.privacy ∧
    (JournalEntry.preSave env s isNew e).userId = e.userId ∧
    (JournalEntry.preSave env s isNew e)._id = e._id ∧
    (JournalEntry.preSave env s isNew e).entry = e.entry ∧
    (JournalEntry.preSave env s isNew e).analytics = e.analytics ∧
    (JournalEntry.preSave env s isNew e).createdAt = e.createdAt := by
  unfold JournalEntry.preSave
  split
  · split
    · exact ⟨rfl, rfl, rfl, rfl, rfl, rfl⟩
    · split
      · split <;> exact ⟨rfl, rfl, rfl, rfl, rfl, rfl⟩
      · exact ⟨rfl, rfl, rfl, rfl, rfl, rfl⟩
  · exact ⟨rfl, rfl, rfl, rfl, rfl, rfl⟩

/-- The document a successful `save` of a new entry stores. -/
theorem entry_save_new {env : Env} {s s1 : Store} {e e1 : JournalEntry}
    (h : JournalEntry.save env s true e = some (e1, s1)) :
    s1 = s.addEntry e1 ∧ e1 ∈ s1.entries ∧ e1.privacy = e.privacy ∧ e1.userId = e.userId ∧
    e1.entry = e.entry ∧ e1.analytics = e.analytics ∧ e1._id = s.nextId ∧
    e1.createdAt = env.now := by
  have hs := (entry_save_some h).2.2 rfl
  unfold JournalEntry.save at h
  simp only [if_true] at h
  split at h
  · cases h
  · simp only [Option.some.injEq, Prod.mk.injEq] at h
    obtain ⟨he, -⟩ := h
    obtain ⟨h1, h2, h3, h4, h5, h6⟩ := preSave_fields env s true
      { e with _id := s.nextId, createdAt := env.now }
    rw [he] at h1 h2 h3 h4 h5 h6
    refine ⟨hs, ?_, h1, h2, h4, h5, h3, h6⟩
    rw [hs]
    simp [Store.addEntry]

/-- C26 (as stated, refuted): on a server whose emit raises, a valid create request
that shares the entry anonymously is answered 500 "Error creating journal entry",
not the success reply, although the entry has been stored. -/
theorem broadcast_failure_fails_the_request :
    (createEntryHandler sharingBody relayDownEnv thirtyDayStore thirtyDayUser).1 =
        .error (serverError "Error creating journal entry") ∧
      (serverError "Error creating journal entry").status = 500 ∧
      ((createEntryHandler sharingBody relayDownEnv thirtyDayStore thirtyDayUser).2.entries.map
        (fun e => (e.userId, e.entry.content, e.privacy.anonymousSharing))) =
        [(0, "today", true)] := by
  refine ⟨by decide, rfl, by decide⟩

/-- C26 (amended): a valid create request that shares the entry anonymously and whose
`save` succeeds stores the entry before the event is emitted, and the entry stays
stored whatever the emit does: the store the handler leaves is the store after the
save. The reply is the success reply when the emit returns; when the emit raises,
the handler's `catch` answers 500 "Error creating journal entry". -/
theorem broadcast_after_commit (b : JournalBody) (env : Env) (s s1 : Store) (reqUser : User)
    (content : String) (mood : MoodInput) (scale : Int) (e : JournalEntry)
    (hvalid : createErrors b = []) (hc : b.content = some content) (hm : b.mood = some mood)
    (hs : mood.scale = some scale)
    (hshare : (b.privacy.bind (fun x => x.anonymousSharing)).getD false = true)
    (hsave : JournalEntry.save env s true (newEntry reqUser content mood scale b)
      = some (e, s1)) :
    e.privacy.anonymousSharing = true ∧ e.userId = reqUser._id ∧
    s1 = s.addEntry e ∧ e ∈ s1.entries ∧
    (createEntryHandler b env s reqUser).2 = s1 ∧
    (env.relayRaises = false → (createEntryHandler b env s reqUser).1 = .ok e) ∧
    (env.relayRaises = true →
      (createEntryHandler b env s reqUser).1 =
        .error (serverError "Error creating journal entry")) := by
  obtain ⟨hs1, hmem, hpriv, huid, -⟩ := entry_save_new hsave
  have hanon : e.privacy.anonymousSharing = true := by
    rw [hpriv]
    exact hshare
  have hhandler : createEntryHandler b env s reqUser =
      if env.relayRaises then (.error (serverError "Error creating journal entry"), s1)
      else (.ok e, s1) := by
    unfold createEntryHandler
    simp only [hvalid, ne_eq, not_true_eq_false, if_false, hc, hm, hs, hsave, hanon,
      Bool.true_and]
  refine ⟨hanon, huid, hs1, hmem, ?_, ?_, ?_⟩
  · rw [hhandler]; split <;> rfl
  · intro h; rw [hhandler, h]; rfl
  · intro h; rw [hhandler, h]; rfl

/-- C26 (amended) on the server whose emit raises: the entry `createdSharing` is
stored and the reply is the 500. -/
theorem broadcast_after_commit_witness :
    (createEntryHandler sharingBody relayDownEnv thirtyDayStore thirtyDayUser).2 =
        thirtyDayStore.addEntry createdSharing ∧
      createdSharing ∈ (thirtyDayStore.addEntry createdSharing).entries ∧
      (createEntryHandler sharingBody relayDownEnv thirtyDayStore thirtyDayUser).1 =
        .error (serverError "Error creating journal entry") :=
  have h := broadcast_after_commit sharingBody relayDownEnv thirtyDayStore
    (thirtyDayStore.addEntry createdSharing) thirtyDayUser "today"
    { scale := some 3, tags := none, colors := none } 3 createdSharing (by decide) rfl rfl rfl
    rfl (by decide)
  ⟨h.2.2.2.2.1, h.2.2.2.1, h.2.2.2.2.2.2 rfl⟩

/-- What a successful update did: the caller's entry with the id was found, the
assignments of the handler were applied to it, and the result replaced it. -/
theorem updateEntryHandler_ok {id : Nat} {b : JournalBody} {env : Env} {s s1 : Store}
    {reqUser : User} {saved : JournalEntry}
    (h : updateEntryHandler id b env s reqUser = (.ok saved, s1)) :
    ∃ entry, JournalEntry.findOne s id reqUser._id = some entry ∧
      saved = applyUpdate b entry ∧ s1 = s.putEntry saved := by
  unfold updateEntryHandler at h
  split at h
  · cases h
  · dsimp only at h
    split at h
    · cases h
    · next entry hfind =>
      split at h
      · next e1 s2 hsave =>
        obtain ⟨-, hput, -⟩ := entry_save_some hsave
        obtain ⟨he, hs⟩ := hput rfl
        simp only [Prod.mk.injEq, Except.ok.injEq] at h
        obtain ⟨h1, h2⟩ := h
        subst h1 h2
        exact ⟨entry, hfind, he, by rw [hs, he]⟩
      · cases h

/-- C25. A successful journal update stores the entry with `analytics.editCount` one
above its stored value (1 when the stored count was absent), also for a body without
any field, which changes nothing else; the `userId` of the entry is unchanged, and it
is the caller's. In a store with unique ids the update changes the `userId` of no
entry. An entry is created with the `userId` of the creating caller. -/
theorem update_counts_one_edit (id : Nat) (b : JournalBody) (env : Env) (s s1 : Store)
    (reqUser : User) (saved : JournalEntry)
    (h : updateEntryHandler id b env s reqUser = (.ok saved, s1)) :
    ∃ entry, JournalEntry.findOne s id reqUser._id = some entry ∧ entry ∈ s.entries ∧
      saved.analytics.editCount = some (entry.analytics.editCount.getD 0 + 1) ∧
      (entry.analytics.editCount = none → saved.analytics.editCount = some 1) ∧
      (∀ n, entry.analytics.editCount = some n → saved.analytics.editCount = some (n + 1)) ∧
      saved.userId = entry.userId ∧ saved.userId = reqUser._id ∧ saved._id = entry._id ∧
      s1 = s.putEntry saved ∧ saved ∈ s1.entries ∧
      (s.WellFormed →
        s1.entries.map (fun e => (e._id, e.userId)) =
          s.entries.map (fun e => (e._id, e.userId))) ∧
      applyUpdate emptyJournalBody entry =
        { entry with
          analytics := { entry.analytics with
                         editCount := some (entry.analytics.editCount.getD 0 + 1) } } ∧
      (∀ (b1 : JournalBody) (e1 : JournalEntry) (s2 : Store),
        createEntryHandler b1 env s reqUser = (.ok e1, s2) → e1.userId = reqUser._id) := by
  obtain ⟨entry, hfind, hsaved, hs1⟩ := updateEntryHandler_ok h
  obtain ⟨hmem, hid, huid⟩ := entry_findOne_mem hfind
  subst hsaved
  have hsid : (applyUpdate b entry)._id = entry._id := rfl
  refine ⟨entry, hfind, hmem, rfl, ?_, ?_, rfl, huid, rfl, hs1, ?_, ?_, rfl, ?_⟩
  · intro hnone
    show some (entry.analytics.editCount.getD 0 + 1) = some 1
    rw [hnone]; rfl
  · intro n hn
    show some (entry.analytics.editCount.getD 0 + 1) = some (n + 1)
    rw [hn]; rfl
  · rw [hs1]
    simp only [Store.putEntry, List.mem_map]
    exact ⟨entry, hmem, by simp [hsid]⟩
  · intro hwf
    rw [hs1]
    simp only [Store.putEntry, List.map_map]
    apply List.map_congr_left
    intro x hx
    by_cases hxi : x._id = (applyUpdate b entry)._id
    · have : x = entry := entry_eq_of_id_eq hwf.2.2.1 hx hmem (hxi.trans hsid)
      subst this
      simp [hxi]
      rfl
    · simp [hxi]
  · intro b1 e1 s2 hcreate
    unfold createEntryHandler at hcreate
    split at hcreate
    · cases hcreate
    · split at hcreate
      · split at hcreate
        · split at hcreate
          · next e2 s3 hsave =>
            obtain ⟨-, -, -, huid2, -⟩ := entry_save_new hsave
            split at hcreate
            · cases hcreate
            · simp only [Prod.mk.injEq, Except.ok.injEq] at hcreate
              rw [← hcreate.1, huid2]
              rfl
          · cases hcreate
        · cases hcreate
      · cases hcreate

/-- C25 on `entryStore`: an update with an empty body raises the count of the stored
entry from 0 to 1 and keeps its owner. -/
theorem update_counts_one_edit_witness :
    ∃ entry, JournalEntry.findOne entryStore 1 thirtyDayUser._id = some entry ∧
      (applyUpdate emptyJournalBody storedEntry).analytics.editCount =
        some (entry.analytics.editCount.getD 0 + 1) ∧
      (applyUpdate emptyJournalBody storedEntry).analytics.editCount = some 1 ∧
      (applyUpdate emptyJournalBody storedEntry).userId = thirtyDayUser._id := by
  obtain ⟨entry, hfind, -, hcount, -, -, -, huid, -⟩ :=
    update_counts_one_edit 1 emptyJournalBody marchEnv entryStore
      (entryStore.putEntry (applyUpdate emptyJournalBody storedEntry)) thirtyDayUser
      (applyUpdate emptyJournalBody storedEntry) (by decide)
  exact ⟨entry, hfind, hcount, by decide, huid⟩

/-! ### Trend lists and frequency tables -/

/-- C28 (as stated, refuted): the three entries of `newestFirstStore` lie in the
window and are read newest first; the trend of the dashboard and the trend of the
mood statistics list them in that order, by decreasing date. -/
theorem trend_not_chronological :
    (∃ d, dashboardHandler none marchEnv newestFirstStore optedInUser = .ok d ∧
      d.insights.moodTrend =
        [{ date := 19791, mood := 5, stress := none }, { date := 19790, mood := 6, stress := none },
         { date := 19789, mood := 7, stress := none }]) ∧
    (∃ r, moodStatsHandler none marchEnv newestFirstStore optedInUser = .ok r ∧
      r.stats.moodTrend =
        [{ date := 19791, mood := 5, stress := none }, { date := 19790, mood := 6, stress := none },
         { date := 19789, mood := 7, stress := none }]) ∧
    ¬ List.Pairwise (fun a b : Int => a ≤ b) [19791, 19790, 19789] := by
  refine ⟨⟨_, dashboardHandler_ok none marchEnv newestFirstStore optedInUser rfl rfl, ?_⟩,
    ⟨_, moodStatsHandler_eq none marchEnv newestFirstStore optedInUser, ?_⟩, by decide⟩
  · rw [(dashboardResult_summary _ _ _ _).2.2.2.1]
    decide
  · decide

/-- C28 (amended): the trend list of the dashboard and of the journal mood statistics
has one `{date, mood, stress}` item for each entry of the caller in the window, in
the order in which the aggregation reads those entries; no stage sorts them. The
list is by non-decreasing date when the entries are read by non-decreasing
`createdAt`. -/
theorem trend_follows_read_order (q : Option String) (env : Env) (s : Store) (reqUser : User) :
    (dashboardErrors q = [] → reqUser.privacySettings.analyticsOptIn = true →
      ∃ d, dashboardHandler q env s reqUser = .ok d ∧
        d.insights.moodTrend =
          (matchOwn s reqUser._id (startDate env (timeframeOr q 30))).map trendPoint ∧
        d.insights.moodTrend.length = d.summary.totalEntries) ∧
    (∃ r, moodStatsHandler q env s reqUser = .ok r ∧
      r.stats.moodTrend =
        (matchOwn s reqUser._id (startDate env (timeframeOr q 30))).map trendPoint ∧
      r.stats.moodTrend.length = r.stats.totalEntries) ∧
    (∀ docs : List JournalEntry,
      List.Pairwise (fun a b : JournalEntry => a.createdAt ≤ b.createdAt) docs →
      List.Pairwise (fun a b : TrendPoint => a.date ≤ b.date) (docs.map trendPoint)) := by
  refine ⟨?_, ⟨_, moodStatsHandler_eq q env s reqUser, rfl, by simp⟩, ?_⟩
  · intro hv ho
    obtain ⟨htot, -, -, htrend, -⟩ :=
      dashboardResult_summary (timeframeOr q 30) s reqUser._id
        (startDate env (timeframeOr q 30))
    exact ⟨_, dashboardHandler_ok q env s reqUser hv ho, htrend, by rw [htrend, htot]; simp⟩
  · intro docs hsorted
    rw [List.pairwise_map]
    refine hsorted.imp ?_
    intro a b hab
    exact Int.ediv_le_ediv (by decide) hab

/-- C28 (amended) on `newestFirstStore`: three entries in the window, three trend
items. -/
theorem trend_follows_read_order_witness :
    ∃ d, dashboardHandler none marchEnv newestFirstStore optedInUser = .ok d ∧
      d.insights.moodTrend =
        (matchOwn newestFirstStore optedInUser._id (startDate marchEnv (timeframeOr none 30))).map
          trendPoint ∧
      d.insights.moodTrend.length = d.summary.totalEntries :=
  (trend_follows_read_order none marchEnv newestFirstStore optedInUser).1 rfl rfl

/-- Looking a key up after the counts of `x` were raised. -/
theorem lookup_map_bump (acc : List (String × Nat)) (x k : String) :
    (acc.map (fun p => if p.1 = x then (p.1, p.2 + 1) else p)).lookup k =
      (acc.lookup k).map (fun v => if k = x then v + 1 else v) := by
  have hfun : (fun p : String × Nat => if p.1 = x then (p.1, p.2 + 1) else p) =
      (fun p => (p.1, if p.1 = x then p.2 + 1 else p.2)) := by
    funext p
    by_cases h : p.1 = x <;> simp [h]
  rw [hfun]
  induction acc with
  | nil => rfl
  | cons a rest ih =>
    obtain ⟨a1, a2⟩ := a
    simp only [List.map_cons, List.lookup_cons]
    by_cases hka : k = a1
    · subst hka
      simp
    · have hne : (k == a1) = false := by simpa using hka
      simp only [hne]
      exact ih

/-- Looking a key up after a new key was added with count 1. -/
theorem lookup_append_one (acc : List (String × Nat)) (x k : String) :
    (acc ++ [(x, 1)]).lookup k =
      match acc.lookup k with
      | some v => some v
      | none => if k = x then some 1 else none := by
  rw [List.lookup_append]
  cases hk : acc.lookup k with
  | some v => rfl
  | none =>
    by_cases hkx : k = x
    · subst hkx; simp [List.lookup_cons]
    · have hne : (k == x) = false := by simpa using hkx
      simp [List.lookup_cons, hne, hkx]

/-- One step of the counting reducer raises the count of its key by one and leaves
the other counts. -/
theorem countKey_value (acc : List (String × Nat)) (x k : String) :
    ((countKey acc x).lookup k).getD 0 =
      (acc.lookup k).getD 0 + (if k = x then 1 else 0) := by
  unfold countKey
  cases hx : acc.lookup x with
  | some v0 =>
    simp only [lookup_map_bump]
    by_cases hkx : k = x
    · subst hkx; simp [hx]
    · cases hk : acc.lookup k <;> simp [hkx]
  | none =>
    simp only [lookup_append_one]
    by_cases hkx : k = x
    · subst hkx; simp [hx]
    · cases hk : acc.lookup k <;> simp [hkx]

/-- One step of the counting reducer stores no count 0. -/
theorem countKey_positive (acc : List (String × Nat)) (x : String)
    (hpos : ∀ k, acc.lookup k ≠ some 0) : ∀ k, (countKey acc x).lookup k ≠ some 0 := by
  intro k
  unfold countKey
  cases hx : acc.lookup x with
  | some v0 =>
    simp only [lookup_map_bump]
    cases hk : acc.lookup k with
    | none => simp
    | some v =>
      have := hpos k
      rw [hk] at this
      by_cases hkx : k = x <;> simp [hkx]
      simpa using this
  | none =>
    simp only [lookup_append_one]
    cases hk : acc.lookup k with
    | none => by_cases hkx : k = x <;> simp [hkx]
    | some v =>
      have := hpos k
      rw [hk] at this
      simpa using this

/-- The keys after one step of the counting reducer. -/
theorem countKey_keys (acc : List (String × Nat)) (x : String) :
    (countKey acc x).map Prod.fst =
      if x ∈ acc.map Prod.fst then acc.map Prod.fst else acc.map Prod.fst ++ [x] := by
  unfold countKey
  cases hx : acc.lookup x with
  | some v0 =>
    have hmem : x ∈ acc.map Prod.fst := by
      by_contra hnot
      have : acc.lookup x = none := by
        rw [List.lookup_eq_none_iff]
        intro p hp
        simp only [bne_iff_ne, ne_eq]
        intro heq
        exact hnot (List.mem_map.mpr ⟨p, hp, heq.symm⟩)
      rw [this] at hx
      cases hx
    simp only [hmem, if_true, List.map_map]
    apply List.map_congr_left
    intro p _
    by_cases hp : p.1 = x <;> simp [hp]
  | none =>
    have hnot : x ∉ acc.map Prod.fst := by
      rw [List.lookup_eq_none_iff] at hx
      intro hmem
      obtain ⟨p, hp, heq⟩ := List.mem_map.mp hmem
      have := hx p hp
      simp only [bne_iff_ne, ne_eq] at this
      exact this heq.symm
    simp [hnot]

/-- One step of the counting reducer adds one to the sum of the counts. -/
theorem countKey_sum (acc : List (String × Nat)) (x : String)
    (hnd : (acc.map Prod.fst).Nodup) :
    ((countKey acc x).map Prod.snd).sum = (acc.map Prod.snd).sum + 1 := by
  have hbump : ∀ l : List (String × Nat),
      ((l.map (fun p => if p.1 = x then (p.1, p.2 + 1) else p)).map Prod.snd).sum =
        (l.map Prod.snd).sum + (l.map Prod.fst).count x := by
    intro l
    induction l with
    | nil => rfl
    | cons a rest ih =>
      obtain ⟨a1, a2⟩ := a
      by_cases ha : a1 = x
      · subst ha
        simp only [List.map_cons, if_true, List.sum_cons, List.count_cons_self, ih]
        omega
      · have hne : (a1 == x) = false := by simpa using ha
        simp only [List.map_cons, ha, if_false, List.sum_cons, List.count_cons, hne, ih]
        simp
        omega
  have hkeys := countKey_keys acc x
  unfold countKey at hkeys ⊢
  cases hx : acc.lookup x with
  | some v0 =>
    rw [hx] at hkeys
    have hmem : x ∈ acc.map Prod.fst := by
      by_contra hnot
      simp only [hnot, if_false] at hkeys
      have := congrArg List.length hkeys
      simp at this
    simp only [hbump, List.count_eq_one_of_mem hnd hmem]
  | none => simp

/-- The counting reducer keeps the keys distinct. -/
theorem countKey_nodup (acc : List (String × Nat)) (x : String)
    (hnd : (acc.map Prod.fst).Nodup) : ((countKey acc x).map Prod.fst).Nodup := by
  rw [countKey_keys]
  split
  · exact hnd
  · next hnot =>
    rw [List.nodup_append]
    refine ⟨hnd, List.nodup_singleton x, ?_⟩
    intro a ha hb
    rw [List.mem_singleton] at hb
    subst hb
    exact hnot ha

/-- The table the counting reducer builds from a list of keys, starting from a table
with distinct keys and no count 0. -/
theorem foldl_countKey (xs : List String) :
    ∀ acc : List (String × Nat), (acc.map Prod.fst).Nodup → (∀ k, acc.lookup k ≠ some 0) →
      ((xs.foldl countKey acc).map Prod.fst).Nodup ∧
      (∀ k, (xs.foldl countKey acc).lookup k ≠ some 0) ∧
      (∀ k, ((xs.foldl countKey acc).lookup k).getD 0 = (acc.lookup k).getD 0 + xs.count k) ∧
      ((xs.foldl countKey acc).map Prod.snd).sum = (acc.map Prod.snd).sum + xs.length := by
  induction xs with
  | nil => intro acc hnd hpos; exact ⟨hnd, hpos, by simp, by simp⟩
  | cons x xs ih =>
    intro acc hnd hpos
    obtain ⟨h1, h2, h3, h4⟩ :=
      ih (countKey acc x) (countKey_nodup acc x hnd) (countKey_positive acc x hpos)
    refine ⟨h1, h2, ?_, ?_⟩
    · intro k
      simp only [List.foldl_cons]
      rw [h3 k, countKey_value]
      by_cases hkx : k = x
      · subst hkx; simp; omega
      · have hne : (x == k) = false := by simpa using (fun h => hkx h.symm)
        simp [hkx, List.count_cons, hne]
    · simp only [List.foldl_cons, List.length_cons]
      rw [h4, countKey_sum acc x hnd]
      omega

/-- The table of `moodTagFrequency`: distinct keys, each with the number of its
occurrences, no key with count 0, and the counts sum to the number of tags. -/
theorem tagFrequency_counts (tags : List String) :
    ((tagFrequency tags).map Prod.fst).Nodup ∧
    (∀ k, (tagFrequency tags).lookup k =
      if tags.count k = 0 then none else some (tags.count k)) ∧
    ((tagFrequency tags).map Prod.snd).sum = tags.length := by
  obtain ⟨h1, h2, h3, h4⟩ := foldl_countKey tags [] (by simp) (by simp)
  refine ⟨h1, ?_, by simpa using h4⟩
  intro k
  have hv := h3 k
  have hp := h2 k
  simp only [List.lookup, Option.getD_none, zero_add] at hv
  unfold tagFrequency
  cases hl : List.lookup k (List.foldl countKey [] tags) with
  | none =>
    rw [hl] at hv
    simp only [Option.getD_none] at hv
    simp [← hv]
  | some v =>
    rw [hl] at hv hp
    simp only [Option.getD_some] at hv
    have hv0 : v ≠ 0 := fun h => hp (by rw [h])
    rw [← hv]
    simp [hv0]

/-- The reducer of the location and time tables is the counting reducer on the
non-empty values. -/
theorem patternFrequency_eq (xs : List String) :
    patternFrequency xs = tagFrequency (xs.filter (fun x => x ≠ "")) := by
  unfold patternFrequency tagFrequency
  generalize ([] : List (String × Nat)) = acc
  induction xs generalizing acc with
  | nil => rfl
  | cons x xs ih =>
    by_cases hx : x = ""
    · simp only [List.foldl_cons, hx, ne_eq, not_true_eq_false, if_false, List.filter_cons,
        decide_False, Bool.false_eq_true]
      exact ih acc
    · simp only [List.foldl_cons, hx, ne_eq, not_false_eq_true, if_true, List.filter_cons,
        decide_True]
      exact ih (countKey acc x)

/-- The number of documents that carry a non-empty value of an optional field. -/
theorem length_present (docs : List JournalEntry) (f : JournalEntry → Option String) :
    ((docs.filterMap f).filter (fun x => x ≠ "")).length =
      (docs.filter (fun e =>
        match f e with
        | some v => decide (v ≠ "")
        | none => false)).length := by
  induction docs with
  | nil => rfl
  | cons e es ih =>
    cases hf : f e with
    | none => simp_all [List.filterMap_cons, List.filter_cons]
    | some v =>
      by_cases hv : v = ""
      · simp_all [List.filterMap_cons, List.filter_cons]
      · simp_all [List.filterMap_cons, List.filter_cons]

/-- The table of `locationFrequency` or `timePatterns` for an optional field of the
matched documents. -/
theorem patternFrequency_counts (docs : List JournalEntry) (f : JournalEntry → Option String) :
    ((patternFrequency (docs.filterMap f)).map Prod.fst).Nodup ∧
    (∀ k, k ≠ "" → (patternFrequency (docs.filterMap f)).lookup k =
      if (docs.filter (fun e => f e = some k)).length = 0 then none
      else some (docs.filter (fun e => f e = some k)).length) ∧
    (patternFrequency (docs.filterMap f)).lookup "" = none ∧
    ((patternFrequency (docs.filterMap f)).map Prod.snd).sum =
      (docs.filter (fun e =>
        match f e with
        | some v => decide (v ≠ "")
        | none => false)).length ∧
    ((patternFrequency (docs.filterMap f)).map Prod.snd).sum ≤ docs.length := by
  rw [patternFrequency_eq]
  obtain ⟨h1, h2, h3⟩ := tagFrequency_counts ((docs.filterMap f).filter (fun x => x ≠ ""))
  have hcount : ∀ k, k ≠ "" →
      ((docs.filterMap f).filter (fun x => x ≠ "")).count k =
        (docs.filter (fun e => f e = some k)).length := by
    intro k hk
    rw [List.count_filter (by simpa using hk), List.count_filterMap,
      List.countP_eq_length_filter]
    congr 1
    apply List.filter_congr
    intro e _
    cases hf : f e with
    | none => simp
    | some v => by_cases hvk : v = k <;> simp [hvk]
  have hempty : ((docs.filterMap f).filter (fun x => x ≠ "")).count "" = 0 := by
    rw [List.count_eq_zero]
    intro hmem
    have := (List.mem_filter.mp hmem).2
    simp at this
  refine ⟨h1, ?_, ?_, ?_, ?_⟩
  · intro k hk
    rw [h2 k, hcount k hk]
  · rw [h2 "", hempty]
    rfl
  · rw [h3, length_present]
  · rw [h3]
    exact (List.length_filter_le _ _).trans (List.length_filterMap_le _ _)

/-- The frequency tables of the dashboard reply, in terms of the matched documents. -/
theorem dashboardResult_insights (w : Int) (s : Store) (userId : Nat) (start : Int) :
    (dashboardResult w (dashboardAggregate s userId start)).insights.moodTagFrequency
      = tagFrequency ((matchOwn s userId start).map (fun e => e.entry.mood.tags)).flatten ∧
    (dashboardResult w (dashboardAggregate s userId start)).insights.locationFrequency
      = patternFrequency ((matchOwn s userId start).filterMap
          (fun e => e.entry.context.location)) ∧
    (dashboardResult w (dashboardAggregate s userId start)).insights.timePatterns
      = patternFrequency ((matchOwn s userId start).filterMap
          (fun e => e.entry.context.timeOfDay)) := by
  unfold dashboardAggregate dashboardGroup
  cases hdocs : matchOwn s userId start with
  | nil => exact ⟨rfl, rfl, rfl⟩
  | cons e es => exact ⟨rfl, rfl, rfl⟩

/-- C27. The frequency tables of the dashboard count occurrences exactly (for an
opted-in caller and a query that passes the validator). `moodTagFrequency` has each
tag once, with the number of its occurrences over the tag lists of the caller's
entries of the window, and its counts sum to the number of tags. `locationFrequency`
and `timePatterns` have each value once, with the number of entries carrying it;
entries without a value (or with the empty string) are passed over, so the counts
of each table sum to the number of entries carrying a value, which is at most
`totalEntries`. A value that does not occur is not in the table. -/
theorem frequency_tables_count (q : Option String) (env : Env) (s : Store) (reqUser : User)
    (hv : dashboardErrors q = []) (ho : reqUser.privacySettings.analyticsOptIn = true) :
    ∃ d, dashboardHandler q env s reqUser = .ok d ∧
      (d.insights.moodTagFrequency.map Prod.fst).Nodup ∧
      (∀ k, d.insights.moodTagFrequency.lookup k =
        if ((matchOwn s reqUser._id (startDate env (timeframeOr q 30))).map
            (fun e => e.entry.mood.tags.count k)).sum = 0 then none
        else some ((matchOwn s reqUser._id (startDate env (timeframeOr q 30))).map
            (fun e => e.entry.mood.tags.count k)).sum) ∧
      (d.insights.moodTagFrequency.map Prod.snd).sum =
        ((matchOwn s reqUser._id (startDate env (timeframeOr q 30))).map
          (fun e => e.entry.mood.tags.length)).sum ∧
      (d.insights.locationFrequency.map Prod.fst).Nodup ∧
      (∀ k, k ≠ "" → d.insights.locationFrequency.lookup k =
        if ((matchOwn s reqUser._id (startDate env (timeframeOr q 30))).filter
            (fun e => e.entry.context.location = some k)).length = 0 then none
        else some ((matchOwn s reqUser._id (startDate env (timeframeOr q 30))).filter
            (fun e => e.entry.context.location = some k)).length) ∧
      d.insights.locationFrequency.lookup "" = none ∧
      (d.insights.locationFrequency.map Prod.snd).sum ≤ d.summary.totalEntries ∧
      (d.insights.timePatterns.map Prod.fst).Nodup ∧
      (∀ k, k ≠ "" → d.insights.timePatterns.lookup k =
        if ((matchOwn s reqUser._id (startDate env (timeframeOr q 30))).filter
            (fun e => e.entry.context.timeOfDay = some k)).length = 0 then none
        else some ((matchOwn s reqUser._id (startDate env (timeframeOr q 30))).filter
            (fun e => e.entry.context.timeOfDay = some k)).length) ∧
      d.insights.timePatterns.lookup "" = none ∧
      (d.insights.timePatterns.map Prod.snd).sum ≤ d.summary.totalEntries := by
  refine ⟨_, dashboardHandler_ok q env s reqUser hv ho, ?_⟩
  obtain ⟨htags, hloc, htime⟩ :=
    dashboardResult_insights (timeframeOr q 30) s reqUser._id (startDate env (timeframeOr q 30))
  obtain ⟨htot, -⟩ :=
    dashboardResult_summary (timeframeOr q 30) s reqUser._id (startDate env (timeframeOr q 30))
  obtain ⟨t1, t2, t3⟩ := tagFrequency_counts
    ((matchOwn s reqUser._id (startDate env (timeframeOr q 30))).map
      (fun e => e.entry.mood.tags)).flatten
  obtain ⟨l1, l2, l3, -, l5⟩ := patternFrequency_counts
    (matchOwn s reqUser._id (startDate env (timeframeOr q 30)))
    (fun e => e.entry.context.location)
  obtain ⟨p1, p2, p3, -, p5⟩ := patternFrequency_counts
    (matchOwn s reqUser._id (startDate env (timeframeOr q 30)))
    (fun e => e.entry.context.timeOfDay)
  rw [htags, hloc, htime, htot]
  refine ⟨t1, ?_, ?_, l1, l2, l3, l5, p1, p2, p3, p5⟩
  · intro k
    rw [t2 k, List.count_flatten, List.map_map]
    rfl
  · rw [t3, List.length_flatten, List.map_map]
    rfl

/-- C27 on `optedInStore`, whose one entry has the tag `calm` and the location
`dorm` and no time of day. -/
theorem frequency_tables_count_witness :
    ∃ d, dashboardHandler none marchEnv optedInStore optedInUser = .ok d ∧
      d.insights.moodTagFrequency.lookup "calm" = some 1 ∧
      d.insights.locationFrequency.lookup "dorm" = some 1 ∧
      (d.insights.timePatterns.map Prod.snd).sum ≤ d.summary.totalEntries := by
  obtain ⟨d, hd, -, htag, -, -, hloc, -, -, -, -, -, htime⟩ :=
    frequency_tables_count none marchEnv optedInStore optedInUser rfl rfl
  refine ⟨d, hd, ?_, ?_, htime⟩
  · rw [htag "calm"]; decide
  · rw [hloc "dorm" (by decide)]; decide

/-! ### Ownership of journal entries -/

/-- When no entry with the id belongs to the caller, the lookup of the entry routes
finds nothing. -/
theorem findOne_foreign {s : Store} {id userId : Nat}
    (hforeign : ∀ e ∈ s.entries, e._id = id → e.userId ≠ userId) :
    JournalEntry.findOne s id userId = none := by
  unfold JournalEntry.findOne
  rw [List.find?_eq_none]
  intro e he
  simp only [decide_eq_true_eq, not_and]
  exact hforeign e he

/-- A map that changes none of the elements a filter keeps, and moves none into it,
does not show behind the filter. -/
theorem filter_map_frame {α : Type} (l : List α) (g : α → α) (p : α → Bool)
    (h : ∀ x ∈ l, (p x = true → g x = x) ∧ (p x = false → p (g x) = false)) :
    (l.map g).filter p = l.filter p := by
  induction l with
  | nil => rfl
  | cons a rest ih =>
    have ha := h a (List.mem_cons_self _ _)
    have hrest := ih (fun x hx => h x (List.mem_cons_of_mem _ hx))
    cases hp : p a with
    | true =>
      rw [List.map_cons, ha.1 hp, List.filter_cons, List.filter_cons, hp, hrest]
    | false =>
      rw [List.map_cons, List.filter_cons, List.filter_cons, hp, ha.2 hp, hrest]
      rfl

/-- The entries of the other users are the same after an update and after a delete,
in a store with unique ids. -/
theorem others_entries_frame (env : Env) (s : Store) (reqUser : User) (hwf : s.WellFormed) :
    (∀ (id : Option Nat) b, (updateEntryHandler id b env s reqUser).2.entries.filter
        (fun e => e.userId ≠ reqUser._id) =
      s.entries.filter (fun e => e.userId ≠ reqUser._id)) ∧
    (∀ id : Option Nat, (deleteEntryHandler id env s reqUser).2.entries.filter
        (fun e => e.userId ≠ reqUser._id) =
      s.entries.filter (fun e => e.userId ≠ reqUser._id)) := by
  constructor
  · intro id b
    cases id with
    | none =>
      unfold updateEntryHandler
      split <;> rfl
    | some i =>
      cases hres : updateEntryHandler (some i) b env s reqUser with
      | mk rep s1 =>
        cases rep with
        | error r =>
          have : s1 = s := by
            unfold updateEntryHandler at hres
            split at hres
            · cases hres; rfl
            · dsimp only at hres
              split at hres
              · cases hres; rfl
              · split at hres
                · cases hres
                · cases hres; rfl
          rw [this]
        | ok saved =>
          obtain ⟨entry, hfind, hsaved, hs1⟩ := updateEntryHandler_ok hres
          obtain ⟨hmem, -, huid⟩ := entry_findOne_mem hfind
          have hsid : saved._id = entry._id := by rw [hsaved]; rfl
          have hsuid : saved.userId = reqUser._id := by rw [hsaved]; exact huid
          simp only [hs1, Store.putEntry]
          apply filter_map_frame
          intro x hx
          constructor
          · intro hp
            have hne : x.userId ≠ reqUser._id := by simpa using hp
            have hxi : x._id ≠ saved._id := by
              intro heq
              have : x = entry := entry_eq_of_id_eq hwf.2.2.1 hx hmem (heq.trans hsid)
              exact hne (this ▸ huid)
            simp [hxi]
          · intro hp
            by_cases hxi : x._id = saved._id
            · simp [hxi, hsuid]
            · simpa [hxi] using hp
  · intro id
    cases id with
    | none => rfl
    | some i =>
      unfold deleteEntryHandler
      dsimp only
      cases hfind : JournalEntry.findOne s i reqUser._id with
      | none => rfl
      | some entry =>
        obtain ⟨hmem, -, huid⟩ := entry_findOne_mem hfind
        simp only [List.filter_filter]
        apply List.filter_congr
        intro x hx
        by_cases hne : x.userId = reqUser._id
        · simp [hne]
        · have hxi : x._id ≠ entry._id := by
            intro heq
            have : x = entry := entry_eq_of_id_eq hwf.2.2.1 hx hmem heq
            exact hne (this ▸ huid)
          simp [hne, hxi]

/-- C24, as stated, fails. The store `sharedStore` holds no entry of `otherUser`, so
no entry exists for that caller under any id. For a route parameter that is not an
object id the get, update and delete routes answer 500, not not-found: the cast of
the parameter raises inside the query and the `catch` of the handler answers. And
for the id of the first user's entry, the update route answers a body that fails
its validators with the validation error 400, not not-found. -/
theorem malformed_id_is_server_error :
    (∀ e ∈ sharedStore.entries, e.userId ≠ otherUser._id) ∧
    getEntryHandler none marchEnv sharedStore otherUser =
      .error { status := 500, message := "Error fetching journal entry",
               requiresConsent := false, errors := [] } ∧
    updateEntryHandler none emptyJournalBody marchEnv sharedStore otherUser =
      (.error { status := 500, message := "Error updating journal entry",
                requiresConsent := false, errors := [] }, sharedStore) ∧
    deleteEntryHandler none marchEnv sharedStore otherUser =
      (.error { status := 500, message := "Error deleting journal entry",
                requiresConsent := false, errors := [] }, sharedStore) ∧
    updateEntryHandler (some 1) offScaleBody marchEnv sharedStore otherUser =
      (.error { status := 400, message := "", requiresConsent := false,
                errors := ["mood.scale"] }, sharedStore) := by
  decide

/-- C24 (amended). No journal entry is read or modified outside its owner's context.
For an object id under which the store has no entry of the caller (no entry at all,
or entries of other users only), the get and delete routes answer 404 "Journal entry
not found", and the update route answers it too for a body that passes its
validators. The update route answers a body that fails its validators with the 400
validation error, whatever the id (the content is reported when its length, as
`isLength` counts it, exceeds 5000). A route parameter that is not an object id is
answered 500 by the three routes (by the update route for a body that passes its
validators). All these replies leave the store as it is. The get route returns an
entry of the caller only, the list returns entries of the caller only, and in a
store with unique ids an update or delete leaves every entry of the other users as
it was. -/
theorem foreign_entries_not_found (id : Nat) (env : Env) (s : Store) (reqUser : User)
    (hforeign : ∀ e ∈ s.entries, e._id = id → e.userId ≠ reqUser._id) :
    getEntryHandler (some id) env s reqUser = .error (notFound "Journal entry not found") ∧
    (∀ b, updateErrors b = [] →
      updateEntryHandler (some id) b env s reqUser =
        (.error (notFound "Journal entry not found"), s)) ∧
    deleteEntryHandler (some id) env s reqUser =
      (.error (notFound "Journal entry not found"), s) ∧
    (notFound "Journal entry not found").status = 404 ∧
    (∀ b (i : Option Nat), updateErrors b ≠ [] →
      updateEntryHandler i b env s reqUser = (.error (validationError (updateErrors b)), s) ∧
      (validationError (updateErrors b)).status = 400) ∧
    (∀ b, "content" ∈ updateErrors b ↔ ∃ c, b.content = some c ∧ 5000 < validatorLength c) ∧
    getEntryHandler none env s reqUser =
      .error (serverError "Error fetching journal entry") ∧
    (∀ b, updateErrors b = [] →
      updateEntryHandler none b env s reqUser =
        (.error (serverError "Error updating journal entry"), s)) ∧
    deleteEntryHandler none env s reqUser =
      (.error (serverError "Error deleting journal entry"), s) ∧
    (∀ message, (serverError message).status = 500) ∧
    (∀ (i : Option Nat) v, getEntryHandler i env s reqUser = .ok v →
      v.userId = reqUser._id ∧ ∃ e ∈ s.entries, e.view = v ∧ i = some e._id) ∧
    (∀ q r, listHandler q env s reqUser = .ok r → ∀ v ∈ r.entries, v.userId = reqUser._id) ∧
    (s.WellFormed →
      (∀ (i : Option Nat) b, (updateEntryHandler i b env s reqUser).2.entries.filter
          (fun e => e.userId ≠ reqUser._id) =
        s.entries.filter (fun e => e.userId ≠ reqUser._id)) ∧
      (∀ i : Option Nat, (deleteEntryHandler i env s reqUser).2.entries.filter
          (fun e => e.userId ≠ reqUser._id) =
        s.entries.filter (fun e => e.userId ≠ reqUser._id))) := by
  have hfind := findOne_foreign hforeign
  refine ⟨?_, ?_, ?_, rfl, ?_, ?_, rfl, ?_, rfl, fun _ => rfl, ?_, ?_,
    others_entries_frame env s reqUser⟩
  · simp [getEntryHandler, hfind]
  · intro b hb
    simp [updateEntryHandler, hb, hfind]
  · simp [deleteEntryHandler, hfind]
  · intro b i hb
    refine ⟨?_, rfl⟩
    simp [updateEntryHandler, hb]
  · intro b
    unfold updateErrors
    cases hc : b.content with
    | none =>
      simp only [List.nil_append, Option.some.injEq, false_and, exists_false, iff_false,
        reduceCtorEq]
      split <;> simp
    | some c =>
      simp only [Option.some.injEq, exists_eq_left', List.mem_append]
      by_cases hlen : validatorLength c ≤ 5000
      · simp only [hlen, if_true, List.not_mem_nil, false_or]
        constructor
        · intro h
          split at h
          · split at h <;> simp at h
          · simp at h
        · intro h; omega
      · simp only [hlen, if_false, List.mem_singleton, true_or, true_iff]
        omega
  · intro b hb
    simp [updateEntryHandler, hb]
  · intro i v hget
    unfold getEntryHandler at hget
    split at hget
    · cases hget
    · next i1 =>
      split at hget
      · cases hget
      · next entry hf =>
        cases hget
        obtain ⟨hmem, hid, huid⟩ := entry_findOne_mem hf
        exact ⟨huid, entry, hmem, rfl, by rw [hid]⟩
  · intro q r hlist v hv
    unfold listHandler at hlist
    split at hlist
    · cases hlist
    · simp only [Except.ok.injEq] at hlist
      subst hlist
      simp only [List.mem_map] at hv
      obtain ⟨e, he, rfl⟩ := hv
      have he2 : e ∈ findSorted q s reqUser._id :=
        List.mem_of_mem_drop (List.mem_of_mem_take he)
      unfold findSorted at he2
      rw [(List.perm_insertionSort _ _).mem_iff] at he2
      have hm := (List.mem_filter.mp he2).2
      simp only [listMatches, Bool.and_eq_true, decide_eq_true_eq] at hm
      exact hm.1.1

/-- C24 on `sharedStore`: the second user asks for the entry of the first. -/
theorem foreign_entries_not_found_witness :
    getEntryHandler (some 1) marchEnv sharedStore otherUser =
        .error (notFound "Journal entry not found") ∧
      updateEntryHandler (some 1) emptyJournalBody marchEnv sharedStore otherUser =
        (.error (notFound "Journal entry not found"), sharedStore) ∧
      deleteEntryHandler (some 1) marchEnv sharedStore otherUser =
        (.error (notFound "Journal entry not found"), sharedStore) :=
  have h := foreign_entries_not_found 1 marchEnv sharedStore otherUser (by decide)
  ⟨h.1, h.2.1 emptyJournalBody rfl, h.2.2.1⟩

/-! ### The journal list -/

/-- On a positive numeral, `parseInt` reads the number the validator `isInt` sees. -/
theorem parseInt_of_plainInt {t : String} {n : Int} (hp : plainInt? t = some n)
    (hpos : 0 < n) : parseInt t = some n := by
  have ht : t = String.mk t.toList := rfl
  unfold plainInt? plainNat? at hp
  split at hp
  · next cs hcs =>
    cases hd : digitsValue? cs with
    | none => simp [hd] at hp
    | some m =>
      simp [hd] at hp
      omega
  · next cs hcs =>
    cases hd : digitsValue? cs with
    | none => simp [hd] at hp
    | some m =>
      simp [hd] at hp
      rw [ht, hcs, ← hp]
      exact (parseInt_digits cs m hd).2
  · next cs _ _ =>
    cases hd : digitsValue? t.data with
    | none => simp [hd] at hp
    | some m =>
      simp [hd] at hp
      rw [ht, ← hp]
      exact (parseInt_digits t.data m hd).1

/-- The page and the limit the list handler computes from a query that passes its
validators: the numerals of the query, 1 and 10 when they are absent. -/
theorem validated_page_limit (q : ListQuery) (hv : listErrors q = []) :
    1 ≤ timeframeOr q.page 1 ∧
    (q.page = none → timeframeOr q.page 1 = 1) ∧
    (∀ t, q.page = some t → plainInt? t = some (timeframeOr q.page 1)) ∧
    1 ≤ timeframeOr q.limit 10 ∧ timeframeOr q.limit 10 ≤ 50 ∧
    (q.limit = none → timeframeOr q.limit 10 = 10) ∧
    (∀ t, q.limit = some t → plainInt? t = some (timeframeOr q.limit 10)) := by
  unfold listErrors at hv
  simp only [List.append_eq_nil] at hv
  obtain ⟨hpage, hlimit⟩ := hv
  have hP : 1 ≤ timeframeOr q.page 1 ∧
      (∀ t, q.page = some t → plainInt? t = some (timeframeOr q.page 1)) := by
    cases hq : q.page with
    | none => exact ⟨by decide, fun t ht => by cases ht⟩
    | some t =>
      rw [hq] at hpage
      have hint : isIntFrom 1 (.str t) = true := by
        by_contra hne
        simp [hne] at hpage
      unfold isIntFrom at hint
      simp only [JsVal.asInt?] at hint
      cases hp : plainInt? t with
      | none => simp [hp] at hint
      | some n =>
        simp only [hp, decide_eq_true_eq] at hint
        have hparse := parseInt_of_plainInt hp (by omega)
        have hne : n ≠ 0 := by omega
        have hw : timeframeOr (some t) 1 = n := by simp [timeframeOr, hparse, hne]
        refine ⟨by rw [hw]; exact hint, ?_⟩
        intro t1 ht1
        cases ht1
        rw [hw]
        exact hp
  have hL : 1 ≤ timeframeOr q.limit 10 ∧ timeframeOr q.limit 10 ≤ 50 ∧
      (∀ t, q.limit = some t → plainInt? t = some (timeframeOr q.limit 10)) := by
    cases hq : q.limit with
    | none => exact ⟨by decide, by decide, fun t ht => by cases ht⟩
    | some t =>
      rw [hq] at hlimit
      have hint : isInt 1 50 (.str t) = true := by
        by_contra hne
        simp [hne] at hlimit
      unfold isInt at hint
      simp only [JsVal.asInt?] at hint
      cases hp : plainInt? t with
      | none => simp [hp] at hint
      | some n =>
        simp only [hp, Bool.and_eq_true, decide_eq_true_eq] at hint
        have hparse := parseInt_of_plainInt hp (by omega)
        have hne : n ≠ 0 := by omega
        have hw : timeframeOr (some t) 10 = n := by simp [timeframeOr, hparse, hne]
        refine ⟨by rw [hw]; exact hint.1, by rw [hw]; exact hint.2, ?_⟩
        intro t1 ht1
        cases ht1
        rw [hw]
        exact hp
  refine ⟨hP.1, ?_, hP.2, hL.1, hL.2.1, ?_, hL.2.2⟩
  · intro h; rw [h]; rfl
  · intro h; rw [h]; rfl

/-- The value of `Math.ceil(total / limit)` for a positive limit: the least number of
pages of `limit` entries that hold `total` entries. -/
theorem ceil_pages (total : Nat) (limit : Int) (hl : 1 ≤ limit) :
    0 ≤ ⌈(total : ℚ) / (limit : ℚ)⌉ ∧
    (⌈(total : ℚ) / (limit : ℚ)⌉ - 1) * limit < total ∧
    (total : Int) ≤ ⌈(total : ℚ) / (limit : ℚ)⌉ * limit := by
  have hlq : (0 : ℚ) < (limit : ℚ) := by exact_mod_cast (by omega : (0 : Int) < limit)
  have hx : (0 : ℚ) ≤ (total : ℚ) / (limit : ℚ) := by positivity
  have h1 := Int.le_ceil ((total : ℚ) / (limit : ℚ))
  have h2 := Int.ceil_lt_add_one ((total : ℚ) / (limit : ℚ))
  refine ⟨Int.ceil_nonneg hx, ?_, ?_⟩
  · have : ((⌈(total : ℚ) / (limit : ℚ)⌉ : ℚ) - 1) * (limit : ℚ) < (total : ℚ) := by
      have h3 : (⌈(total : ℚ) / (limit : ℚ)⌉ : ℚ) - 1 < (total : ℚ) / (limit : ℚ) := by
        linarith
      calc ((⌈(total : ℚ) / (limit : ℚ)⌉ : ℚ) - 1) * (limit : ℚ)
          < (total : ℚ) / (limit : ℚ) * (limit : ℚ) := by
            exact mul_lt_mul_of_pos_right h3 hlq
        _ = (total : ℚ) := by field_simp
    exact_mod_cast this
  · have : (total : ℚ) ≤ (⌈(total : ℚ) / (limit : ℚ)⌉ : ℚ) * (limit : ℚ) := by
      calc (total : ℚ) = (total : ℚ) / (limit : ℚ) * (limit : ℚ) := by field_simp
        _ ≤ (⌈(total : ℚ) / (limit : ℚ)⌉ : ℚ) * (limit : ℚ) := by
            exact mul_le_mul_of_nonneg_right h1 hlq.le
    exact_mod_cast this

/-- Pages of `l` elements, one after the other, make up the list they are cut
from. -/
theorem pages_concat {α : Type} (xs : List α) (l k : Nat) :
    (List.range k).flatMap (fun i => (xs.drop (i * l)).take l) = xs.take (k * l) := by
  induction k with
  | zero => simp
  | succ k ih =>
    rw [List.range_succ, List.flatMap_append, ih, List.flatMap_singleton, Nat.succ_mul,
      List.take_add]

/-- The number of entries the list handler skips. -/
theorem skip_toNat (p l : Int) (hp : 1 ≤ p) (hl : 1 ≤ l) :
    ((p - 1) * l).toNat = (p.toNat - 1) * l.toNat := by
  have hp1 : (p.toNat : Int) = p := Int.toNat_of_nonneg (by omega)
  have hl1 : (l.toNat : Int) = l := Int.toNat_of_nonneg (by omega)
  have hP : 1 ≤ p.toNat := by omega
  have hcast : (p - 1) * l = (((p.toNat - 1) * l.toNat : Nat) : Int) := by
    push_cast [Nat.cast_sub hP]
    rw [hp1, hl1]
  rw [hcast, Int.toNat_natCast]

/-- The success reply of the journal list for a query that passes the validators. -/
theorem listHandler_ok (q : ListQuery) (env : Env) (s : Store) (reqUser : User)
    (hv : listErrors q = []) :
    listHandler q env s reqUser =
      .ok { entries :=
              (((findSorted q s reqUser._id).drop
                  (((timeframeOr q.page 1).toNat - 1) * (timeframeOr q.limit 10).toNat)).take
                (timeframeOr q.limit 10).toNat).map JournalEntry.view
            pagination :=
              { page := timeframeOr q.page 1
                limit := timeframeOr q.limit 10
                total := (s.entries.filter (listMatches q reqUser._id)).length
                pages := ⌈((s.entries.filter (listMatches q reqUser._id)).length : ℚ) /
                  ((timeframeOr q.limit 10 : Int) : ℚ)⌉ } } := by
  obtain ⟨hp, -, -, hl, -⟩ := validated_page_limit q hv
  unfold listHandler
  simp only [hv, ne_eq, not_true_eq_false, if_false]
  rw [skip_toNat _ _ hp hl]

/-- C29. For a query that passes the validators, the page is the numeral of `page`
(at least 1; 1 when absent) and the limit the numeral of `limit` (1 to 50; 10 when
absent). The matching entries are the caller's entries within the date bounds of the
query; the list handler orders them by descending `createdAt`, skips the first
`(page - 1) * limit` and returns at most `limit` of them, and reports `total` as
their number and `pages` as `ceil(total / limit)`, the least number of pages that
hold them. Over one store, the pages 1 to `pages` of a query, one after the other,
are the ordered matching entries, each once, and every later page is empty. -/
theorem journal_list_pages (q : ListQuery) (env : Env) (s : Store) (reqUser : User)
    (hv : listErrors q = []) :
    (1 ≤ timeframeOr q.page 1 ∧
      (q.page = none → timeframeOr q.page 1 = 1) ∧
      (∀ t, q.page = some t → plainInt? t = some (timeframeOr q.page 1)) ∧
      1 ≤ timeframeOr q.limit 10 ∧ timeframeOr q.limit 10 ≤ 50 ∧
      (q.limit = none → timeframeOr q.limit 10 = 10) ∧
      (∀ t, q.limit = some t → plainInt? t = some (timeframeOr q.limit 10))) ∧
    (∀ e, e ∈ findSorted q s reqUser._id ↔
      e ∈ s.entries ∧ e.userId = reqUser._id ∧
        (∀ t, q.startDate = some t → t ≤ e.createdAt) ∧
        (∀ t, q.endDate = some t → e.createdAt ≤ t)) ∧
    (findSorted q s reqUser._id).Perm (s.entries.filter (listMatches q reqUser._id)) ∧
    List.Pairwise (fun a b : JournalEntry => b.createdAt ≤ a.createdAt)
      (findSorted q s reqUser._id) ∧
    (∀ page : Option String, findSorted { q with page := page } s reqUser._id =
      findSorted q s reqUser._id) ∧
    ∃ r, listHandler q env s reqUser = .ok r ∧
      r.entries =
        (((findSorted q s reqUser._id).drop
            (((timeframeOr q.page 1).toNat - 1) * (timeframeOr q.limit 10).toNat)).take
          (timeframeOr q.limit 10).toNat).map JournalEntry.view ∧
      r.entries.length ≤ (timeframeOr q.limit 10).toNat ∧
      r.pagination.page = timeframeOr q.page 1 ∧
      r.pagination.limit = timeframeOr q.limit 10 ∧
      r.pagination.total = (findSorted q s reqUser._id).length ∧
      r.pagination.pages = ⌈(r.pagination.total : ℚ) / (r.pagination.limit : ℚ)⌉ ∧
      0 ≤ r.pagination.pages ∧
      (r.pagination.pages - 1) * r.pagination.limit < r.pagination.total ∧
      (r.pagination.total : Int) ≤ r.pagination.pages * r.pagination.limit ∧
      (List.range r.pagination.pages.toNat).flatMap (fun i =>
          ((findSorted q s reqUser._id).drop (i * (timeframeOr q.limit 10).toNat)).take
            (timeframeOr q.limit 10).toNat) = findSorted q s reqUser._id ∧
      (∀ i, r.pagination.pages.toNat ≤ i →
        ((findSorted q s reqUser._id).drop (i * (timeframeOr q.limit 10).toNat)).take
          (timeframeOr q.limit 10).toNat = []) := by
  have hpl := validated_page_limit q hv
  have hl := hpl.2.2.2.1
  have hperm : (findSorted q s reqUser._id).Perm
      (s.entries.filter (listMatches q reqUser._id)) := List.perm_insertionSort _ _
  have hlen : (findSorted q s reqUser._id).length =
      (s.entries.filter (listMatches q reqUser._id)).length := hperm.length_eq
  obtain ⟨c0, c1, c2⟩ :=
    ceil_pages (s.entries.filter (listMatches q reqUser._id)).length (timeframeOr q.limit 10) hl
  have hcover : (findSorted q s reqUser._id).length ≤
      ⌈((s.entries.filter (listMatches q reqUser._id)).length : ℚ) /
        ((timeframeOr q.limit 10 : Int) : ℚ)⌉.toNat * (timeframeOr q.limit 10).toNat := by
    have h1 : ((⌈((s.entries.filter (listMatches q reqUser._id)).length : ℚ) /
        ((timeframeOr q.limit 10 : Int) : ℚ)⌉.toNat : Nat) : Int) =
        ⌈((s.entries.filter (listMatches q reqUser._id)).length : ℚ) /
        ((timeframeOr q.limit 10 : Int) : ℚ)⌉ := Int.toNat_of_nonneg c0
    have h2 : (((timeframeOr q.limit 10).toNat : Nat) : Int) = timeframeOr q.limit 10 :=
      Int.toNat_of_nonneg (by omega)
    rw [hlen]
    have : ((s.entries.filter (listMatches q reqUser._id)).length : Int) ≤
        ((⌈((s.entries.filter (listMatches q reqUser._id)).length : ℚ) /
          ((timeframeOr q.limit 10 : Int) : ℚ)⌉.toNat *
          (timeframeOr q.limit 10).toNat : Nat) : Int) := by
      push_cast
      rw [h1, h2]
      exact c2
    exact_mod_cast this
  refine ⟨hpl, ?_, hperm, ?_, fun _ => rfl, ?_⟩
  · intro e
    rw [hperm.mem_iff, List.mem_filter]
    simp only [listMatches, Bool.and_eq_true, decide_eq_true_eq]
    constructor
    · rintro ⟨he, ⟨hu, hs⟩, hend⟩
      refine ⟨he, hu, ?_, ?_⟩
      · intro t ht; rw [ht] at hs; simpa using hs
      · intro t ht; rw [ht] at hend; simpa using hend
    · rintro ⟨he, hu, hs, hend⟩
      refine ⟨he, ⟨hu, ?_⟩, ?_⟩
      · cases hq : q.startDate with
        | none => rfl
        | some t => simpa using hs t hq
      · cases hq : q.endDate with
        | none => rfl
        | some t => simpa using hend t hq
  · exact List.sorted_insertionSort newerFirst _
  · refine ⟨_, listHandler_ok q env s reqUser hv, rfl, ?_, rfl, rfl, hlen.symm, rfl, c0, c1,
      c2, ?_, ?_⟩
    · rw [List.length_map]
      exact List.length_take_le _ _
    · rw [pages_concat]
      exact List.take_of_length_le hcover
    · intro i hi
      have hdrop : (findSorted q s reqUser._id).drop (i * (timeframeOr q.limit 10).toNat)
          = [] := by
        apply List.drop_eq_nil_of_le
        exact hcover.trans (Nat.mul_le_mul_right _ hi)
      rw [hdrop, List.take_nil]

/-- C29 on `newestFirstStore` with limit 2: three matching entries on two pages, the
third page is empty. -/
theorem journal_list_pages_witness :
    (∃ r, listHandler (pageOfTwo "1") marchEnv newestFirstStore optedInUser = .ok r ∧
      r.entries.map (fun v => v._id) = [1, 2] ∧
      r.pagination = { page := 1, limit := 2, total := 3, pages := 2 }) ∧
    (∃ r, listHandler (pageOfTwo "2") marchEnv newestFirstStore optedInUser = .ok r ∧
      r.entries.map (fun v => v._id) = [3]) ∧
    (∃ r, listHandler (pageOfTwo "3") marchEnv newestFirstStore optedInUser = .ok r ∧
      r.entries = []) := by
  obtain ⟨-, -, -, -, -, r1, h1, e1, -, p1, l1, t1, g1, -⟩ :=
    journal_list_pages (pageOfTwo "1") marchEnv newestFirstStore optedInUser (by decide)
  obtain ⟨-, -, -, -, -, r2, h2, e2, -⟩ :=
    journal_list_pages (pageOfTwo "2") marchEnv newestFirstStore optedInUser (by decide)
  obtain ⟨-, -, -, -, -, r3, h3, e3, -⟩ :=
    journal_list_pages (pageOfTwo "3") marchEnv newestFirstStore optedInUser (by decide)
  refine ⟨⟨r1, h1, ?_, ?_⟩, ⟨r2, h2, ?_⟩, ⟨r3, h3, ?_⟩⟩
  · rw [e1]; decide
  · have hl : r1.pagination.limit = 2 := by rw [l1]; decide
    have ht : r1.pagination.total = 3 := by rw [t1]; decide
    have hp : r1.pagination.page = 1 := by rw [p1]; decide
    have hg : r1.pagination.pages = 2 := by
      rw [g1, hl, ht]
      with_unfolding_all decide
    cases hr : r1.pagination with
    | mk a b c d =>
      rw [hr] at hl ht hp hg
      simp only at hl ht hp hg
      rw [hl, ht, hp, hg]
  · rw [e2]; decide
  · rw [e3]; decide

end Personal
